import Mathlib

/-!
Verification development for the archiscribe-mcp model-manipulation core.

This file gives a shallow embedding of the Mutation Engine
(src/model/manipulator.ts), the business-rules validator
(src/utils/business-rules-validator.ts) and the Exchange Codec view
serializer (src/model/persistence.ts), together with theorems settling the
frozen claims about them.

Conventions of the embedding:
* TypeScript objects become Lean structures; the TS field `type` is a Lean
  keyword and is rendered `type_`.
* JS `Record<string, string>` property bags become ordered association
  lists with unique keys (JS object key semantics: update in place,
  insert appends).
* Optional TS fields / parameters become `Option`.
* Every mutating operation is a pure function `ModelData → ... → OpResult α`
  returning the thrown error or the produced value TOGETHER WITH the model
  state after the call, so that partial writes made before a throw are
  observable.
* `Date.now()`-based id generation is nondeterministic; the minted id is
  passed in as an explicit `genId` argument.
* JS `array.splice(array.findIndex(p), 1)` is `List.eraseP p`;
  `array.splice(array.indexOf(x), 1)` is `List.erase x`; in-place mutation
  of the first object found by `find` is `modifyP`.
-/

/-- Drop leading whitespace characters from a character list. -/
def dropLeadingWhitespace : List Char → List Char
  | [] => []
  | c :: cs => if c.isWhitespace then dropLeadingWhitespace cs else c :: cs

/-- JS `String.prototype.trim()`: strip leading and trailing whitespace.
Defined by structural recursion so that concrete inputs evaluate inside the
kernel (Lean's own `String.trim` does not reduce definitionally). -/
def String.jsTrim (s : String) : String :=
  String.mk ((dropLeadingWhitespace (dropLeadingWhitespace s.data).reverse).reverse)

namespace ArchiScribe

/-- Update the first element of a list satisfying `p` (JS: mutate the object
returned by `Array.prototype.find`). -/
def modifyP (p : α → Bool) (f : α → α) : List α → List α
  | [] => []
  | x :: xs => if p x then f x :: xs else x :: modifyP p f xs

/-- JS object property write `o[k] = v`: update in place if the key exists,
else append. -/
def objSet (l : List (String × String)) (k v : String) : List (String × String) :=
  if l.any (fun p => p.1 == k) then
    l.map (fun p => if p.1 == k then (k, v) else p)
  else l ++ [(k, v)]

/-- JS `k in o`. -/
def objHas (l : List (String × String)) (k : String) : Bool :=
  l.any (fun p => p.1 == k)

/-- JS `delete o[k]`. -/
def objDelete (l : List (String × String)) (k : String) : List (String × String) :=
  l.filter (fun p => p.1 != k)

/-- A `{parentElement, childElement}` node-hierarchy pair of a view. -/
structure HierarchyPair where
  parentElement : String
  childElement : String
deriving DecidableEq, Repr

/-- ElementObject of model/types.ts as used by the manipulator. -/
structure ElementObject where
  id : String
  name : String
  type_ : String
  documentation : Option String
  properties : List (String × String)
  inViews : List String
  outgoingRelations : List String
  incomingRelations : List String
deriving DecidableEq, Repr

/-- RelationshipObject of model/types.ts. -/
structure RelationshipObject where
  id : String
  type_ : String
  sourceId : String
  targetId : String
  name : Option String
  documentation : Option String
  properties : List (String × String)
deriving DecidableEq, Repr

/-- ViewObject of model/types.ts. -/
structure ViewObject where
  id : String
  name : String
  type_ : Option String
  viewpoint : Option String
  documentation : Option String
  properties : List (String × String)
  elements : List String
  relationships : List String
  nodeHierarchy : List HierarchyPair
deriving DecidableEq, Repr

/-- PropertyDefinition of manipulator-types.ts. -/
structure PropertyDefinition where
  identifier : String
  name : String
deriving DecidableEq, Repr

/-- ModelData: the aggregate of the four collections. -/
structure ModelData where
  elements : List ElementObject
  relationships : List RelationshipObject
  views : List ViewObject
  propertyDefinitions : List PropertyDefinition
deriving DecidableEq, Repr

/-- The four error kinds of manipulator-types.ts. -/
inductive ManipError where
  | validationError (msg : String)
  | notFoundError (entityType entityId : String)
  | duplicateError (entityType entityId : String)
  | referentialIntegrityError (entityType entityId : String)
      (dependentEntities : List String)
deriving DecidableEq, Repr

/-- Result of a mutation call: the thrown error or the returned value, paired
with the model state at the moment the call ends (also after a throw). -/
abbrev OpResult (α : Type) := Except ManipError α × ModelData

def isErr : Except ManipError α → Bool
  | .error _ => true
  | .ok _ => false

instance {ε α : Type} [DecidableEq ε] [DecidableEq α] : DecidableEq (Except ε α) :=
  fun x y =>
    match x, y with
    | .error a, .error b =>
      if h : a = b then isTrue (by rw [h]) else isFalse (by intro hh; cases hh; exact h rfl)
    | .ok a, .ok b =>
      if h : a = b then isTrue (by rw [h]) else isFalse (by intro hh; cases hh; exact h rfl)
    | .error _, .ok _ => isFalse (by intro hh; cases hh)
    | .ok _, .error _ => isFalse (by intro hh; cases hh)

-- ============================================================================
-- Type taxonomy (ModelManipulator.validateElementType /
-- validateRelationshipType)
-- ============================================================================

/-- The closed set of valid ArchiMate 3.1 element types
(manipulator.ts lines 1336-1359). -/
def validElementTypes : List String :=
  [ "BusinessActor", "BusinessRole", "BusinessCollaboration", "BusinessInterface",
    "BusinessProcess", "BusinessFunction", "BusinessInteraction", "BusinessEvent",
    "BusinessService", "BusinessObject", "Contract", "Representation",
    "ApplicationComponent", "ApplicationCollaboration", "ApplicationInterface",
    "ApplicationFunction", "ApplicationInteraction", "ApplicationProcess",
    "ApplicationEvent", "ApplicationService", "DataObject",
    "Node", "Device", "SystemSoftware", "TechnologyCollaboration",
    "TechnologyInterface", "TechnologyFunction", "TechnologyProcess",
    "TechnologyInteraction", "TechnologyEvent", "TechnologyService",
    "Artifact", "CommunicationNetwork", "Path", "Network",
    "Stakeholder", "Driver", "Assessment", "Goal", "Outcome",
    "Principle", "Requirement", "Constraint",
    "Resource", "Capability", "CourseOfAction", "ValueStream",
    "Equipment", "Facility", "DistributionNetwork", "Material",
    "WorkPackage", "Deliverable", "ImplementationEvent", "Plateau", "Gap" ]

/-- The closed set of valid ArchiMate 3.1 relationship types
(manipulator.ts lines 1378-1386). -/
def validRelationshipTypes : List String :=
  [ "Composition", "Aggregation", "Assignment", "Realization", "Serving",
    "Access", "Influence", "Association",
    "Flow", "Triggering",
    "Specialization", "Junction" ]

/-- `validateElementType` returns a valid result iff the type is in the set. -/
def validateElementType (t : String) : Bool := validElementTypes.contains t

/-- `validateRelationshipType` likewise. -/
def validateRelationshipType (t : String) : Bool := validRelationshipTypes.contains t

-- ============================================================================
-- Lookup helpers of ModelManipulator
-- ============================================================================

/-- `getElement` (first match or null). -/
def getElement (m : ModelData) (id : String) : Option ElementObject :=
  m.elements.find? (fun e => e.id == id)

/-- `getRelationship`. -/
def getRelationship (m : ModelData) (id : String) : Option RelationshipObject :=
  m.relationships.find? (fun r => r.id == id)

/-- `getView`. -/
def getView (m : ModelData) (id : String) : Option ViewObject :=
  m.views.find? (fun v => v.id == id)

/-- `identifierExists`: the combined id space of elements, relationships and
views (manipulator.ts lines 1315-1322). -/
def identifierExists (m : ModelData) (id : String) : Bool :=
  (m.elements.map (fun e => e.id) ++ m.relationships.map (fun r => r.id)
    ++ m.views.map (fun v => v.id)).contains id

/-- `getPropertyDefinition`. -/
def getPropertyDefinition (m : ModelData) (id : String) : Option PropertyDefinition :=
  m.propertyDefinitions.find? (fun pd => pd.identifier == id)

-- ============================================================================
-- Element operations
-- ============================================================================

structure CreateElementInput where
  type_ : String
  name : String
  identifier : Option String := none
  documentation : Option String := none
  properties : Option (List (String × String)) := none
deriving DecidableEq, Repr

structure UpdateElementInput where
  name : Option String := none
  type_ : Option String := none
  documentation : Option String := none
  properties : Option (List (String × String)) := none
deriving DecidableEq, Repr

structure DeleteOptions where
  cascade : Bool := true
  validate : Bool := true
deriving DecidableEq, Repr

/-- The identifier actually used by the create operations: the supplied one
unless it is absent or blank, in which case the freshly minted `genId`
(manipulator.ts lines 122-125, 350-353, 580-583). -/
def effectiveId (given : Option String) (genId : String) : String :=
  match given with
  | none => genId
  | some s => if s.jsTrim == "" then genId else s

/-- `ModelManipulator.createElement` (manipulator.ts lines 105-150).
`genId` stands for the id minted by `generateId` when none is supplied. -/
def createElement (m : ModelData) (data : CreateElementInput) (genId : String) :
    OpResult ElementObject :=
  if data.name.jsTrim == "" then
    (.error (.validationError "Element name is required"), m)
  else if data.type_.jsTrim == "" then
    (.error (.validationError "Element type is required"), m)
  else if !validateElementType data.type_ then
    (.error (.validationError ("Invalid element type: " ++ data.type_)), m)
  else
    let identifier := effectiveId data.identifier genId
    if identifierExists m identifier then
      (.error (.duplicateError "element" identifier), m)
    else
      let element : ElementObject :=
        { id := identifier
          name := data.name.jsTrim
          type_ := data.type_.jsTrim
          documentation := data.documentation.map (fun d => d.jsTrim)
          properties := data.properties.getD []
          inViews := []
          outgoingRelations := []
          incomingRelations := [] }
      (.ok element, { m with elements := m.elements ++ [element] })

/-- The field application block of `updateElement` (lines 174-191), after all
validation has passed. -/
def applyElementUpdate (data : UpdateElementInput) (e : ElementObject) : ElementObject :=
  let e1 := match data.name with
    | some n => { e with name := n.jsTrim }
    | none => e
  let e2 := match data.type_ with
    | some t => { e1 with type_ := t.jsTrim }
    | none => e1
  let e3 := match data.documentation with
    | some d => { e2 with documentation := some d.jsTrim }
    | none => e2
  match data.properties with
  | some ps => { e3 with properties := ps }
  | none => e3

/-- `ModelManipulator.updateElement` (manipulator.ts lines 155-197). Note the
source validates a supplied type only when it is truthy (non-empty) and
differs from the current type. -/
def updateElement (m : ModelData) (id : String) (data : UpdateElementInput) :
    OpResult ElementObject :=
  match m.elements.find? (fun e => e.id == id) with
  | none => (.error (.notFoundError "element" id), m)
  | some element =>
    if (match data.type_ with
        | some t => t != "" && t != element.type_ && !validateElementType t
        | none => false) then
      (.error (.validationError ("Invalid element type: " ++ data.type_.getD "")), m)
    else if (match data.name with
        | some n => n.jsTrim == ""
        | none => false) then
      (.error (.validationError "Element name cannot be empty"), m)
    else
      let e' := applyElementUpdate data element
      (.ok e', { m with elements := modifyP (fun e => e.id == id) (fun _ => e') m.elements })

/-- Body of the outgoing-relationship cascade loop of `deleteElement`
(lines 234-248): remove the relationship `relId` from its target element's
`incomingRelations` and from the relationship list. -/
def removeOutgoingRel (m : ModelData) (relId : String) : ModelData :=
  match m.relationships.find? (fun r => r.id == relId) with
  | none => m
  | some rel =>
    { m with
      elements := modifyP (fun e => e.id == rel.targetId)
        (fun t => { t with incomingRelations := t.incomingRelations.erase relId })
        m.elements
      relationships := m.relationships.eraseP (fun r => r.id == relId) }

/-- Body of the incoming-relationship cascade loop of `deleteElement`
(lines 252-266). -/
def removeIncomingRel (m : ModelData) (relId : String) : ModelData :=
  match m.relationships.find? (fun r => r.id == relId) with
  | none => m
  | some rel =>
    { m with
      elements := modifyP (fun e => e.id == rel.sourceId)
        (fun s => { s with outgoingRelations := s.outgoingRelations.erase relId })
        m.elements
      relationships := m.relationships.eraseP (fun r => r.id == relId) }

/-- Body of the view-cleanup loop of `deleteElement` (lines 270-288). -/
def stripElementFromViewRecord (id : String) (v : ViewObject) : ViewObject :=
  { v with
    elements := v.elements.erase id
    nodeHierarchy := v.nodeHierarchy.filter
      (fun h => h.parentElement != id && h.childElement != id) }

/-- The cascade phase of `deleteElement` (lines 231-289): first all outgoing
relationships, then all incoming ones (the list re-read from the current
state, as the source reads the live object), then the views. -/
def cascadeDelete (m : ModelData) (id : String) (element : ElementObject) : ModelData :=
  let m1 := element.outgoingRelations.foldl removeOutgoingRel m
  let incomingIds :=
    (m1.elements.find? (fun e => e.id == id)).map
      (fun e => e.incomingRelations) |>.getD []
  let m2 := incomingIds.foldl removeIncomingRel m1
  let viewIds :=
    (m2.elements.find? (fun e => e.id == id)).map (fun e => e.inViews) |>.getD []
  viewIds.foldl
    (fun mm viewId =>
      let views' := modifyP (fun v => v.id == viewId) (stripElementFromViewRecord id) mm.views
      { mm with views := views' })
    m2

/-- `ModelManipulator.deleteElement` (manipulator.ts lines 202-296). -/
def deleteElement (m : ModelData) (id : String) (opts : DeleteOptions) : OpResult Unit :=
  match m.elements.find? (fun e => e.id == id) with
  | none => (.error (.notFoundError "element" id), m)
  | some element =>
    let dependentRelations := element.outgoingRelations ++ element.incomingRelations
    let dependentViews := element.inViews
    if opts.validate && !opts.cascade
        && (dependentRelations.length > 0 || dependentViews.length > 0) then
      (.error (.referentialIntegrityError "element" id
        (dependentRelations ++ dependentViews)), m)
    else
      let m3 := if opts.cascade then cascadeDelete m id element else m
      (.ok (), { m3 with elements := m3.elements.eraseP (fun e => e.id == id) })

-- ============================================================================
-- Relationship operations
-- ============================================================================

structure CreateRelationshipInput where
  type_ : String
  sourceId : String
  targetId : String
  identifier : Option String := none
  name : Option String := none
  documentation : Option String := none
  properties : Option (List (String × String)) := none
deriving DecidableEq, Repr

structure UpdateRelationshipInput where
  type_ : Option String := none
  sourceId : Option String := none
  targetId : Option String := none
  name : Option String := none
  documentation : Option String := none
  properties : Option (List (String × String)) := none
deriving DecidableEq, Repr

/-- `ModelManipulator.createRelationship` (manipulator.ts lines 312-389).
Validation order is the source order: blank checks, type taxonomy, source
existence, target existence, self-loop, id collision. -/
def createRelationship (m : ModelData) (data : CreateRelationshipInput)
    (genId : String) : OpResult RelationshipObject :=
  if data.type_.jsTrim == "" then
    (.error (.validationError "Relationship type is required"), m)
  else if data.sourceId.jsTrim == "" then
    (.error (.validationError "Source element ID is required"), m)
  else if data.targetId.jsTrim == "" then
    (.error (.validationError "Target element ID is required"), m)
  else if !validateRelationshipType data.type_ then
    (.error (.validationError ("Invalid relationship type: " ++ data.type_)), m)
  else if (getElement m data.sourceId).isNone then
    (.error (.notFoundError "element" data.sourceId), m)
  else if (getElement m data.targetId).isNone then
    (.error (.notFoundError "element" data.targetId), m)
  else if data.sourceId == data.targetId then
    (.error (.validationError "Source and target elements must be different"), m)
  else
    let identifier := effectiveId data.identifier genId
    if identifierExists m identifier then
      (.error (.duplicateError "relationship" identifier), m)
    else
      let relationship : RelationshipObject :=
        { id := identifier
          sourceId := data.sourceId.jsTrim
          targetId := data.targetId.jsTrim
          type_ := data.type_.jsTrim
          name := data.name.map (fun n => n.jsTrim)
          documentation := data.documentation.map (fun d => d.jsTrim)
          properties := data.properties.getD [] }
      let elements1 := modifyP (fun e => e.id == data.sourceId)
        (fun s => { s with outgoingRelations := s.outgoingRelations ++ [identifier] })
        m.elements
      let elements2 := modifyP (fun e => e.id == data.targetId)
        (fun t => { t with incomingRelations := t.incomingRelations ++ [identifier] })
        elements1
      (.ok relationship,
        { m with relationships := m.relationships ++ [relationship]
                 elements := elements2 })

/-- The field application block of `updateRelationship` (lines 482-504). -/
def applyRelationshipUpdate (data : UpdateRelationshipInput)
    (r : RelationshipObject) : RelationshipObject :=
  let r1 := match data.type_ with
    | some t => { r with type_ := t.jsTrim }
    | none => r
  let r2 := match data.sourceId with
    | some s => { r1 with sourceId := s.jsTrim }
    | none => r1
  let r3 := match data.targetId with
    | some t => { r2 with targetId := t.jsTrim }
    | none => r2
  let r4 := match data.name with
    | some n => { r3 with name := some n.jsTrim }
    | none => r3
  let r5 := match data.documentation with
    | some d => { r4 with documentation := some d.jsTrim }
    | none => r4
  match data.properties with
  | some ps => { r5 with properties := ps }
  | none => r5

/-- Endpoint-migration of `updateRelationship` for the source side
(lines 437-457): remove the id from the previous source's `outgoingRelations`
and add it to the new source's, when the source is being changed. -/
def migrateSource (m : ModelData) (relId previousSourceId newSourceId : String) :
    ModelData :=
  let elements1 := modifyP (fun e => e.id == previousSourceId)
    (fun e => { e with outgoingRelations := e.outgoingRelations.erase relId })
    m.elements
  let elements2 := modifyP (fun e => e.id == newSourceId)
    (fun e => if e.outgoingRelations.contains relId then e
              else { e with outgoingRelations := e.outgoingRelations ++ [relId] })
    elements1
  { m with elements := elements2 }

/-- Endpoint-migration for the target side (lines 459-479). -/
def migrateTarget (m : ModelData) (relId previousTargetId newTargetId : String) :
    ModelData :=
  let elements1 := modifyP (fun e => e.id == previousTargetId)
    (fun e => { e with incomingRelations := e.incomingRelations.erase relId })
    m.elements
  let elements2 := modifyP (fun e => e.id == newTargetId)
    (fun e => if e.incomingRelations.contains relId then e
              else { e with incomingRelations := e.incomingRelations ++ [relId] })
    elements1
  { m with elements := elements2 }

/-- `ModelManipulator.updateRelationship` (manipulator.ts lines 394-510).
A supplied value participates in validation and migration only when it is
truthy (non-empty) — the JS guards are `data.sourceId && ...` — but the final
field write happens whenever the field is present at all. -/
def updateRelationship (m : ModelData) (id : String)
    (data : UpdateRelationshipInput) : OpResult RelationshipObject :=
  match m.relationships.find? (fun r => r.id == id) with
  | none => (.error (.notFoundError "relationship" id), m)
  | some relationship =>
    if (match data.type_ with
        | some t => t != "" && t != relationship.type_ && !validateRelationshipType t
        | none => false) then
      (.error (.validationError ("Invalid relationship type: " ++ data.type_.getD "")), m)
    else if (match data.sourceId with
        | some s => s != "" && s != relationship.sourceId && (getElement m s).isNone
        | none => false) then
      (.error (.notFoundError "element" (data.sourceId.getD "")), m)
    else if (match data.targetId with
        | some t => t != "" && t != relationship.targetId && (getElement m t).isNone
        | none => false) then
      (.error (.notFoundError "element" (data.targetId.getD "")), m)
    else
      let newSourceId := match data.sourceId with
        | some s => if s == "" then relationship.sourceId else s
        | none => relationship.sourceId
      let newTargetId := match data.targetId with
        | some t => if t == "" then relationship.targetId else t
        | none => relationship.targetId
      if newSourceId == newTargetId then
        (.error (.validationError "Source and target elements must be different"), m)
      else
        let m1 :=
          match data.sourceId with
          | some s =>
            if s != "" && s != relationship.sourceId then
              migrateSource m id relationship.sourceId s
            else m
          | none => m
        let m2 :=
          match data.targetId with
          | some t =>
            if t != "" && t != relationship.targetId then
              migrateTarget m1 id relationship.targetId t
            else m1
          | none => m1
        let r' := applyRelationshipUpdate data relationship
        (.ok r',
          { m2 with relationships :=
              modifyP (fun r => r.id == id) (fun _ => r') m2.relationships })

/-- `ModelManipulator.deleteRelationship` (manipulator.ts lines 515-557). -/
def deleteRelationship (m : ModelData) (id : String) : OpResult Unit :=
  match m.relationships.find? (fun r => r.id == id) with
  | none => (.error (.notFoundError "relationship" id), m)
  | some relationship =>
    let elements1 := modifyP (fun e => e.id == relationship.sourceId)
      (fun s => { s with outgoingRelations := s.outgoingRelations.erase id })
      m.elements
    let elements2 := modifyP (fun e => e.id == relationship.targetId)
      (fun t => { t with incomingRelations := t.incomingRelations.erase id })
      elements1
    let views' := m.views.map
      (fun v => { v with relationships := v.relationships.erase id })
    (.ok (),
      { m with elements := elements2
               views := views'
               relationships := m.relationships.eraseP (fun r => r.id == id) })

-- ============================================================================
-- View operations
-- ============================================================================

structure CreateViewInput where
  name : String
  identifier : Option String := none
  type_ : Option String := none
  viewpoint : Option String := none
  documentation : Option String := none
  properties : Option (List (String × String)) := none
  elements : Option (List String) := none
  relationships : Option (List String) := none
  nodeHierarchy : Option (List HierarchyPair) := none
deriving DecidableEq, Repr

structure UpdateViewInput where
  name : Option String := none
  type_ : Option String := none
  viewpoint : Option String := none
  documentation : Option String := none
  properties : Option (List (String × String)) := none
  elements : Option (List String) := none
  relationships : Option (List String) := none
  nodeHierarchy : Option (List HierarchyPair) := none
deriving DecidableEq, Repr

/-- First entry of `l` whose referenced element is missing (the for-loops of
lines 591-597 and 712-717 report the first missing id). -/
def firstMissingElement (m : ModelData) (l : List String) : Option String :=
  l.find? (fun eid => (getElement m eid).isNone)

/-- First entry whose referenced relationship is missing. -/
def firstMissingRelationship (m : ModelData) (l : List String) : Option String :=
  l.find? (fun rid => (getRelationship m rid).isNone)

/-- First missing element id among hierarchy pairs, checking each pair's
parent then child (lines 609-618 and 750-757). -/
def firstMissingHierarchyElement (m : ModelData) (l : List HierarchyPair) :
    Option String :=
  l.findSome? (fun h =>
    if (getElement m h.parentElement).isNone then some h.parentElement
    else if (getElement m h.childElement).isNone then some h.childElement
    else none)

/-- Add `viewId` to the `inViews` of every element listed in `elementIds`
(if not already present), mirroring lines 637-649 and 722-732. -/
def addInViews (m : ModelData) (viewId : String) (elementIds : List String) :
    ModelData :=
  elementIds.foldl
    (fun mm eid =>
      let elements' := modifyP (fun e => e.id == eid)
        (fun e => if e.inViews.contains viewId then e
                  else { e with inViews := e.inViews ++ [viewId] })
        mm.elements
      { mm with elements := elements' })
    m

/-- Remove `viewId` from the `inViews` of every element listed
(lines 701-710 and 781-791). -/
def removeInViews (m : ModelData) (viewId : String) (elementIds : List String) :
    ModelData :=
  elementIds.foldl
    (fun mm eid =>
      let elements' := modifyP (fun e => e.id == eid)
        (fun e => { e with inViews := e.inViews.erase viewId })
        mm.elements
      { mm with elements := elements' })
    m

/-- `ModelManipulator.createView` (manipulator.ts lines 573-655). -/
def createView (m : ModelData) (data : CreateViewInput) (genId : String) :
    OpResult ViewObject :=
  if data.name.jsTrim == "" then
    (.error (.validationError "View name is required"), m)
  else
    let identifier := effectiveId data.identifier genId
    if identifierExists m identifier then
      (.error (.duplicateError "view" identifier), m)
    else match firstMissingElement m (data.elements.getD []) with
    | some eid => (.error (.notFoundError "element" eid), m)
    | none => match firstMissingRelationship m (data.relationships.getD []) with
      | some rid => (.error (.notFoundError "relationship" rid), m)
      | none => match firstMissingHierarchyElement m (data.nodeHierarchy.getD []) with
        | some hid => (.error (.notFoundError "element" hid), m)
        | none =>
          let view : ViewObject :=
            { id := identifier
              name := data.name.jsTrim
              type_ := data.type_.map (fun t => t.jsTrim)
              viewpoint := data.viewpoint.map (fun v => v.jsTrim)
              documentation := data.documentation.map (fun d => d.jsTrim)
              properties := data.properties.getD []
              elements := data.elements.getD []
              relationships := data.relationships.getD []
              nodeHierarchy := data.nodeHierarchy.getD [] }
          let m1 := { m with views := m.views ++ [view] }
          (.ok view, addInViews m1 identifier view.elements)

/-- Scalar-field part of `updateView` (lines 672-697): name (validated),
type, viewpoint, documentation, properties. Returns `none` for the blank-name
`ValidationError`. -/
def applyViewScalarUpdate (data : UpdateViewInput) (v : ViewObject) :
    Option ViewObject :=
  match data.name with
  | some n =>
    if n.jsTrim == "" then none
    else some (applyViewScalarRest data { v with name := n.jsTrim })
  | none => some (applyViewScalarRest data v)
where
  applyViewScalarRest (data : UpdateViewInput) (v : ViewObject) : ViewObject :=
    let v1 := match data.type_ with
      | some t => { v with type_ := some t.jsTrim }
      | none => v
    let v2 := match data.viewpoint with
      | some vp => { v1 with viewpoint := some vp.jsTrim }
      | none => v1
    let v3 := match data.documentation with
      | some d => { v2 with documentation := some d.jsTrim }
      | none => v2
    match data.properties with
    | some ps => { v3 with properties := ps }
    | none => v3

/-- Write an updated view record back into the model (the source mutates the
object held inside `model.views` in place). -/
def putView (m : ModelData) (id : String) (v : ViewObject) : ModelData :=
  { m with views := modifyP (fun w => w.id == id) (fun _ => v) m.views }

/-- `ModelManipulator.updateView` (manipulator.ts lines 660-766). The source
applies scalar fields first, then — when `elements` is supplied — REMOVES the
previous elements' `inViews` references BEFORE validating that the new
element ids exist, so a NotFoundError thrown there leaves those mutations in
place. The `relationships` and `nodeHierarchy` validations likewise run after
earlier sections already committed their writes. -/
def updateView (m : ModelData) (id : String) (data : UpdateViewInput) :
    OpResult ViewObject :=
  match m.views.find? (fun v => v.id == id) with
  | none => (.error (.notFoundError "view" id), m)
  | some view =>
    let previousElements := view.elements
    match applyViewScalarUpdate data view with
    | none => (.error (.validationError "View name cannot be empty"), m)
    | some v1 =>
      let mScal := putView m id v1
      let step2 : Except ManipError (ViewObject × ModelData) :=
        match data.elements with
        | none => .ok (v1, mScal)
        | some els =>
          let mStripped := removeInViews mScal id previousElements
          match firstMissingElement mStripped els with
          | some eid => .error (.notFoundError "element" eid)
          | none =>
            let v2 := { v1 with elements := els }
            let mSet := putView mStripped id v2
            .ok (v2, addInViews mSet id els)
      match step2 with
      | .error e =>
        (.error e,
          match data.elements with
          | none => mScal
          | some _ => removeInViews mScal id previousElements)
      | .ok (v2, m2) =>
        match data.relationships with
        | some rels =>
          (match firstMissingRelationship m2 rels with
           | some rid => (.error (.notFoundError "relationship" rid), m2)
           | none =>
             let v3 := { v2 with relationships := rels }
             let m3 := putView m2 id v3
             finishHierarchy m3 id data v3)
        | none => finishHierarchy m2 id data v2
where
  finishHierarchy (m : ModelData) (id : String) (data : UpdateViewInput)
      (v : ViewObject) : OpResult ViewObject :=
    match data.nodeHierarchy with
    | none => (.ok v, m)
    | some hs =>
      match firstMissingHierarchyElement m hs with
      | some hid => (.error (.notFoundError "element" hid), m)
      | none =>
        let v' := { v with nodeHierarchy := hs }
        (.ok v', putView m id v')

/-- `ModelManipulator.deleteView` (manipulator.ts lines 771-798). -/
def deleteView (m : ModelData) (id : String) : OpResult Unit :=
  match m.views.find? (fun v => v.id == id) with
  | none => (.error (.notFoundError "view" id), m)
  | some view =>
    let m1 := removeInViews m id view.elements
    (.ok (), { m1 with views := m1.views.eraseP (fun v => v.id == id) })

/-- `ModelManipulator.addElementToView` (manipulator.ts lines 810-870). Note
that the element is added to the view and the view to the element's `inViews`
BEFORE a missing `parentElementId` is detected, so that NotFoundError leaves
these mutations in place. -/
def addElementToView (m : ModelData) (viewId elementId : String)
    (parentElementId : Option String) : OpResult Unit :=
  match getView m viewId with
  | none => (.error (.notFoundError "view" viewId), m)
  | some view =>
    if (getElement m elementId).isNone then
      (.error (.notFoundError "element" elementId), m)
    else
      let v1 := if view.elements.contains elementId then view
                else { view with elements := view.elements ++ [elementId] }
      let m1 := putView m viewId v1
      let m2 := addInViews m1 viewId [elementId]
      match parentElementId with
      | none => (.ok (), m2)
      | some pid =>
        if (getElement m2 pid).isNone then
          (.error (.notFoundError "element" pid), m2)
        else
          let v2 := if v1.elements.contains pid then v1
                    else { v1 with elements := v1.elements ++ [pid] }
          let m3 := putView m2 viewId v2
          let m4 := if v1.elements.contains pid then m3
                    else addInViews m3 viewId [pid]
          let v5 :=
            if v2.nodeHierarchy.any
                (fun h => h.parentElement == pid && h.childElement == elementId) then v2
            else { v2 with nodeHierarchy :=
                     v2.nodeHierarchy ++ [⟨pid, elementId⟩] }
          (.ok (), putView m4 viewId v5)

/-- `ModelManipulator.removeElementFromView` (manipulator.ts lines 875-924). -/
def removeElementFromView (m : ModelData) (viewId elementId : String) :
    OpResult Unit :=
  match getView m viewId with
  | none => (.error (.notFoundError "view" viewId), m)
  | some view =>
    let v1 := { view with
      elements := view.elements.erase elementId
      nodeHierarchy := view.nodeHierarchy.filter
        (fun h => h.parentElement != elementId && h.childElement != elementId) }
    let relationshipsToRemove := view.relationships.filter
      (fun relId =>
        match getRelationship m relId with
        | some rel => rel.sourceId == elementId || rel.targetId == elementId
        | none => false)
    let v2 := { v1 with relationships :=
      relationshipsToRemove.foldl (fun l relId => l.erase relId) v1.relationships }
    let m1 := putView m viewId v2
    let m2 := removeInViews m1 viewId [elementId]
    (.ok (), m2)

/-- `ModelManipulator.addRelationshipToView` (manipulator.ts lines 929-986). -/
def addRelationshipToView (m : ModelData) (viewId relationshipId : String) :
    OpResult Unit :=
  match getView m viewId with
  | none => (.error (.notFoundError "view" viewId), m)
  | some view =>
    match getRelationship m relationshipId with
    | none => (.error (.notFoundError "relationship" relationshipId), m)
    | some relationship =>
      if (getElement m relationship.sourceId).isNone then
        (.error (.notFoundError "element" relationship.sourceId), m)
      else if (getElement m relationship.targetId).isNone then
        (.error (.notFoundError "element" relationship.targetId), m)
      else
        let (v1, m1) :=
          if view.elements.contains relationship.sourceId then (view, m)
          else
            let v := { view with elements := view.elements ++ [relationship.sourceId] }
            (v, addInViews (putView m viewId v) viewId [relationship.sourceId])
        let (v2, m2) :=
          if v1.elements.contains relationship.targetId then (v1, m1)
          else
            let v := { v1 with elements := v1.elements ++ [relationship.targetId] }
            (v, addInViews (putView m1 viewId v) viewId [relationship.targetId])
        let v3 := if v2.relationships.contains relationshipId then v2
                  else { v2 with relationships := v2.relationships ++ [relationshipId] }
        (.ok (), putView m2 viewId v3)

/-- `ModelManipulator.removeRelationshipFromView` (lines 991-1007). -/
def removeRelationshipFromView (m : ModelData) (viewId relationshipId : String) :
    OpResult Unit :=
  match getView m viewId with
  | none => (.error (.notFoundError "view" viewId), m)
  | some view =>
    let v1 := { view with relationships := view.relationships.erase relationshipId }
    (.ok (), putView m viewId v1)

-- ============================================================================
-- Property operations
-- ============================================================================

structure CreatePropertyDefinitionInput where
  identifier : String
  name : String
deriving DecidableEq, Repr

/-- The entity kind discriminator of `findEntity` (manipulator.ts lines
1026-1037): element first, then relationship, then view. -/
inductive EntityKind where
  | element
  | relationship
  | view
deriving DecidableEq, Repr

def findEntityKind (m : ModelData) (id : String) : Option EntityKind :=
  if (getElement m id).isSome then some .element
  else if (getRelationship m id).isSome then some .relationship
  else if (getView m id).isSome then some .view
  else none

/-- Properties bag of the entity found by `findEntity`. -/
def entityProperties (m : ModelData) (kind : EntityKind) (id : String) :
    List (String × String) :=
  match kind with
  | .element => ((getElement m id).map (fun e => e.properties)).getD []
  | .relationship => ((getRelationship m id).map (fun r => r.properties)).getD []
  | .view => ((getView m id).map (fun v => v.properties)).getD []

/-- Apply `f` to the found entity's properties bag in place. -/
def mapEntityProperties (m : ModelData) (kind : EntityKind) (id : String)
    (f : List (String × String) → List (String × String)) : ModelData :=
  match kind with
  | .element =>
    let els := modifyP (fun e => e.id == id)
      (fun e => { e with properties := f e.properties }) m.elements
    { m with elements := els }
  | .relationship =>
    let rels := modifyP (fun r => r.id == id)
      (fun r => { r with properties := f r.properties }) m.relationships
    { m with relationships := rels }
  | .view =>
    let vs := modifyP (fun v => v.id == id)
      (fun v => { v with properties := f v.properties }) m.views
    { m with views := vs }

/-- `ModelManipulator.createPropertyDefinition` (lines 1042-1075). -/
def createPropertyDefinition (m : ModelData)
    (data : CreatePropertyDefinitionInput) : OpResult PropertyDefinition :=
  if data.identifier.jsTrim == "" then
    (.error (.validationError "Property definition identifier is required"), m)
  else if data.name.jsTrim == "" then
    (.error (.validationError "Property definition name is required"), m)
  else if (getPropertyDefinition m data.identifier.jsTrim).isSome then
    (.error (.duplicateError "property definition" data.identifier), m)
  else
    let propertyDef : PropertyDefinition :=
      { identifier := data.identifier.jsTrim, name := data.name.jsTrim }
    (.ok propertyDef,
      { m with propertyDefinitions := m.propertyDefinitions ++ [propertyDef] })

/-- `ModelManipulator.assignProperty` (lines 1080-1108). -/
def assignProperty (m : ModelData) (targetId propertyDefId value : String) :
    OpResult Unit :=
  if (getPropertyDefinition m propertyDefId).isNone then
    (.error (.notFoundError "property definition" propertyDefId), m)
  else match findEntityKind m targetId with
  | none => (.error (.notFoundError "entity" targetId), m)
  | some kind =>
    (.ok (), mapEntityProperties m kind targetId
      (fun ps => objSet ps propertyDefId value))

/-- `ModelManipulator.updateProperty` (lines 1113-1141). -/
def updateProperty (m : ModelData) (targetId propertyDefId value : String) :
    OpResult Unit :=
  if (getPropertyDefinition m propertyDefId).isNone then
    (.error (.notFoundError "property definition" propertyDefId), m)
  else match findEntityKind m targetId with
  | none => (.error (.notFoundError "entity" targetId), m)
  | some kind =>
    if !objHas (entityProperties m kind targetId) propertyDefId then
      (.error (.notFoundError "property" (targetId ++ "." ++ propertyDefId)), m)
    else
      (.ok (), mapEntityProperties m kind targetId
        (fun ps => objSet ps propertyDefId value))

/-- `ModelManipulator.isPropertyDefinitionUsed` (lines 1191-1214). -/
def isPropertyDefinitionUsed (m : ModelData) (propertyDefId : String) : Bool :=
  m.elements.any (fun e => objHas e.properties propertyDefId)
  || m.relationships.any (fun r => objHas r.properties propertyDefId)
  || m.views.any (fun v => objHas v.properties propertyDefId)

/-- `ModelManipulator.deleteProperty` (lines 1146-1186). The cascade check
runs on the state AFTER the property was removed from the entity. -/
def deleteProperty (m : ModelData) (targetId propertyDefId : String)
    (cascade : Bool) : OpResult Unit :=
  match findEntityKind m targetId with
  | none => (.error (.notFoundError "entity" targetId), m)
  | some kind =>
    if !objHas (entityProperties m kind targetId) propertyDefId then
      (.error (.notFoundError "property" (targetId ++ "." ++ propertyDefId)), m)
    else
      let m1 := mapEntityProperties m kind targetId
        (fun ps => objDelete ps propertyDefId)
      if cascade && !isPropertyDefinitionUsed m1 propertyDefId then
        (.ok (), { m1 with propertyDefinitions :=
          m1.propertyDefinitions.eraseP (fun pd => pd.identifier == propertyDefId) })
      else
        (.ok (), m1)

-- ============================================================================
-- Transactions (ModelTransaction, manipulator.ts lines 37-56 and 1223-1245)
-- ============================================================================

/-- JSON round-trip deep clone of an element
(`JSON.parse(JSON.stringify(...))`, line 42): every field is rebuilt
structurally. -/
def jsonCloneElement (e : ElementObject) : ElementObject :=
  { id := e.id, name := e.name, type_ := e.type_,
    documentation := e.documentation.map id,
    properties := e.properties.map (fun p => (p.1, p.2)),
    inViews := e.inViews.map id,
    outgoingRelations := e.outgoingRelations.map id,
    incomingRelations := e.incomingRelations.map id }

def jsonCloneRelationship (r : RelationshipObject) : RelationshipObject :=
  { id := r.id, type_ := r.type_, sourceId := r.sourceId, targetId := r.targetId,
    name := r.name.map id, documentation := r.documentation.map id,
    properties := r.properties.map (fun p => (p.1, p.2)) }

def jsonCloneView (v : ViewObject) : ViewObject :=
  { id := v.id, name := v.name, type_ := v.type_.map id,
    viewpoint := v.viewpoint.map id, documentation := v.documentation.map id,
    properties := v.properties.map (fun p => (p.1, p.2)),
    elements := v.elements.map id,
    relationships := v.relationships.map id,
    nodeHierarchy := v.nodeHierarchy.map (fun h => ⟨h.parentElement, h.childElement⟩) }

def jsonCloneModel (m : ModelData) : ModelData :=
  { elements := m.elements.map jsonCloneElement,
    relationships := m.relationships.map jsonCloneRelationship,
    views := m.views.map jsonCloneView,
    propertyDefinitions :=
      m.propertyDefinitions.map (fun pd => ⟨pd.identifier, pd.name⟩) }

/-- `ModelTransaction`: holds the deep-copied snapshot and the (never
populated) diagnostic operation log. -/
structure ModelTransaction where
  snapshot : ModelData
  operations : List String
deriving DecidableEq, Repr

/-- `ModelManipulator.beginTransaction` (line 1223): deep-copies the current
model into the transaction. -/
def beginTransaction (m : ModelData) : ModelTransaction :=
  { snapshot := jsonCloneModel m, operations := [] }

/-- `ModelManipulator.rollbackTransaction` (lines 1240-1245): replaces the
live model with the snapshot, whatever the current state is. -/
def rollbackTransaction (t : ModelTransaction) (_current : ModelData) : ModelData :=
  t.snapshot

/-- `ModelManipulator.commitTransaction` (lines 1230-1235): performs no model
mutation (it only sets the modified flag). -/
def commitTransaction (_t : ModelTransaction) (current : ModelData) : ModelData :=
  current

-- ============================================================================
-- The operation alphabet of the Mutation Engine
-- ============================================================================

/-- One Mutation Engine call together with its input (generated ids made
explicit). -/
inductive MutOp where
  | createElementOp (data : CreateElementInput) (genId : String)
  | updateElementOp (id : String) (data : UpdateElementInput)
  | deleteElementOp (id : String) (opts : DeleteOptions)
  | createRelationshipOp (data : CreateRelationshipInput) (genId : String)
  | updateRelationshipOp (id : String) (data : UpdateRelationshipInput)
  | deleteRelationshipOp (id : String)
  | createViewOp (data : CreateViewInput) (genId : String)
  | updateViewOp (id : String) (data : UpdateViewInput)
  | deleteViewOp (id : String)
  | addElementToViewOp (viewId elementId : String) (parentElementId : Option String)
  | removeElementFromViewOp (viewId elementId : String)
  | addRelationshipToViewOp (viewId relationshipId : String)
  | removeRelationshipFromViewOp (viewId relationshipId : String)
  | createPropertyDefinitionOp (data : CreatePropertyDefinitionInput)
  | assignPropertyOp (targetId propertyDefId value : String)
  | updatePropertyOp (targetId propertyDefId value : String)
  | deletePropertyOp (targetId propertyDefId : String) (cascade : Bool)
deriving DecidableEq, Repr

/-- Run one operation, discarding the returned entity (keeping error and
state). -/
def applyOp (m : ModelData) (op : MutOp) : OpResult Unit :=
  match op with
  | .createElementOp data genId =>
    let (r, m') := createElement m data genId; (r.map (fun _ => ()), m')
  | .updateElementOp id data =>
    let (r, m') := updateElement m id data; (r.map (fun _ => ()), m')
  | .deleteElementOp id opts => deleteElement m id opts
  | .createRelationshipOp data genId =>
    let (r, m') := createRelationship m data genId; (r.map (fun _ => ()), m')
  | .updateRelationshipOp id data =>
    let (r, m') := updateRelationship m id data; (r.map (fun _ => ()), m')
  | .deleteRelationshipOp id => deleteRelationship m id
  | .createViewOp data genId =>
    let (r, m') := createView m data genId; (r.map (fun _ => ()), m')
  | .updateViewOp id data =>
    let (r, m') := updateView m id data; (r.map (fun _ => ()), m')
  | .deleteViewOp id => deleteView m id
  | .addElementToViewOp viewId elementId parentElementId =>
    addElementToView m viewId elementId parentElementId
  | .removeElementFromViewOp viewId elementId =>
    removeElementFromView m viewId elementId
  | .addRelationshipToViewOp viewId relationshipId =>
    addRelationshipToView m viewId relationshipId
  | .removeRelationshipFromViewOp viewId relationshipId =>
    removeRelationshipFromView m viewId relationshipId
  | .createPropertyDefinitionOp data =>
    let (r, m') := createPropertyDefinition m data; (r.map (fun _ => ()), m')
  | .assignPropertyOp targetId propertyDefId value =>
    assignProperty m targetId propertyDefId value
  | .updatePropertyOp targetId propertyDefId value =>
    updateProperty m targetId propertyDefId value
  | .deletePropertyOp targetId propertyDefId cascade =>
    deleteProperty m targetId propertyDefId cascade

/-- Run a sequence of operations, keeping whatever state each call leaves
(also after a throw, as the live object is mutated in place). -/
def runOps (m : ModelData) (ops : List MutOp) : ModelData :=
  ops.foldl (fun mm op => (applyOp mm op).2) m

/-- `Committed m ops m'`: every operation of the sequence succeeds, taking
the model from `m` to `m'`. -/
inductive Committed : ModelData → List MutOp → ModelData → Prop where
  | nil (m : ModelData) : Committed m [] m
  | cons {m m1 m2 : ModelData} {op : MutOp} {ops : List MutOp}
      (h : applyOp m op = (.ok (), m1)) (hrest : Committed m1 ops m2) :
      Committed m (op :: ops) m2

-- ============================================================================
-- Cross-entity invariants (spec section 3)
-- ============================================================================

/-- Invariant 1: identifier uniqueness across elements, relationships and
views combined. -/
def IdsNodup (m : ModelData) : Prop :=
  (m.elements.map (fun e => e.id) ++ m.relationships.map (fun r => r.id)
    ++ m.views.map (fun v => v.id)).Nodup

/-- Data-model invariant on relationships: `sourceId ≠ targetId`. -/
def NoSelfLoop (m : ModelData) : Prop :=
  ∀ r ∈ m.relationships, r.sourceId ≠ r.targetId

/-- Invariant 2 (spec section 3, point 2): every relationship's endpoints
resolve, the source's `outgoingRelations` and the target's
`incomingRelations` contain the id exactly once, and no element holds a
relation id for a relationship that no longer references it. -/
def Inv2 (m : ModelData) : Prop :=
  (∀ r ∈ m.relationships, ∃ e ∈ m.elements, e.id = r.sourceId)
  ∧ (∀ r ∈ m.relationships, ∃ e ∈ m.elements, e.id = r.targetId)
  ∧ (∀ e ∈ m.elements, ∀ rid ∈ e.outgoingRelations,
      ∃ r ∈ m.relationships, r.id = rid ∧ r.sourceId = e.id)
  ∧ (∀ e ∈ m.elements, ∀ rid ∈ e.incomingRelations,
      ∃ r ∈ m.relationships, r.id = rid ∧ r.targetId = e.id)
  ∧ (∀ r ∈ m.relationships, ∀ e ∈ m.elements,
      e.id = r.sourceId → r.id ∈ e.outgoingRelations)
  ∧ (∀ r ∈ m.relationships, ∀ e ∈ m.elements,
      e.id = r.targetId → r.id ∈ e.incomingRelations)
  ∧ (∀ e ∈ m.elements, e.outgoingRelations.Nodup ∧ e.incomingRelations.Nodup)

/-- Invariant 3 (spec section 3, point 3): every id in a view's `elements`
and `relationships` refers to an existing entity, and every element
referenced by a view lists the view's id in its `inViews`. -/
def Inv3 (m : ModelData) : Prop :=
  (∀ v ∈ m.views, ∀ eid ∈ v.elements, ∃ e ∈ m.elements, e.id = eid)
  ∧ (∀ v ∈ m.views, ∀ rid ∈ v.relationships, ∃ r ∈ m.relationships, r.id = rid)
  ∧ (∀ v ∈ m.views, ∀ e ∈ m.elements, e.id ∈ v.elements → v.id ∈ e.inViews)

/-- The relationship types whose `RELATIONSHIP_COMPATIBILITY` entry declares
one-to-one cardinality (business-rules-validator.ts lines 39-42 and 66-69). -/
def oneToOneTypes : List String := ["Assignment", "Specialization"]

/-- Invariant 5 (spec section 3, point 5): no one-to-one relationship has a
duplicate sibling with the same type, source and target. -/
def Inv5 (m : ModelData) : Prop :=
  ∀ r ∈ m.relationships, r.type_ ∈ oneToOneTypes →
    ¬∃ r' ∈ m.relationships, r'.id ≠ r.id ∧ r'.type_ = r.type_
      ∧ r'.sourceId = r.sourceId ∧ r'.targetId = r.targetId

/-- The well-formedness package used as induction hypothesis: invariant 1,
no self-loops, and invariant 2. -/
def Good (m : ModelData) : Prop := IdsNodup m ∧ NoSelfLoop m ∧ Inv2 m

instance : DecidablePred IdsNodup := fun m => by unfold IdsNodup; infer_instance
instance : DecidablePred NoSelfLoop := fun m => by unfold NoSelfLoop; infer_instance
instance : DecidablePred Inv2 := fun m => by unfold Inv2; infer_instance
instance : DecidablePred Inv3 := fun m => by unfold Inv3; infer_instance
instance : DecidablePred Inv5 := fun m => by unfold Inv5; infer_instance
instance : DecidablePred Good := fun m => by unfold Good; infer_instance

-- ============================================================================
-- Concrete fixtures for witnesses and counterexamples
-- ============================================================================

/-- Fresh element with empty relation and view sets. -/
def mkElement (id name ty : String) : ElementObject :=
  { id := id, name := name, type_ := ty, documentation := none, properties := [],
    inViews := [], outgoingRelations := [], incomingRelations := [] }

/-- Relationship record with no name, documentation or properties. -/
def mkRelationship (id ty src tgt : String) : RelationshipObject :=
  { id := id, type_ := ty, sourceId := src, targetId := tgt,
    name := none, documentation := none, properties := [] }

/-- View record with the given content lists. -/
def mkView (id name : String) (els rels : List String)
    (hier : List HierarchyPair) : ViewObject :=
  { id := id, name := name, type_ := none, viewpoint := none,
    documentation := none, properties := [], elements := els,
    relationships := rels, nodeHierarchy := hier }

/-- The empty model. -/
def emptyModel : ModelData :=
  { elements := [], relationships := [], views := [], propertyDefinitions := [] }

/-- Two elements A, B joined by relationship R (Serving), both shown in view
V whose `relationships` list contains R. A model satisfying all cross-entity
invariants. -/
def modelAB : ModelData :=
  { elements :=
      [ { mkElement "A" "X" "ApplicationComponent" with
            outgoingRelations := ["R"], inViews := ["V"] },
        { mkElement "B" "Y" "BusinessActor" with
            incomingRelations := ["R"], inViews := ["V"] } ],
    relationships := [mkRelationship "R" "Serving" "A" "B"],
    views := [mkView "V" "Main" ["A", "B"] ["R"] []],
    propertyDefinitions := [] }

-- ============================================================================
-- Business rules validator (src/utils/business-rules-validator.ts)
-- ============================================================================

/-- Cardinality markers of the `RELATIONSHIP_COMPATIBILITY` table. -/
inductive Cardinality where
  | oneToOne
  | oneToMany
deriving DecidableEq, Repr

/-- The `cardinality` entries of `RELATIONSHIP_COMPATIBILITY`
(business-rules-validator.ts lines 29-73): Composition and Aggregation are
one-to-many, Assignment and Specialization one-to-one, all other known types
and unknown types have none. -/
def relationshipCardinality (t : String) : Option Cardinality :=
  if t == "Composition" then some .oneToMany
  else if t == "Aggregation" then some .oneToMany
  else if t == "Assignment" then some .oneToOne
  else if t == "Specialization" then some .oneToOne
  else none

/-- Result shape of the validators, error texts elided. -/
structure ValidationResult where
  valid : Bool
  errors : List String
deriving DecidableEq, Repr

/-- `BusinessRulesValidator.validateRelationshipCardinality`
(business-rules-validator.ts lines 170-209). -/
def validateRelationshipCardinality (relationship : RelationshipObject)
    (allRelationships : List RelationshipObject) : ValidationResult :=
  if relationship.type_ == "" then { valid := true, errors := [] }
  else
    match relationshipCardinality relationship.type_ with
    | some .oneToOne =>
      match allRelationships.find? (fun r =>
          r.id != relationship.id && r.type_ == relationship.type_
          && r.sourceId == relationship.sourceId
          && r.targetId == relationship.targetId) with
      | some _ =>
        { valid := false,
          errors := ["one-to-one cardinality duplicate between same source and target"] }
      | none => { valid := true, errors := [] }
    | _ => { valid := true, errors := [] }

-- ============================================================================
-- Claim C2 — cascade delete leaves stale relationship ids in views
-- ============================================================================

/-- C2: evaluation of `deleteElement` at the failing input. Starting from
`modelAB` (which satisfies every cross-entity invariant), deleting element A
with `cascade: true` removes relationship R from the relationship list, yet
view V's `relationships` list still contains "R" afterwards, so invariant 3
("every id in V.relationships refers to an existing entity") is broken: the
cascade path of `deleteElement` never purges the removed relationships from
`view.relationships`, although the direct `deleteRelationship` path does. -/
theorem deleteElement_cascade_leaves_stale_view_relationship :
    isErr (deleteElement modelAB "A" { cascade := true, validate := true }).1 = false
    ∧ (deleteElement modelAB "A" { cascade := true, validate := true }).2.relationships = []
    ∧ ((deleteElement modelAB "A" { cascade := true, validate := true }).2.views.map
        (fun v => v.relationships)) = [["R"]]
    ∧ ¬ Inv3 (deleteElement modelAB "A" { cascade := true, validate := true }).2 := by
  refine ⟨by decide, by decide, by decide, by decide⟩

-- ============================================================================
-- Claim C4 — one-to-one cardinality duplicates are not prevented
-- ============================================================================

/-- Two elements A and B with no relationships. -/
def modelAB0 : ModelData :=
  { elements := [mkElement "A" "X" "ApplicationComponent",
                 mkElement "B" "Y" "BusinessActor"],
    relationships := [], views := [], propertyDefinitions := [] }

/-- The model after committing two Assignment relationships A→B through
`createRelationship`. -/
def modelDupAssignment : ModelData :=
  (createRelationship
    (createRelationship modelAB0
      { type_ := "Assignment", sourceId := "A", targetId := "B",
        identifier := some "R1" } "g1").2
    { type_ := "Assignment", sourceId := "A", targetId := "B",
      identifier := some "R2" } "g2").2

/-- C4 counterexample: `createRelationship` commits a second Assignment with
the same source and target without any error, and the resulting committed
model violates invariant 5 — the mutation path never consults the
cardinality rule. -/
theorem createRelationship_commits_one_to_one_duplicate :
    isErr (createRelationship
      (createRelationship modelAB0
        { type_ := "Assignment", sourceId := "A", targetId := "B",
          identifier := some "R1" } "g1").2
      { type_ := "Assignment", sourceId := "A", targetId := "B",
        identifier := some "R2" } "g2").1 = false
    ∧ ¬ Inv5 modelDupAssignment := by
  refine ⟨by decide, by decide⟩

/-- C4 (amended): the one-to-one duplicate constraint lives only in the
report-style business-rules validator: `validateRelationshipCardinality`
reports invalid exactly when the relationship's type has one-to-one
cardinality (Assignment, Specialization) and another relationship with the
same type, source and target exists in the supplied list. -/
theorem validateRelationshipCardinality_flags_exactly_duplicates
    (relationship : RelationshipObject)
    (allRelationships : List RelationshipObject) :
    (validateRelationshipCardinality relationship allRelationships).valid = false
    ↔ (relationship.type_ ∈ oneToOneTypes
        ∧ ∃ r' ∈ allRelationships, r'.id ≠ relationship.id
            ∧ r'.type_ = relationship.type_
            ∧ r'.sourceId = relationship.sourceId
            ∧ r'.targetId = relationship.targetId) := by
  by_cases ht : relationship.type_ ∈ oneToOneTypes
  · have h2 : relationship.type_ = "Assignment" ∨ relationship.type_ = "Specialization" := by
      simpa [oneToOneTypes] using ht
    have hcard : relationshipCardinality relationship.type_ = some .oneToOne := by
      rcases h2 with h | h <;> simp [relationshipCardinality, h]
    have hne : (relationship.type_ == "") = false := by
      rcases h2 with h | h <;> simp [h]
    simp only [validateRelationshipCardinality, hne, hcard, Bool.false_eq_true,
      if_false]
    cases hfind : allRelationships.find? (fun r =>
        r.id != relationship.id && r.type_ == relationship.type_
        && r.sourceId == relationship.sourceId
        && r.targetId == relationship.targetId) with
    | none =>
      constructor
      · intro h; exact absurd h (by decide)
      · rintro ⟨-, r', hmem, hid, hty, hsrc, htgt⟩
        have hnp := List.find?_eq_none.mp hfind r' hmem
        simp only [Bool.and_eq_true, bne_iff_ne, beq_iff_eq, ne_eq] at hnp
        exact (hnp ⟨⟨⟨hid, hty⟩, hsrc⟩, htgt⟩).elim
    | some r =>
      have hp := List.find?_some hfind
      have hmem := List.mem_of_find?_eq_some hfind
      simp only [Bool.and_eq_true, bne_iff_ne, beq_iff_eq, ne_eq] at hp
      constructor
      · intro _
        exact ⟨ht, r, hmem, hp.1.1.1, hp.1.1.2, hp.1.2, hp.2⟩
      · intro _; rfl
  · have hvalid :
        (validateRelationshipCardinality relationship allRelationships).valid = true := by
      unfold validateRelationshipCardinality
      by_cases he : relationship.type_ = ""
      · simp [he]
      · have hcard : relationshipCardinality relationship.type_ = none
            ∨ relationshipCardinality relationship.type_ = some .oneToMany := by
          simp only [oneToOneTypes, List.mem_cons, List.mem_singleton,
            not_or] at ht
          unfold relationshipCardinality
          split_ifs with h1 h2 h3 h4 <;> simp_all
        have hne : (relationship.type_ == "") = false := by simp [he]
        rcases hcard with h | h <;> rw [hne, h] <;> simp
    simp only [hvalid]
    constructor
    · intro h; exact absurd h (by decide)
    · rintro ⟨h, -⟩; exact absurd h ht

-- ============================================================================
-- Generic lemmas about the list helpers
-- ============================================================================

theorem modifyP_nil (p : α → Bool) (f : α → α) : modifyP p f [] = [] := rfl

/-- If `find?` locates `a`, then `f a` lives in the modified list. -/
theorem f_mem_modifyP {p : α → Bool} {f : α → α} {l : List α} {a : α}
    (h : l.find? p = some a) : f a ∈ modifyP p f l := by
  induction l with
  | nil => simp [List.find?] at h
  | cons x xs ih =>
    by_cases hx : p x
    · rw [List.find?_cons_of_pos _ hx] at h
      cases h
      simp [modifyP, hx]
    · rw [List.find?_cons_of_neg _ hx] at h
      simp only [modifyP, hx, if_neg, Bool.false_eq_true, if_false, List.mem_cons]
      exact Or.inr (ih h)

/-- Elements not satisfying `p` survive `modifyP` untouched. -/
theorem mem_modifyP_of_neg {p : α → Bool} {f : α → α} {l : List α} {x : α}
    (hx : x ∈ l) (hp : p x = false) : x ∈ modifyP p f l := by
  induction l with
  | nil => cases hx
  | cons y ys ih =>
    rcases List.mem_cons.mp hx with rfl | hmem
    · simp [modifyP, hp]
    · by_cases hy : p y
      · simp only [modifyP, if_pos hy, List.mem_cons]
        exact Or.inr hmem
      · simp only [modifyP, if_neg hy, List.mem_cons]
        exact Or.inr (ih hmem)

/-- `modifyP` keeps any key-projection that `f` preserves. -/
theorem map_modifyP_of_key {p : α → Bool} {f : α → α} {k : α → β} (l : List α)
    (hf : ∀ a, k (f a) = k a) : (modifyP p f l).map k = l.map k := by
  induction l with
  | nil => rfl
  | cons x xs ih =>
    by_cases hx : p x <;> simp [modifyP, hx, hf, ih]

/-- `modifyP` is `map` of a conditional function when at most one element can
match (here: when the keys the predicate tests are unique). -/
theorem modifyP_eq_map {k : α → String} {x : String} {f : α → α} {l : List α}
    (hnd : (l.map k).Nodup) :
    modifyP (fun a => k a == x) f l
      = l.map (fun a => if k a == x then f a else a) := by
  induction l with
  | nil => rfl
  | cons y ys ih =>
    simp only [List.map_cons, List.nodup_cons] at hnd
    by_cases hy : (k y == x) = true
    · have hyx : k y = x := by simpa using hy
      have hfalse : ∀ a ∈ ys, (k a == x) = false := by
        intro a ha
        have hne : k a ≠ k y := fun heq => hnd.1 (heq ▸ List.mem_map_of_mem k ha)
        have : ¬ (k a = x) := fun h => hne (h.trans hyx.symm)
        simpa using this
      have hmap : ys.map (fun a => if k a == x then f a else a) = ys := by
        conv_rhs => rw [← List.map_id ys]
        refine List.map_congr_left (fun a ha => ?_)
        rw [hfalse a ha]
        simp [id]
      have h1 : modifyP (fun a => k a == x) f (y :: ys) = f y :: ys := by
        simp [modifyP, hy]
      have h2 : (if (k y == x) = true then f y else y) = f y := by simp [hy]
      rw [h1]
      simp only [List.map_cons]
      rw [h2, hmap]
    · have h1 : modifyP (fun a => k a == x) f (y :: ys)
          = y :: modifyP (fun a => k a == x) f ys := by
        simp [modifyP, hy]
      have h2 : (if (k y == x) = true then f y else y) = y := by simp [hy]
      rw [h1]
      simp only [List.map_cons]
      rw [h2, ih hnd.2]

/-- `eraseP` is `filter` when at most one element can match. -/
theorem eraseP_eq_filter {k : α → String} {x : String} {l : List α}
    (hnd : (l.map k).Nodup) :
    l.eraseP (fun a => k a == x) = l.filter (fun a => !(k a == x)) := by
  induction l with
  | nil => rfl
  | cons y ys ih =>
    simp only [List.map_cons, List.nodup_cons] at hnd
    by_cases hy : k y == x
    · have hyx : k y = x := by simpa using hy
      have hfalse : ∀ a ∈ ys, (k a == x) = false := by
        intro a ha
        have hne : k a ≠ k y := fun hsq => hnd.1 (hsq ▸ List.mem_map_of_mem k ha)
        have : ¬ (k a = x) := fun h => hne (h.trans hyx.symm)
        simpa using this
      have hfil : ys.filter (fun a => !(k a == x)) = ys :=
        List.filter_eq_self.mpr (fun a ha => by simp [hfalse a ha])
      simp [List.eraseP_cons, hy, hfil]
    · simp [List.eraseP_cons, hy, ih hnd.2]

-- ============================================================================
-- Claim C5 — updateElement behavior
-- ============================================================================

/-- C5 (amended): `updateElement` raises NotFoundError for an unknown id;
raises ValidationError when the supplied name is blank after trimming or the
supplied type is a NON-EMPTY string that differs from the current type and
fails the taxonomy check; otherwise it succeeds and writes exactly the
supplied fields (trimmed), leaving every unspecified field — and the id and
relation/view sets — unchanged. (A supplied EMPTY type string bypasses the
taxonomy check and is written as the empty type; see the counterexample.) -/
theorem updateElement_behavior (m : ModelData) (id : String)
    (data : UpdateElementInput) :
    (getElement m id = none →
      updateElement m id data = (.error (.notFoundError "element" id), m))
    ∧ (∀ e, getElement m id = some e →
        ((∃ n, data.name = some n ∧ n.jsTrim = "")
          ∨ (∃ t, data.type_ = some t ∧ t ≠ "" ∧ t ≠ e.type_
              ∧ validateElementType t = false)) →
        ∃ msg, updateElement m id data = (.error (.validationError msg), m))
    ∧ (∀ e, getElement m id = some e →
        (∀ n, data.name = some n → n.jsTrim ≠ "") →
        (∀ t, data.type_ = some t → t ≠ "" → t ≠ e.type_ → validateElementType t = true) →
        updateElement m id data =
          (.ok (applyElementUpdate data e),
            { m with elements := modifyP (fun x => x.id == id) (fun _ => applyElementUpdate data e) m.elements }))
    ∧ (∀ e : ElementObject,
        (applyElementUpdate data e).id = e.id
        ∧ (applyElementUpdate data e).name
            = (match data.name with | some n => n.jsTrim | none => e.name)
        ∧ (applyElementUpdate data e).type_
            = (match data.type_ with | some t => t.jsTrim | none => e.type_)
        ∧ (applyElementUpdate data e).documentation
            = (match data.documentation with
               | some d => some d.jsTrim | none => e.documentation)
        ∧ (applyElementUpdate data e).properties = data.properties.getD e.properties
        ∧ (applyElementUpdate data e).inViews = e.inViews
        ∧ (applyElementUpdate data e).outgoingRelations = e.outgoingRelations
        ∧ (applyElementUpdate data e).incomingRelations = e.incomingRelations) := by
  have htype : ∀ e : ElementObject,
      (match data.type_ with
        | some t => t != "" && t != e.type_ && !validateElementType t
        | none => false) = true
      ↔ (∃ t, data.type_ = some t ∧ t ≠ "" ∧ t ≠ e.type_
            ∧ validateElementType t = false) := by
    intro e
    cases h : data.type_ with
    | none => simp
    | some t => simp [h, Bool.and_eq_true, bne_iff_ne, Bool.not_eq_true', and_assoc]
  have hname :
      (match data.name with | some n => n.jsTrim == "" | none => false) = true
      ↔ (∃ n, data.name = some n ∧ n.jsTrim = "") := by
    cases h : data.name with
    | none => simp
    | some n => simp [h]
  refine ⟨?_, ?_, ?_, ?_⟩
  · intro h
    unfold getElement at h
    simp only [updateElement, h]
  · intro e he hbad
    unfold getElement at he
    by_cases ht : (match data.type_ with
        | some t => t != "" && t != e.type_ && !validateElementType t
        | none => false) = true
    · exact ⟨"Invalid element type: " ++ data.type_.getD "",
        by simp [updateElement, he, ht]⟩
    · have ht' : (match data.type_ with
          | some t => t != "" && t != e.type_ && !validateElementType t
          | none => false) = false := by simpa using ht
      have hn : (match data.name with
          | some n => n.jsTrim == "" | none => false) = true := by
        rcases hbad with hb | hb
        · exact (hname).mpr hb
        · exact absurd ((htype e).mpr hb) ht
      exact ⟨"Element name cannot be empty", by simp [updateElement, he, ht', hn]⟩
  · intro e he hn ht
    unfold getElement at he
    have ht' : (match data.type_ with
        | some t => t != "" && t != e.type_ && !validateElementType t
        | none => false) = false := by
      by_cases h : (match data.type_ with
          | some t => t != "" && t != e.type_ && !validateElementType t
          | none => false) = true
      · rcases (htype e).mp h with ⟨t, hts, hne, hnee, hval⟩
        exact absurd (ht t hts hne hnee) (by simp [hval])
      · simpa using h
    have hn' : (match data.name with
        | some n => n.jsTrim == "" | none => false) = false := by
      by_cases h : (match data.name with
          | some n => n.jsTrim == "" | none => false) = true
      · rcases (hname).mp h with ⟨n, hns, hblank⟩
        exact absurd hblank (hn n hns)
      · simpa using h
    simp [updateElement, he, ht', hn']
  · intro e
    unfold applyElementUpdate
    cases hna : data.name <;> cases hty : data.type_ <;>
      cases hdo : data.documentation <;> cases hpr : data.properties <;>
        simp [hna, hty, hdo, hpr]

/-- One-element model used by counterexamples and witnesses. -/
def modelA : ModelData :=
  { elements := [mkElement "A" "X" "BusinessActor"], relationships := [],
    views := [], propertyDefinitions := [] }

/-- C5 counterexample: the claim says a supplied EMPTY type string raises
ValidationError; in fact `updateElement` accepts it without any validation
(the JS guard `data.type && ...` is skipped for the empty string) and writes
the empty string into the element's type. -/
theorem updateElement_accepts_empty_type_string :
    isErr (updateElement modelA "A"
      { type_ := some "" }).1 = false
    ∧ ((updateElement modelA "A" { type_ := some "" }).2.elements.map
        (fun e => e.type_)) = [""] := by
  exact ⟨by decide, by decide⟩

/-- C5 witness: the theorem applied at a concrete erroring input and at a
concrete successful update. -/
theorem updateElement_behavior_witness :
    updateElement modelA "missing" { name := some "N" }
      = (.error (.notFoundError "element" "missing"), modelA)
    ∧ updateElement modelA "A" { name := some " N2 " }
      = (.ok (applyElementUpdate { name := some " N2 " }
            (mkElement "A" "X" "BusinessActor")),
         { modelA with elements := modifyP (fun x => x.id == "A") (fun _ => applyElementUpdate { name := some " N2 " } (mkElement "A" "X" "BusinessActor")) modelA.elements }) := by
  constructor
  · exact (updateElement_behavior modelA "missing" { name := some "N" }).1 (by decide)
  · exact (updateElement_behavior modelA "A" { name := some " N2 " }).2.2.1
      (mkElement "A" "X" "BusinessActor") (by decide)
      (by intro n hn; cases hn; decide)
      (by intro t ht; cases ht)

-- ============================================================================
-- Claim C6 — createRelationship behavior
-- ============================================================================

/-- `find?` commutes with a `modifyP` whose predicate is disjoint from the
search predicate, provided the modification preserves the searched key. -/
theorem find?_modifyP {p q : α → Bool} {f : α → α} (l : List α)
    (hpq : ∀ a, p a = true → q a = false) (hf : ∀ a, q (f a) = q a) :
    (modifyP p f l).find? q = l.find? q := by
  induction l with
  | nil => rfl
  | cons y ys ih =>
    by_cases hy : p y = true
    · have hqy : q y = false := hpq y hy
      have hqfy : q (f y) = false := by rw [hf]; exact hqy
      simp only [modifyP, if_pos hy]
      rw [List.find?_cons_of_neg _ (by simp [hqfy]),
        List.find?_cons_of_neg _ (by simp [hqy])]
    · simp only [modifyP, if_neg hy]
      by_cases hq : q y = true
      · rw [List.find?_cons_of_pos _ hq, List.find?_cons_of_pos _ hq]
      · rw [List.find?_cons_of_neg _ (by simpa using hq),
          List.find?_cons_of_neg _ (by simpa using hq)]
        exact ih

/-- C6 (amended): the full guard chain of `createRelationship`, in source
order. ValidationError for blank type/sourceId/targetId and for an unknown
type; NotFoundError when the source or the target element does not exist —
this check runs BEFORE the self-loop check, so `sourceId == targetId` on a
non-existent id raises NotFoundError, and the self-loop ValidationError is
reached only when the endpoint exists; DuplicateError on id collision; on
success the new id is registered in the source's `outgoingRelations` and the
target's `incomingRelations`. -/
theorem createRelationship_behavior (m : ModelData)
    (data : CreateRelationshipInput) (genId : String) :
    (data.type_.jsTrim = "" →
      createRelationship m data genId
        = (.error (.validationError "Relationship type is required"), m))
    ∧ (data.type_.jsTrim ≠ "" → data.sourceId.jsTrim = "" →
      createRelationship m data genId
        = (.error (.validationError "Source element ID is required"), m))
    ∧ (data.type_.jsTrim ≠ "" → data.sourceId.jsTrim ≠ "" →
        data.targetId.jsTrim = "" →
      createRelationship m data genId
        = (.error (.validationError "Target element ID is required"), m))
    ∧ (data.type_.jsTrim ≠ "" → data.sourceId.jsTrim ≠ "" →
        data.targetId.jsTrim ≠ "" → validateRelationshipType data.type_ = false →
      createRelationship m data genId
        = (.error (.validationError ("Invalid relationship type: " ++ data.type_)), m))
    ∧ (data.type_.jsTrim ≠ "" → data.sourceId.jsTrim ≠ "" →
        data.targetId.jsTrim ≠ "" → validateRelationshipType data.type_ = true →
        getElement m data.sourceId = none →
      createRelationship m data genId
        = (.error (.notFoundError "element" data.sourceId), m))
    ∧ (∀ se, data.type_.jsTrim ≠ "" → data.sourceId.jsTrim ≠ "" →
        data.targetId.jsTrim ≠ "" → validateRelationshipType data.type_ = true →
        getElement m data.sourceId = some se → getElement m data.targetId = none →
      createRelationship m data genId
        = (.error (.notFoundError "element" data.targetId), m))
    ∧ (∀ se te, data.type_.jsTrim ≠ "" → data.sourceId.jsTrim ≠ "" →
        data.targetId.jsTrim ≠ "" → validateRelationshipType data.type_ = true →
        getElement m data.sourceId = some se → getElement m data.targetId = some te →
        data.sourceId = data.targetId →
      createRelationship m data genId
        = (.error (.validationError "Source and target elements must be different"), m))
    ∧ (∀ se te, data.type_.jsTrim ≠ "" → data.sourceId.jsTrim ≠ "" →
        data.targetId.jsTrim ≠ "" → validateRelationshipType data.type_ = true →
        getElement m data.sourceId = some se → getElement m data.targetId = some te →
        data.sourceId ≠ data.targetId →
        identifierExists m (effectiveId data.identifier genId) = true →
      createRelationship m data genId
        = (.error (.duplicateError "relationship" (effectiveId data.identifier genId)), m))
    ∧ (∀ se te, data.type_.jsTrim ≠ "" → data.sourceId.jsTrim ≠ "" →
        data.targetId.jsTrim ≠ "" → validateRelationshipType data.type_ = true →
        getElement m data.sourceId = some se → getElement m data.targetId = some te →
        data.sourceId ≠ data.targetId →
        identifierExists m (effectiveId data.identifier genId) = false →
        isErr (createRelationship m data genId).1 = false
        ∧ (createRelationship m data genId).2.relationships
            = m.relationships ++
              [{ id := effectiveId data.identifier genId,
                 sourceId := data.sourceId.jsTrim, targetId := data.targetId.jsTrim,
                 type_ := data.type_.jsTrim, name := data.name.map (fun n => n.jsTrim),
                 documentation := data.documentation.map (fun d => d.jsTrim),
                 properties := data.properties.getD [] }]
        ∧ (∃ e' ∈ (createRelationship m data genId).2.elements,
            e'.id = data.sourceId
            ∧ effectiveId data.identifier genId ∈ e'.outgoingRelations)
        ∧ (∃ e' ∈ (createRelationship m data genId).2.elements,
            e'.id = data.targetId
            ∧ effectiveId data.identifier genId ∈ e'.incomingRelations)) := by
  refine ⟨?_, ?_, ?_, ?_, ?_, ?_, ?_, ?_, ?_⟩
  · intro h1
    simp [createRelationship, h1]
  · intro h1 h2
    simp [createRelationship, h1, h2]
  · intro h1 h2 h3
    simp [createRelationship, h1, h2, h3]
  · intro h1 h2 h3 h4
    simp [createRelationship, h1, h2, h3, h4]
  · intro h1 h2 h3 h4 h5
    simp [createRelationship, h1, h2, h3, h4, h5]
  · intro se h1 h2 h3 h4 h5 h6
    simp [createRelationship, h1, h2, h3, h4, h5, h6]
  · intro se te h1 h2 h3 h4 h5 h6 h7
    simp [createRelationship, h1, h2, h3, h4, h5, h6, h7]
  · intro se te h1 h2 h3 h4 h5 h6 h7 h8
    simp [createRelationship, h1, h2, h3, h4, h5, h6, h7, h8]
  · intro se te h1 h2 h3 h4 h5 h6 h7 h8
    have hres : createRelationship m data genId
        = (.ok { id := effectiveId data.identifier genId,
                 sourceId := data.sourceId.jsTrim, targetId := data.targetId.jsTrim,
                 type_ := data.type_.jsTrim, name := data.name.map (fun n => n.jsTrim),
                 documentation := data.documentation.map (fun d => d.jsTrim),
                 properties := data.properties.getD [] },
           { m with
              relationships := m.relationships ++
                [{ id := effectiveId data.identifier genId,
                   sourceId := data.sourceId.jsTrim, targetId := data.targetId.jsTrim,
                   type_ := data.type_.jsTrim, name := data.name.map (fun n => n.jsTrim),
                   documentation := data.documentation.map (fun d => d.jsTrim),
                   properties := data.properties.getD [] }]
              elements := modifyP (fun e => e.id == data.targetId) (fun t => { t with incomingRelations := t.incomingRelations ++ [effectiveId data.identifier genId] }) (modifyP (fun e => e.id == data.sourceId) (fun s => { s with outgoingRelations := s.outgoingRelations ++ [effectiveId data.identifier genId] }) m.elements) }) := by
      simp [createRelationship, h1, h2, h3, h4, h5, h6, h7, h8]
    refine ⟨by rw [hres]; rfl, by rw [hres], ?_, ?_⟩
    · -- the source element keeps its entry after the target modification
      rw [hres]
      have hsid : se.id = data.sourceId := by
        have := List.find?_some h5
        simpa using this
      refine ⟨{ se with outgoingRelations :=
          se.outgoingRelations ++ [effectiveId data.identifier genId] }, ?_, ?_, ?_⟩
      · apply mem_modifyP_of_neg
        · exact f_mem_modifyP h5
        · simp [hsid, h7]
      · exact hsid
      · simp
    · rw [hres]
      have htid : te.id = data.targetId := by
        have := List.find?_some h6
        simpa using this
      have hfind1 : (modifyP (fun e => e.id == data.sourceId) (fun s => { s with outgoingRelations := s.outgoingRelations ++ [effectiveId data.identifier genId] }) m.elements).find? (fun e => e.id == data.targetId) = some te := by
        rw [find?_modifyP]
        · exact h6
        · intro a ha
          have : a.id = data.sourceId := by simpa using ha
          simp [this, h7]
        · intro a; rfl
      refine ⟨{ te with incomingRelations :=
          te.incomingRelations ++ [effectiveId data.identifier genId] }, ?_, ?_, ?_⟩
      · exact f_mem_modifyP hfind1
      · exact htid
      · simp

/-- C6 counterexample: on a self-loop whose id names no element the source
raises NotFoundError (existence is checked before the self-loop rule), not
the ValidationError the claim promises for every `sourceId == targetId`
input. -/
theorem createRelationship_selfloop_missing_raises_notFound :
    createRelationship emptyModel
      { type_ := "Serving", sourceId := "A", targetId := "A" } "g"
      = (.error (.notFoundError "element" "A"), emptyModel) := by decide

/-- C6 witness: the theorem applied at concrete inputs — the self-loop
ValidationError on an existing element, and a successful creation registering
the id at both endpoints. -/
theorem createRelationship_behavior_witness :
    createRelationship modelAB0
      { type_ := "Serving", sourceId := "A", targetId := "A" } "g"
      = (.error (.validationError "Source and target elements must be different"),
         modelAB0)
    ∧ (∃ e' ∈ (createRelationship modelAB0
          { type_ := "Serving", sourceId := "A", targetId := "B",
            identifier := some "R9" } "g").2.elements,
        e'.id = "A" ∧ "R9" ∈ e'.outgoingRelations) := by
  constructor
  · exact (createRelationship_behavior modelAB0
      { type_ := "Serving", sourceId := "A", targetId := "A" } "g").2.2.2.2.2.2.1
      (mkElement "A" "X" "ApplicationComponent")
      (mkElement "A" "X" "ApplicationComponent")
      (by decide) (by decide) (by decide) (by decide) (by decide) (by decide) rfl
  · have h := ((createRelationship_behavior modelAB0
      { type_ := "Serving", sourceId := "A", targetId := "B",
        identifier := some "R9" } "g").2.2.2.2.2.2.2.2
      (mkElement "A" "X" "ApplicationComponent")
      (mkElement "B" "Y" "BusinessActor")
      (by decide) (by decide) (by decide) (by decide) (by decide) (by decide)
      (by decide) (by decide)).2.2.1
    simpa using h

-- ============================================================================
-- Claim C7 — transaction snapshot/rollback
-- ============================================================================

theorem jsonCloneElement_eq (e : ElementObject) : jsonCloneElement e = e := by
  cases e
  simp [jsonCloneElement, Option.map_id, List.map_id]

theorem jsonCloneRelationship_eq (r : RelationshipObject) :
    jsonCloneRelationship r = r := by
  cases r
  simp [jsonCloneRelationship, Option.map_id, List.map_id]

theorem hierarchyPair_eta (h : HierarchyPair) :
    (⟨h.parentElement, h.childElement⟩ : HierarchyPair) = h := by cases h; rfl

theorem propertyDefinition_eta (pd : PropertyDefinition) :
    (⟨pd.identifier, pd.name⟩ : PropertyDefinition) = pd := by cases pd; rfl

theorem jsonCloneView_eq (v : ViewObject) : jsonCloneView v = v := by
  cases v
  simp [jsonCloneView, Option.map_id, List.map_id, hierarchyPair_eta]

/-- The JSON round-trip deep clone reproduces the model exactly. -/
theorem jsonCloneModel_eq (m : ModelData) : jsonCloneModel m = m := by
  have h1 : ∀ l : List ElementObject, l.map jsonCloneElement = l := by
    intro l; induction l with
    | nil => rfl
    | cons x xs ih => simp [jsonCloneElement_eq, ih]
  have h2 : ∀ l : List RelationshipObject, l.map jsonCloneRelationship = l := by
    intro l; induction l with
    | nil => rfl
    | cons x xs ih => simp [jsonCloneRelationship_eq, ih]
  have h3 : ∀ l : List ViewObject, l.map jsonCloneView = l := by
    intro l; induction l with
    | nil => rfl
    | cons x xs ih => simp [jsonCloneView_eq, ih]
  cases m
  simp [jsonCloneModel, h1, h2, h3, propertyDefinition_eta, List.map_id]

/-- C7: `beginTransaction` deep-copies the model, so `rollbackTransaction`
restores exactly the state at snapshot time, whatever sequence of operations
ran in between (successful or throwing); in particular an element id absent
at snapshot time is absent again after the rollback. -/
theorem rollbackTransaction_restores_snapshot (m : ModelData) (ops : List MutOp) :
    rollbackTransaction (beginTransaction m) (runOps m ops) = m
    ∧ ∀ c : String, (∀ e ∈ m.elements, e.id ≠ c) →
        ∀ e ∈ (rollbackTransaction (beginTransaction m) (runOps m ops)).elements,
          e.id ≠ c := by
  have h : rollbackTransaction (beginTransaction m) (runOps m ops) = m := by
    simp [rollbackTransaction, beginTransaction, jsonCloneModel_eq]
  exact ⟨h, fun c hc e he => hc e (h ▸ he)⟩

/-- C7 witness: snapshot of `modelAB0` (which has no element "C"), create
element C, roll back — no element "C" remains. -/
theorem rollbackTransaction_restores_snapshot_witness :
    (∀ e ∈ modelAB0.elements, e.id ≠ "C")
    ∧ ∀ e ∈ (rollbackTransaction (beginTransaction modelAB0)
        (runOps modelAB0
          [.createElementOp
            { type_ := "BusinessActor", name := "Z", identifier := some "C" } "g"])).elements,
        e.id ≠ "C" := by
  refine ⟨by decide, ?_⟩
  exact (rollbackTransaction_restores_snapshot modelAB0
    [.createElementOp { type_ := "BusinessActor", name := "Z", identifier := some "C" } "g"]).2
    "C" (by decide)

-- ============================================================================
-- Claim C10 — properties updates are wholesale replacement
-- ============================================================================

/-- The element found by `find?` is replaced in place and found again,
provided the replacement still satisfies the predicate. -/
theorem find?_modifyP_self {p : α → Bool} {f : α → α} {l : List α} {a : α}
    (h : l.find? p = some a) (hfa : p (f a) = true) :
    (modifyP p f l).find? p = some (f a) := by
  induction l with
  | nil => simp [List.find?] at h
  | cons y ys ih =>
    by_cases hy : p y = true
    · rw [List.find?_cons_of_pos _ hy] at h
      cases h
      simp only [modifyP, if_pos hy]
      rw [List.find?_cons_of_pos _ hfa]
    · rw [List.find?_cons_of_neg _ (by simpa using hy)] at h
      simp only [modifyP, if_neg hy]
      rw [List.find?_cons_of_neg _ (by simpa using hy)]
      exact ih h

theorem removeInViews_views (m : ModelData) (viewId : String) (l : List String) :
    (removeInViews m viewId l).views = m.views := by
  induction l generalizing m with
  | nil => rfl
  | cons x xs ih => simpa [removeInViews] using ih _

theorem addInViews_views (m : ModelData) (viewId : String) (l : List String) :
    (addInViews m viewId l).views = m.views := by
  induction l generalizing m with
  | nil => rfl
  | cons x xs ih => simpa [addInViews] using ih _

theorem removeInViews_relationships (m : ModelData) (viewId : String) (l : List String) :
    (removeInViews m viewId l).relationships = m.relationships := by
  induction l generalizing m with
  | nil => rfl
  | cons x xs ih => simpa [removeInViews] using ih _

theorem addInViews_relationships (m : ModelData) (viewId : String) (l : List String) :
    (addInViews m viewId l).relationships = m.relationships := by
  induction l generalizing m with
  | nil => rfl
  | cons x xs ih => simpa [addInViews] using ih _

theorem applyViewScalarUpdate_some_props {data : UpdateViewInput} {v v1 : ViewObject}
    {ps : List (String × String)}
    (h : applyViewScalarUpdate data v = some v1) (hps : data.properties = some ps) :
    v1.properties = ps ∧ v1.id = v.id := by
  unfold applyViewScalarUpdate at h
  cases hn : data.name with
  | none =>
    simp only [hn] at h
    cases h
    unfold applyViewScalarUpdate.applyViewScalarRest
    cases data.type_ <;> cases data.viewpoint <;> cases data.documentation <;>
      simp [hps]
  | some n =>
    simp only [hn] at h
    by_cases hb : (n.jsTrim == "") = true
    · rw [if_pos hb] at h; cases h
    · rw [if_neg hb] at h
      cases h
      unfold applyViewScalarUpdate.applyViewScalarRest
      cases data.type_ <;> cases data.viewpoint <;> cases data.documentation <;>
        simp [hps]

theorem applyViewScalarUpdate_id {data : UpdateViewInput} {v v1 : ViewObject}
    (h : applyViewScalarUpdate data v = some v1) : v1.id = v.id := by
  unfold applyViewScalarUpdate at h
  cases hn : data.name with
  | none =>
    simp only [hn] at h
    cases h
    unfold applyViewScalarUpdate.applyViewScalarRest
    cases data.type_ <;> cases data.viewpoint <;> cases data.documentation <;>
      cases data.properties <;> simp
  | some n =>
    simp only [hn] at h
    by_cases hb : (n.jsTrim == "") = true
    · rw [if_pos hb] at h; cases h
    · rw [if_neg hb] at h
      cases h
      unfold applyViewScalarUpdate.applyViewScalarRest
      cases data.type_ <;> cases data.viewpoint <;> cases data.documentation <;>
        cases data.properties <;> simp

theorem applyElementUpdate_props (data : UpdateElementInput) (e : ElementObject) :
    (applyElementUpdate data e).properties = data.properties.getD e.properties := by
  unfold applyElementUpdate
  cases data.name <;> cases data.type_ <;> cases data.documentation <;>
    cases data.properties <;> simp

theorem applyElementUpdate_id (data : UpdateElementInput) (e : ElementObject) :
    (applyElementUpdate data e).id = e.id := by
  unfold applyElementUpdate
  cases data.name <;> cases data.type_ <;> cases data.documentation <;>
    cases data.properties <;> simp

theorem applyRelationshipUpdate_props (data : UpdateRelationshipInput)
    (r : RelationshipObject) :
    (applyRelationshipUpdate data r).properties = data.properties.getD r.properties := by
  unfold applyRelationshipUpdate
  cases data.type_ <;> cases data.sourceId <;> cases data.targetId <;>
    cases data.name <;> cases data.documentation <;> cases data.properties <;> simp

theorem applyRelationshipUpdate_id (data : UpdateRelationshipInput)
    (r : RelationshipObject) :
    (applyRelationshipUpdate data r).id = r.id := by
  unfold applyRelationshipUpdate
  cases data.type_ <;> cases data.sourceId <;> cases data.targetId <;>
    cases data.name <;> cases data.documentation <;> cases data.properties <;> simp

/-- Successful `updateElement`: the returned element is stored (first match)
in the result model. -/
theorem updateElement_ok {m : ModelData} {id : String} {data : UpdateElementInput}
    {e' : ElementObject} {m2 : ModelData}
    (h : updateElement m id data = (.ok e', m2)) :
    getElement m2 id = some e'
    ∧ ∀ ps, data.properties = some ps → e'.properties = ps := by
  unfold updateElement at h
  cases hfind : m.elements.find? (fun e => e.id == id) with
  | none => rw [hfind] at h; simp at h
  | some e =>
    simp only [hfind] at h
    by_cases hc1 : (match data.type_ with
        | some t => t != "" && t != e.type_ && !validateElementType t
        | none => false) = true
    · rw [if_pos hc1] at h; simp at h
    · rw [if_neg hc1] at h
      by_cases hc2 : (match data.name with
          | some n => n.jsTrim == "" | none => false) = true
      · rw [if_pos hc2] at h; simp at h
      · rw [if_neg hc2] at h
        simp only [Prod.mk.injEq, Except.ok.injEq] at h
        obtain ⟨rfl, rfl⟩ := h
        have hid : ((applyElementUpdate data e).id == id) = true := by
          rw [applyElementUpdate_id]
          simpa using List.find?_some hfind
        constructor
        · exact find?_modifyP_self hfind hid
        · intro ps hps
          rw [applyElementUpdate_props, hps]
          rfl

/-- Successful `updateRelationship`: likewise. -/
theorem updateRelationship_ok {m : ModelData} {id : String}
    {data : UpdateRelationshipInput} {r' : RelationshipObject} {m2 : ModelData}
    (h : updateRelationship m id data = (.ok r', m2)) :
    getRelationship m2 id = some r'
    ∧ ∀ ps, data.properties = some ps → r'.properties = ps := by
  unfold updateRelationship at h
  cases hfind : m.relationships.find? (fun r => r.id == id) with
  | none => rw [hfind] at h; simp at h
  | some r =>
    simp only [hfind] at h
    by_cases hc1 : (match data.type_ with
        | some t => t != "" && t != r.type_ && !validateRelationshipType t
        | none => false) = true
    · rw [if_pos hc1] at h; simp at h
    · rw [if_neg hc1] at h
      by_cases hc2 : (match data.sourceId with
          | some s => s != "" && s != r.sourceId && (getElement m s).isNone
          | none => false) = true
      · rw [if_pos hc2] at h; simp at h
      · rw [if_neg hc2] at h
        by_cases hc3 : (match data.targetId with
            | some t => t != "" && t != r.targetId && (getElement m t).isNone
            | none => false) = true
        · rw [if_pos hc3] at h; simp at h
        · rw [if_neg hc3] at h
          by_cases hc4 : ((match data.sourceId with
              | some s => if s == "" then r.sourceId else s
              | none => r.sourceId) ==
              (match data.targetId with
              | some t => if t == "" then r.targetId else t
              | none => r.targetId)) = true
          · rw [if_pos hc4] at h; simp at h
          · rw [if_neg hc4] at h
            simp only [Prod.mk.injEq, Except.ok.injEq] at h
            obtain ⟨rfl, rfl⟩ := h
            have hrels : (match data.targetId with
                | some t =>
                  if t != "" && t != r.targetId then
                    migrateTarget
                      (match data.sourceId with
                        | some s =>
                          if s != "" && s != r.sourceId then
                            migrateSource m id r.sourceId s
                          else m
                        | none => m) id r.targetId t
                  else
                    (match data.sourceId with
                      | some s =>
                        if s != "" && s != r.sourceId then
                          migrateSource m id r.sourceId s
                        else m
                      | none => m)
                | none =>
                  (match data.sourceId with
                    | some s =>
                      if s != "" && s != r.sourceId then
                        migrateSource m id r.sourceId s
                      else m
                    | none => m)).relationships = m.relationships := by
              cases data.sourceId <;> cases data.targetId <;>
                (repeat' split) <;> rfl
            have hid : ((applyRelationshipUpdate data r).id == id) = true := by
              rw [applyRelationshipUpdate_id]
              simpa using List.find?_some hfind
            constructor
            · unfold getRelationship
              simp only [hrels]
              exact find?_modifyP_self hfind hid
            · intro ps hps
              rw [applyRelationshipUpdate_props, hps]
              rfl

theorem getView_putView {m : ModelData} {incomingId : String} {v w : ViewObject}
    (h : getView m incomingId = some w) (hvid : (v.id == incomingId) = true) :
    getView (putView m incomingId v) incomingId = some v := by
  unfold getView putView at *
  exact find?_modifyP_self h hvid

theorem getView_addInViews (m : ModelData) (viewId : String) (l : List String)
    (id : String) : getView (addInViews m viewId l) id = getView m id := by
  unfold getView
  rw [addInViews_views]

theorem getView_removeInViews (m : ModelData) (viewId : String) (l : List String)
    (id : String) : getView (removeInViews m viewId l) id = getView m id := by
  unfold getView
  rw [removeInViews_views]

/-- Tail of `updateView` after the elements phase: relationships and
nodeHierarchy sections. -/
theorem updateView_tail_ok {mcur : ModelData} {id : String} {data : UpdateViewInput}
    {v2 v' : ViewObject} {m2 : ModelData}
    (h : (match data.relationships with
          | some rels =>
            (match firstMissingRelationship mcur rels with
             | some rid => (.error (.notFoundError "relationship" rid), mcur)
             | none =>
               updateView.finishHierarchy (putView mcur id
                   { v2 with relationships := rels }) id data
                 { v2 with relationships := rels })
          | none => updateView.finishHierarchy mcur id data v2)
        = ((.ok v', m2) : OpResult ViewObject))
    (hg : getView mcur id = some v2) (hvid : (v2.id == id) = true)
    (hprops : ∀ ps, data.properties = some ps → v2.properties = ps) :
    getView m2 id = some v'
    ∧ ∀ ps, data.properties = some ps → v'.properties = ps := by
  have hfin : ∀ (mc : ModelData) (v3 : ViewObject),
      getView mc id = some v3 → (v3.id == id) = true →
      (∀ ps, data.properties = some ps → v3.properties = ps) →
      updateView.finishHierarchy mc id data v3 = (.ok v', m2) →
      getView m2 id = some v'
      ∧ ∀ ps, data.properties = some ps → v'.properties = ps := by
    intro mc v3 hg3 hvid3 hp3 hh
    unfold updateView.finishHierarchy at hh
    cases hnh : data.nodeHierarchy with
    | none =>
      rw [hnh] at hh
      simp only [Prod.mk.injEq, Except.ok.injEq] at hh
      obtain ⟨rfl, rfl⟩ := hh
      exact ⟨hg3, hp3⟩
    | some hs =>
      simp only [hnh] at hh
      cases hmiss : firstMissingHierarchyElement mc hs with
      | some hid => rw [hmiss] at hh; simp at hh
      | none =>
        rw [hmiss] at hh
        simp only [Prod.mk.injEq, Except.ok.injEq] at hh
        obtain ⟨rfl, rfl⟩ := hh
        exact ⟨getView_putView hg3 hvid3, hp3⟩
  cases hrels : data.relationships with
  | none =>
    simp only [hrels] at h
    exact hfin mcur v2 hg hvid hprops h
  | some rels =>
    simp only [hrels] at h
    cases hmiss : firstMissingRelationship mcur rels with
    | some rid => rw [hmiss] at h; simp at h
    | none =>
      rw [hmiss] at h
      refine hfin (putView mcur id { v2 with relationships := rels })
        { v2 with relationships := rels } ?_ hvid (fun ps hps => hprops ps hps) h
      exact getView_putView hg hvid

/-- Successful `updateView`: the final view record is stored and, when a
properties map was supplied, carries exactly it. -/
theorem updateView_ok {m : ModelData} {id : String} {data : UpdateViewInput}
    {v' : ViewObject} {m2 : ModelData}
    (h : updateView m id data = (.ok v', m2)) :
    getView m2 id = some v'
    ∧ ∀ ps, data.properties = some ps → v'.properties = ps := by
  unfold updateView at h
  cases hfind : m.views.find? (fun v => v.id == id) with
  | none => rw [hfind] at h; simp at h
  | some view =>
    simp only [hfind] at h
    cases hscal : applyViewScalarUpdate data view with
    | none => rw [hscal] at h; simp at h
    | some v1 =>
      simp only [hscal] at h
      have hviewid : (view.id == id) = true := by simpa using List.find?_some hfind
      have hv1id : (v1.id == id) = true := by
        rw [applyViewScalarUpdate_id hscal]; exact hviewid
      have hgv1 : getView (putView m id v1) id = some v1 :=
        getView_putView hfind hv1id
      have hprops1 : ∀ ps, data.properties = some ps → v1.properties = ps :=
        fun ps hps => (applyViewScalarUpdate_some_props hscal hps).1
      cases hels : data.elements with
      | none =>
        simp only [hels] at h
        exact updateView_tail_ok h hgv1 hv1id hprops1
      | some els =>
        simp only [hels] at h
        cases hmiss : firstMissingElement
            (removeInViews (putView m id v1) id view.elements) els with
        | some eid => rw [hmiss] at h; simp at h
        | none =>
          rw [hmiss] at h
          dsimp only [] at h
          have hv2id : (({ v1 with elements := els } : ViewObject).id == id) = true :=
            hv1id
          have hgstrip : getView (removeInViews (putView m id v1) id view.elements) id
              = some v1 := by
            rw [getView_removeInViews]; exact hgv1
          have hg2 : getView (addInViews (putView (removeInViews (putView m id v1) id
              view.elements) id { v1 with elements := els }) id els) id
              = some ({ v1 with elements := els } : ViewObject) := by
            rw [getView_addInViews]
            exact getView_putView hgstrip hv2id
          exact updateView_tail_ok h hg2 hv2id (fun ps hps => hprops1 ps hps)

/-- C10: every successful update of an element, relationship or view that
supplies a `properties` map replaces the stored map wholesale — the stored
entity afterwards carries exactly the supplied map, previous keys gone. -/
theorem update_properties_wholesale (m : ModelData) (id : String) :
    (∀ (data : UpdateElementInput) (ps : List (String × String))
        (e' : ElementObject) (m2 : ModelData),
      data.properties = some ps → updateElement m id data = (.ok e', m2) →
      e'.properties = ps ∧ getElement m2 id = some e')
    ∧ (∀ (data : UpdateRelationshipInput) (ps : List (String × String))
        (r' : RelationshipObject) (m2 : ModelData),
      data.properties = some ps → updateRelationship m id data = (.ok r', m2) →
      r'.properties = ps ∧ getRelationship m2 id = some r')
    ∧ (∀ (data : UpdateViewInput) (ps : List (String × String))
        (v' : ViewObject) (m2 : ModelData),
      data.properties = some ps → updateView m id data = (.ok v', m2) →
      v'.properties = ps ∧ getView m2 id = some v') := by
  refine ⟨?_, ?_, ?_⟩
  · intro data ps e' m2 hps h
    have := updateElement_ok h
    exact ⟨this.2 ps hps, this.1⟩
  · intro data ps r' m2 hps h
    have := updateRelationship_ok h
    exact ⟨this.2 ps hps, this.1⟩
  · intro data ps v' m2 hps h
    have := updateView_ok h
    exact ⟨this.2 ps hps, this.1⟩

/-- C10 witness: updating element A of `modelA` (whose properties are
{k1 ↦ v1} after a create) with a map {k2 ↦ v2} leaves exactly {k2 ↦ v2}. -/
theorem update_properties_wholesale_witness :
    (updateElement
      { modelA with elements :=
          [{ mkElement "A" "X" "BusinessActor" with properties := [("k1", "v1")] }] }
      "A" { properties := some [("k2", "v2")] }).1
    = .ok ({ mkElement "A" "X" "BusinessActor" with properties := [("k2", "v2")] }) := by
  have h := (update_properties_wholesale
    { modelA with elements :=
        [{ mkElement "A" "X" "BusinessActor" with properties := [("k1", "v1")] }] }
    "A").1 { properties := some [("k2", "v2")] } [("k2", "v2")]
    ({ mkElement "A" "X" "BusinessActor" with properties := [("k2", "v2")] })
    ((updateElement
      { modelA with elements :=
          [{ mkElement "A" "X" "BusinessActor" with properties := [("k1", "v1")] }] }
      "A" { properties := some [("k2", "v2")] }).2) rfl (by decide)
  decide

-- ============================================================================
-- Claim C1 — errors leave the aggregate unchanged (with two exceptions)
-- ============================================================================

theorem atomic_of_shape {α : Type} {res : OpResult α} {m : ModelData}
    (h : res.2 = m ∨ ∃ a, res.1 = .ok a) : isErr res.1 = true → res.2 = m := by
  intro ht
  rcases h with h | ⟨a, ha⟩
  · exact h
  · rw [ha] at ht; simp [isErr] at ht

set_option maxHeartbeats 1000000 in
/-- C1 (amended): every Mutation Engine operation EXCEPT `updateView` and
`addElementToView` validates before mutating: whenever it throws
(ValidationError, NotFoundError, DuplicateError or ReferentialIntegrityError),
the ModelData aggregate after the throw is the aggregate before the call.
`updateView` applies scalar fields and strips the previous elements'
`inViews` references before it validates the supplied element/relationship/
hierarchy ids, and `addElementToView` adds the element to the view before it
resolves a supplied parent id, so both can throw NotFoundError after partial
writes — see the counterexample. -/
theorem errors_leave_model_unchanged (m : ModelData) :
    (∀ data genId, isErr (createElement m data genId).1 = true →
      (createElement m data genId).2 = m)
    ∧ (∀ id data, isErr (updateElement m id data).1 = true →
      (updateElement m id data).2 = m)
    ∧ (∀ id opts, isErr (deleteElement m id opts).1 = true →
      (deleteElement m id opts).2 = m)
    ∧ (∀ data genId, isErr (createRelationship m data genId).1 = true →
      (createRelationship m data genId).2 = m)
    ∧ (∀ id data, isErr (updateRelationship m id data).1 = true →
      (updateRelationship m id data).2 = m)
    ∧ (∀ id, isErr (deleteRelationship m id).1 = true →
      (deleteRelationship m id).2 = m)
    ∧ (∀ data genId, isErr (createView m data genId).1 = true →
      (createView m data genId).2 = m)
    ∧ (∀ id, isErr (deleteView m id).1 = true → (deleteView m id).2 = m)
    ∧ (∀ viewId elementId, isErr (removeElementFromView m viewId elementId).1 = true →
      (removeElementFromView m viewId elementId).2 = m)
    ∧ (∀ viewId relationshipId,
      isErr (addRelationshipToView m viewId relationshipId).1 = true →
      (addRelationshipToView m viewId relationshipId).2 = m)
    ∧ (∀ viewId relationshipId,
      isErr (removeRelationshipFromView m viewId relationshipId).1 = true →
      (removeRelationshipFromView m viewId relationshipId).2 = m)
    ∧ (∀ data, isErr (createPropertyDefinition m data).1 = true →
      (createPropertyDefinition m data).2 = m)
    ∧ (∀ targetId propertyDefId value,
      isErr (assignProperty m targetId propertyDefId value).1 = true →
      (assignProperty m targetId propertyDefId value).2 = m)
    ∧ (∀ targetId propertyDefId value,
      isErr (updateProperty m targetId propertyDefId value).1 = true →
      (updateProperty m targetId propertyDefId value).2 = m)
    ∧ (∀ targetId propertyDefId cascade,
      isErr (deleteProperty m targetId propertyDefId cascade).1 = true →
      (deleteProperty m targetId propertyDefId cascade).2 = m) := by
  refine ⟨?_, ?_, ?_, ?_, ?_, ?_, ?_, ?_, ?_, ?_, ?_, ?_, ?_, ?_, ?_⟩
  · intro data genId
    apply atomic_of_shape
    generalize hres : createElement m data genId = res
    unfold createElement at hres
    repeat' first | (split at hres) | (dsimp only [] at hres)
    all_goals first
      | (cases hres; exact Or.inl rfl)
      | (cases hres; exact Or.inr ⟨_, rfl⟩)
  · intro id data
    apply atomic_of_shape
    generalize hres : updateElement m id data = res
    unfold updateElement at hres
    repeat' first | (split at hres) | (dsimp only [] at hres)
    all_goals first
      | (cases hres; exact Or.inl rfl)
      | (cases hres; exact Or.inr ⟨_, rfl⟩)
  · intro id opts
    apply atomic_of_shape
    generalize hres : deleteElement m id opts = res
    unfold deleteElement at hres
    repeat' first | (split at hres) | (dsimp only [] at hres)
    all_goals first
      | (cases hres; exact Or.inl rfl)
      | (cases hres; exact Or.inr ⟨_, rfl⟩)
  · intro data genId
    apply atomic_of_shape
    generalize hres : createRelationship m data genId = res
    unfold createRelationship at hres
    repeat' first | (split at hres) | (dsimp only [] at hres)
    all_goals first
      | (cases hres; exact Or.inl rfl)
      | (cases hres; exact Or.inr ⟨_, rfl⟩)
  · intro id data
    apply atomic_of_shape
    generalize hres : updateRelationship m id data = res
    unfold updateRelationship at hres
    repeat' first | (split at hres) | (dsimp only [] at hres)
    all_goals first
      | (cases hres; exact Or.inl rfl)
      | (cases hres; exact Or.inr ⟨_, rfl⟩)
  · intro id
    apply atomic_of_shape
    generalize hres : deleteRelationship m id = res
    unfold deleteRelationship at hres
    repeat' first | (split at hres) | (dsimp only [] at hres)
    all_goals first
      | (cases hres; exact Or.inl rfl)
      | (cases hres; exact Or.inr ⟨_, rfl⟩)
  · intro data genId
    apply atomic_of_shape
    generalize hres : createView m data genId = res
    unfold createView at hres
    repeat' first | (split at hres) | (dsimp only [] at hres)
    all_goals first
      | (cases hres; exact Or.inl rfl)
      | (cases hres; exact Or.inr ⟨_, rfl⟩)
  · intro id
    apply atomic_of_shape
    generalize hres : deleteView m id = res
    unfold deleteView at hres
    repeat' first | (split at hres) | (dsimp only [] at hres)
    all_goals first
      | (cases hres; exact Or.inl rfl)
      | (cases hres; exact Or.inr ⟨_, rfl⟩)
  · intro viewId elementId
    apply atomic_of_shape
    generalize hres : removeElementFromView m viewId elementId = res
    unfold removeElementFromView at hres
    repeat' first | (split at hres) | (dsimp only [] at hres)
    all_goals first
      | (cases hres; exact Or.inl rfl)
      | (cases hres; exact Or.inr ⟨_, rfl⟩)
  · intro viewId relationshipId
    apply atomic_of_shape
    generalize hres : addRelationshipToView m viewId relationshipId = res
    unfold addRelationshipToView at hres
    repeat' first | (split at hres) | (dsimp only [] at hres)
    all_goals first
      | (cases hres; exact Or.inl rfl)
      | (cases hres; exact Or.inr ⟨_, rfl⟩)
  · intro viewId relationshipId
    apply atomic_of_shape
    generalize hres : removeRelationshipFromView m viewId relationshipId = res
    unfold removeRelationshipFromView at hres
    repeat' first | (split at hres) | (dsimp only [] at hres)
    all_goals first
      | (cases hres; exact Or.inl rfl)
      | (cases hres; exact Or.inr ⟨_, rfl⟩)
  · intro data
    apply atomic_of_shape
    generalize hres : createPropertyDefinition m data = res
    unfold createPropertyDefinition at hres
    repeat' first | (split at hres) | (dsimp only [] at hres)
    all_goals first
      | (cases hres; exact Or.inl rfl)
      | (cases hres; exact Or.inr ⟨_, rfl⟩)
  · intro targetId propertyDefId value
    apply atomic_of_shape
    generalize hres : assignProperty m targetId propertyDefId value = res
    unfold assignProperty at hres
    repeat' first | (split at hres) | (dsimp only [] at hres)
    all_goals first
      | (cases hres; exact Or.inl rfl)
      | (cases hres; exact Or.inr ⟨_, rfl⟩)
  · intro targetId propertyDefId value
    apply atomic_of_shape
    generalize hres : updateProperty m targetId propertyDefId value = res
    unfold updateProperty at hres
    repeat' first | (split at hres) | (dsimp only [] at hres)
    all_goals first
      | (cases hres; exact Or.inl rfl)
      | (cases hres; exact Or.inr ⟨_, rfl⟩)
  · intro targetId propertyDefId cascade
    apply atomic_of_shape
    generalize hres : deleteProperty m targetId propertyDefId cascade = res
    unfold deleteProperty at hres
    repeat' first | (split at hres) | (dsimp only [] at hres)
    all_goals first
      | (cases hres; exact Or.inl rfl)
      | (cases hres; exact Or.inr ⟨_, rfl⟩)

/-- C1 counterexample: `updateView` on `modelAB` with an unknown element id
throws NotFoundError, but the model afterwards differs from the model before
the call — both elements have lost "V" from their `inViews` (the strip of the
previous element references runs before the existence validation). -/
theorem updateView_throws_after_partial_write :
    isErr (updateView modelAB "V" { elements := some ["Z"] }).1 = true
    ∧ (updateView modelAB "V" { elements := some ["Z"] }).2 ≠ modelAB
    ∧ ((updateView modelAB "V" { elements := some ["Z"] }).2.elements.map
        (fun e => e.inViews)) = [[], []] := by
  exact ⟨by decide, by decide, by decide⟩

/-- C1 witness: a throwing `deleteElement` and a throwing
`createRelationship` leave the aggregate untouched. -/
theorem errors_leave_model_unchanged_witness :
    (deleteElement modelAB "Z" { cascade := true, validate := true }).2 = modelAB
    ∧ (createRelationship modelAB
        { type_ := "Bogus", sourceId := "A", targetId := "B" } "g").2 = modelAB := by
  constructor
  · exact (errors_leave_model_unchanged modelAB).2.2.1 "Z"
      { cascade := true, validate := true } (by decide)
  · exact (errors_leave_model_unchanged modelAB).2.2.2.1
      { type_ := "Bogus", sourceId := "A", targetId := "B" } "g" (by decide)

-- ============================================================================
-- Claim C9 — Exchange Codec view serialization (ArchiMateXMLBuilder,
-- src/model/persistence.ts)
-- ============================================================================

/-- XML tree as built by xmlbuilder2 through the codec. -/
inductive Xml where
  | text (s : String)
  | elem (tag : String) (attrs : List (String × String)) (children : List Xml)

/-- xmlbuilder2's `att` invoked with the attribute name alone
(`node.att('elementRef')`, persistence.ts line 240). `XMLBuilderImpl.att`
has only setter forms — `att(obj)`, `att(name, value)` and
`att(ns, name, value)` — and with a lone string argument it falls through to
its final else branch and throws
`Error("Attribute name and value not specified. " + this._debugInfo())`.
There is no getter form: the call never yields the attribute string (the
embedding keeps the fixed message prefix and drops the appended debug
info). -/
def Xml.attOneArg (_x : Xml) (_name : String) : Except String Xml :=
  .error "Attribute name and value not specified"

/-- The predicate of `viewEl.find` in the nodeHierarchy loop (persistence.ts
lines 239-241): evaluate `node.att('elementRef')` and strict-compare the
result with the pair's parentElement. The att call throws, so the
comparison — which would compare a builder object against a string and
yield false — is never reached. -/
def hierFindPred (_parentElement : String) (node : Xml) : Except String Bool :=
  match node.attOneArg "elementRef" with
  | .error e => .error e
  | .ok _builder => .ok false

/-- `parentNode.ele('node', { elementRef: childElement })` (persistence.ts
line 243) appends a nested node under the found parent. -/
def Xml.appendChild (x : Xml) (child : Xml) : Xml :=
  match x with
  | .text s => .text s
  | .elem tag attrs children => .elem tag attrs (children ++ [child])

/-- `ArchiMateXMLBuilder.addLangString` (persistence.ts lines 252-256); its
`el.att('xml:lang', lang)` is the two-argument setter form, which does not
throw. -/
def addLangString (tag value lang : String) : Xml :=
  .elem tag [("xml:lang", lang)] [.text value]

/-- The `<properties>` block (persistence.ts lines 210-216). -/
def propertiesChildren (props : List (String × String)) (lang : String) : List Xml :=
  if props.isEmpty then []
  else
    [.elem "properties" []
      (props.map (fun p =>
        .elem "property" [("propertyDefinitionRef", p.1)]
          [addLangString "value" p.2 lang]))]

/-- A flat `<node elementRef="..">` for a view element (lines 219-224). -/
def nodeChild (eid : String) : Xml := .elem "node" [("elementRef", eid)] []

/-- The direct children of the `<view>` element before the nodeHierarchy
loop runs (persistence.ts lines 199-231): name, documentation, properties,
one flat `<node>` per view element, one `<connection>` per view
relationship. JS truthiness: empty-string name/documentation are skipped. -/
def viewChildren0 (view : ViewObject) (lang : String) : List Xml :=
  (if view.name == "" then [] else [addLangString "name" view.name lang])
  ++ (match view.documentation with
      | some d => if d == "" then [] else [addLangString "documentation" d lang]
      | none => [])
  ++ propertiesChildren view.properties lang
  ++ view.elements.map nodeChild
  ++ view.relationships.map
      (fun rid => .elem "connection" [("relationshipRef", rid)] [])

/-- One iteration of the nodeHierarchy loop (persistence.ts lines 237-245):
`viewEl.find(pred)` walks the view element's DIRECT children in document
order (xmlbuilder2's `find` defaults `self` and `recursive` to false),
running the predicate on each; an exception from the predicate propagates
out of `find`. A first matching child would receive the nested `<node>`
(the `if (parentNode)` branch); with no match — in particular with no
children at all, where the predicate is never invoked — the pair is left
without effect, as the loop has no else branch. -/
def attachHierarchyPair : List Xml → HierarchyPair → Except String (List Xml)
  | [], _ => .ok []
  | c :: cs, h =>
    match hierFindPred h.parentElement c with
    | .error e => .error e
    | .ok true => .ok (c.appendChild (nodeChild h.childElement) :: cs)
    | .ok false =>
      match attachHierarchyPair cs h with
      | .error e => .error e
      | .ok cs2 => .ok (c :: cs2)

/-- The `for (const { parentElement, childElement } of view.nodeHierarchy)`
loop (persistence.ts lines 234-246), threading the view element's children;
an exception aborts serialization. -/
def foldHierarchy : List Xml → List HierarchyPair → Except String (List Xml)
  | cs, [] => .ok cs
  | cs, h :: t =>
    match attachHierarchyPair cs h with
    | .error e => .error e
    | .ok cs2 => foldHierarchy cs2 t

/-- The view element's attribute list (persistence.ts lines 189-195). JS
truthiness: empty-string type/viewpoint are skipped. -/
def viewAttrs (view : ViewObject) : List (String × String) :=
  [("identifier", view.id)]
  ++ (match view.type_ with
      | some t => if t == "" then [] else [("xsi:type", t)]
      | none => [])
  ++ (match view.viewpoint with
      | some vp => if vp == "" then [] else [("viewpoint", vp)]
      | none => [])

/-- `ArchiMateXMLBuilder.serializeView` (persistence.ts lines 188-247):
build the view element's attributes and pre-hierarchy children, then run
the nodeHierarchy loop (a no-op when the list is empty, matching the
length guard on line 234); an exception from the loop propagates out of the
serializer. -/
def serializeView (view : ViewObject) (lang : String) : Except String Xml :=
  match foldHierarchy (viewChildren0 view lang) view.nodeHierarchy with
  | .error e => .error e
  | .ok cs => .ok (.elem "view" (viewAttrs view) cs)

/-- With no children the find predicate is never invoked, so every pair of
the hierarchy is dropped without an exception. -/
theorem foldHierarchy_nil_children :
    ∀ pairs : List HierarchyPair, foldHierarchy [] pairs = .ok [] := by
  intro pairs
  induction pairs with
  | nil => rfl
  | cons h t ih => simpa [foldHierarchy, attachHierarchyPair] using ih

/-- C9: the claimed behavior never happens, and the code diverges from the
spec's requirement. xmlbuilder2's `att` has no single-argument getter form
— the call in the find predicate throws — so the nodeHierarchy loop never
nests a `<node>` under a parent's node and never emits a flat sibling node:
whenever `nodeHierarchy` is non-empty, serialization throws as soon as the
view element has any child (a name, documentation, properties, a listed
element or relationship), and when the view element is completely bare
every pair is silently dropped, no node being emitted for the child. -/
theorem serializeView_raises_on_nodeHierarchy (view : ViewObject) (lang : String) :
    (view.nodeHierarchy ≠ [] → viewChildren0 view lang ≠ [] →
      serializeView view lang = .error "Attribute name and value not specified")
    ∧ (viewChildren0 view lang = [] →
      serializeView view lang = .ok (Xml.elem "view" (viewAttrs view) [])) := by
  constructor
  · intro hh hc
    cases hph : view.nodeHierarchy with
    | nil => exact absurd hph hh
    | cons h t =>
      cases hcs : viewChildren0 view lang with
      | nil => exact absurd hcs hc
      | cons c cs =>
        unfold serializeView
        rw [hph, hcs]
        rfl
  · intro hc
    unfold serializeView
    rw [hc, foldHierarchy_nil_children view.nodeHierarchy]

/-- C9 witness at the failing input: view "V" named "N" with flat nodes for
"p" and "c" and the hierarchy pair (p, c) — the spec expects
`<node elementRef="c">` nested inside p's node, but serialization throws;
and a bare unnamed view carrying the same pair completes WITHOUT any node
for "c" — the pair is dropped instead of being emitted as a flat sibling. -/
theorem serializeView_raises_on_nodeHierarchy_witness :
    serializeView (mkView "V" "N" ["p", "c"] [] [⟨"p", "c"⟩]) "en"
      = .error "Attribute name and value not specified"
    ∧ serializeView (mkView "V" "" [] [] [⟨"p", "c"⟩]) "en"
      = .ok (Xml.elem "view" [("identifier", "V")] []) :=
  ⟨(serializeView_raises_on_nodeHierarchy
        (mkView "V" "N" ["p", "c"] [] [⟨"p", "c"⟩]) "en").1
      (by decide) (List.cons_ne_nil _ _),
    (serializeView_raises_on_nodeHierarchy
        (mkView "V" "" [] [] [⟨"p", "c"⟩]) "en").2 rfl⟩

-- ============================================================================
-- Claim C8 — save contract (spec-modelled: the implemented save/saveAs of
-- ModelManipulator is absent from the provided sources — the manipulator.ts
-- copy carries a throwing stub at lines 1285-1299 — while its tests
-- (model.manipulator.persistence.test.ts) and callers (the app service)
-- exercise the implemented version)
-- ============================================================================

/-- File contents: either the Exchange Codec's encoding of a model or
pre-existing content of unknown provenance. -/
inductive FileContent where
  | encoded (m : ModelData)
  | raw (s : String)
deriving DecidableEq, Repr

/-- A flat file system: path to content. -/
abbrev FS := List (String × FileContent)

def fsLookup (fs : FS) (path : String) : Option FileContent :=
  (fs.find? (fun p => p.1 == path)).map (fun p => p.2)

def fsDelete (fs : FS) (path : String) : FS :=
  fs.filter (fun p => p.1 != path)

def fsSet (fs : FS) (path : String) (c : FileContent) : FS :=
  fsDelete fs path ++ [(path, c)]

/-- Modelled from the spec: the fail-fast referential-integrity validation
run at save time ("scans the whole aggregate for duplicate ids, dangling
relationship endpoints, and dangling view references; raises
DuplicateError/ReferentialIntegrityError immediately"). The save
implementation itself is missing from the provided sources. -/
def validateForSave (m : ModelData) : Except ManipError Unit :=
  let ids := m.elements.map (fun e => e.id) ++ m.relationships.map (fun r => r.id)
    ++ m.views.map (fun v => v.id)
  match ids.find? (fun i => 1 < ids.count i) with
  | some i => .error (.duplicateError "identifier" i)
  | none =>
    match m.relationships.find? (fun r =>
        (getElement m r.sourceId).isNone || (getElement m r.targetId).isNone) with
    | some r => .error (.referentialIntegrityError "relationship" r.id
        [r.sourceId, r.targetId])
    | none =>
      match m.views.find? (fun v =>
          v.elements.any (fun eid => (getElement m eid).isNone)
          || v.relationships.any (fun rid => (getRelationship m rid).isNone)) with
      | some v => .error (.referentialIntegrityError "view" v.id
          (v.elements ++ v.relationships))
      | none => .ok ()

/-- Modelled from the spec: `save(modelData, path, {createBackup, validate})`
"optionally renames any existing file at path to a timestamped backup before
overwrite, optionally runs referential-integrity + schema validation first
(raising on failure without writing), then writes via the Exchange Codec".
The external schema validator is abstracted as the boolean `schemaValid`;
`timestamp` stands for the clock value used in the backup file name (the
tests observe backup files named path-stem `.backup.` timestamp). -/
def save (m : ModelData) (path : String) (createBackup validate : Bool)
    (schemaValid : Bool) (fs : FS) (timestamp : String) :
    Except ManipError FS :=
  let write : FS :=
    let fs1 :=
      if createBackup then
        match fsLookup fs path with
        | some content =>
          fsSet (fsDelete fs path) (path ++ ".backup." ++ timestamp) content
        | none => fs
      else fs
    fsSet fs1 path (.encoded m)
  if validate then
    match validateForSave m with
    | .error e => .error e
    | .ok () =>
      if !schemaValid then
        .error (.validationError "schema validation failed")
      else .ok write
  else .ok write

theorem fsDelete_find?_none (fs : FS) (path : String) :
    (fsDelete fs path).find? (fun p => p.1 == path) = none := by
  apply List.find?_eq_none.mpr
  intro x hx
  have hkeep := (List.mem_filter.mp hx).2
  simpa using hkeep

theorem fsLookup_fsSet_same (fs : FS) (path : String) (c : FileContent) :
    fsLookup (fsSet fs path c) path = some c := by
  unfold fsLookup fsSet
  rw [List.find?_append, fsDelete_find?_none fs path]
  simp [List.find?]

theorem fsLookup_fsSet_other (fs : FS) (path other : String) (c : FileContent)
    (h : other ≠ path) : fsLookup (fsSet fs path c) other = fsLookup fs other := by
  unfold fsLookup fsSet fsDelete
  rw [List.find?_append]
  have hsingle : List.find? (fun p => p.1 == other) [(path, c)] = none := by
    have hne : (path == other) = false :=
      beq_eq_false_iff_ne.mpr (fun hh => h hh.symm)
    simp [List.find?, hne]
  rw [hsingle, Option.or_none]
  induction fs with
  | nil => simp [List.find?]
  | cons p ps ih =>
    by_cases hp : (p.1 == path) = true
    · have hpath : p.1 = path := by simpa using hp
      have hpo : (p.1 == other) = false :=
        beq_eq_false_iff_ne.mpr (by rw [hpath]; exact fun hh => h hh.symm)
      have hkeep : (p.1 != path) = false := by simpa using hp
      simp only [List.filter_cons, hkeep, Bool.false_eq_true, if_false,
        List.find?_cons, hpo]
      exact ih
    · have hkeep : (p.1 != path) = true := by simpa using hp
      by_cases hpo : (p.1 == other) = true
      · simp only [List.filter_cons, hkeep, if_true, List.find?_cons, hpo]
      · simp only [List.filter_cons, hkeep, if_true, List.find?_cons, hpo,
          Bool.false_eq_true, if_false]
        exact ih

theorem backupPath_ne (path timestamp : String) :
    path ++ ".backup." ++ timestamp ≠ path := by
  intro h
  have hlen := congrArg String.length h
  rw [String.length_append, String.length_append] at hlen
  have h8 : (".backup." : String).length = 8 := by decide
  rw [h8] at hlen
  omega

/-- C8 (spec-modelled): with validate enabled, an integrity failure raises
without writing (the error propagates, no file system is produced); on a
validating (or validation-skipped) save, the call SUCCEEDS — it is not
unconditionally failing — writes the codec's encoding of the model at the
path, and when createBackup is enabled and a file existed there, the old
content survives under the timestamped backup name. -/
theorem save_contract (m : ModelData) (path : String)
    (createBackup validate schemaValid : Bool) (fs : FS) (timestamp : String) :
    (∀ e, validate = true → validateForSave m = .error e →
      save m path createBackup validate schemaValid fs timestamp = .error e)
    ∧ ((validate = true → validateForSave m = .ok () ∧ schemaValid = true) →
      ∃ fs', save m path createBackup validate schemaValid fs timestamp = .ok fs'
        ∧ fsLookup fs' path = some (.encoded m)
        ∧ (createBackup = true → ∀ c, fsLookup fs path = some c →
            fsLookup fs' (path ++ ".backup." ++ timestamp) = some c)) := by
  constructor
  · intro e hv herr
    simp [save, hv, herr]
  · intro hok
    have hwrite : save m path createBackup validate schemaValid fs timestamp
        = .ok (fsSet (if createBackup then
            match fsLookup fs path with
            | some content =>
              fsSet (fsDelete fs path) (path ++ ".backup." ++ timestamp) content
            | none => fs
          else fs) path (.encoded m)) := by
      cases hval : validate with
      | false => simp [save, hval]
      | true =>
        rcases hok hval with ⟨hv, hs⟩
        simp [save, hval, hv, hs]
    refine ⟨_, hwrite, ?_, ?_⟩
    · exact fsLookup_fsSet_same _ path (.encoded m)
    · intro hcb c hc
      rw [fsLookup_fsSet_other _ path _ _ (backupPath_ne path timestamp), hcb]
      simp only [hc]
      exact fsLookup_fsSet_same _ _ _

/-- C8 witness: saving the (integrity-valid) `modelAB` with backup over an
existing file keeps the old content under the backup name and stores the
encoded model at the path. -/
theorem save_contract_witness :
    ∃ fs', save modelAB "m.xml" true true true [("m.xml", .raw "old")] "T" = .ok fs'
      ∧ fsLookup fs' "m.xml" = some (.encoded modelAB)
      ∧ (true = true → ∀ c, fsLookup [("m.xml", FileContent.raw "old")] "m.xml" = some c →
          fsLookup fs' ("m.xml" ++ ".backup." ++ "T") = some c) := by
  exact (save_contract modelAB "m.xml" true true true
    [("m.xml", .raw "old")] "T").2 (fun _ => ⟨by decide, rfl⟩)

-- ============================================================================
-- Claim C3 — invariant 2 across committed operation sequences
-- ============================================================================

/-- Side condition under which a committed operation sequence preserves
invariant 2 (see the C3 theorem): `deleteElement` must cascade or validate
(the unvalidated non-cascading path deletes an element without detaching its
relationships), and relationship endpoint inputs must be trim-invariant (for
`updateRelationship` also non-empty), because the source registers the
relation id under the RAW endpoint id but stores the TRIMMED id in the
relationship record. Every other operation is unconstrained. -/
def sideCond : MutOp → Bool
  | .deleteElementOp _ opts => opts.cascade || opts.validate
  | .createRelationshipOp data _ =>
      (data.sourceId.jsTrim == data.sourceId) && (data.targetId.jsTrim == data.targetId)
  | .updateRelationshipOp _ data =>
      (match data.sourceId with
       | some s => !(s == "") && (s.jsTrim == s)
       | none => true)
      && (match data.targetId with
          | some t => !(t == "") && (t.jsTrim == t)
          | none => true)
  | _ => true

/-- The element fields that invariants 1 and 2 read. -/
def elemKey (e : ElementObject) : String × List String × List String :=
  (e.id, e.outgoingRelations, e.incomingRelations)

/-- The relationship fields that invariants 1 and 2 read. -/
def relKey (r : RelationshipObject) : String × String × String :=
  (r.id, r.sourceId, r.targetId)

/-- Two models agreeing on every invariant-relevant field. -/
def KeysEq (m m2 : ModelData) : Prop :=
  m2.elements.map elemKey = m.elements.map elemKey
  ∧ m2.relationships.map relKey = m.relationships.map relKey
  ∧ m2.views.map (fun v => v.id) = m.views.map (fun v => v.id)

theorem keysEq_refl (m : ModelData) : KeysEq m m := ⟨rfl, rfl, rfl⟩

theorem keysEq_trans {m1 m2 m3 : ModelData} (h12 : KeysEq m1 m2)
    (h23 : KeysEq m2 m3) : KeysEq m1 m3 :=
  ⟨h23.1.trans h12.1, h23.2.1.trans h12.2.1, h23.2.2.trans h12.2.2⟩

theorem elemKey_eq_parts {e1 e2 : ElementObject} (h : elemKey e1 = elemKey e2) :
    e1.id = e2.id ∧ e1.outgoingRelations = e2.outgoingRelations
      ∧ e1.incomingRelations = e2.incomingRelations := by
  unfold elemKey at h
  simpa using h

theorem relKey_eq_parts {r1 r2 : RelationshipObject} (h : relKey r1 = relKey r2) :
    r1.id = r2.id ∧ r1.sourceId = r2.sourceId ∧ r1.targetId = r2.targetId := by
  unfold relKey at h
  simpa using h

/-- Equality of key images transfers membership, up to key equality. -/
theorem key_transfer {α β : Type} {k : α → β} {l l2 : List α}
    (h : l2.map k = l.map k) : ∀ a2 ∈ l2, ∃ a ∈ l, k a = k a2 := by
  intro a2 ha2
  have hmem : k a2 ∈ l.map k := by
    rw [← h]; exact List.mem_map_of_mem k ha2
  rcases List.mem_map.mp hmem with ⟨a, ha, hk⟩
  exact ⟨a, ha, hk⟩

/-- Invariant 2 reads only the element and relationship keys. -/
theorem inv2_of_keys {m m2 : ModelData}
    (he : m2.elements.map elemKey = m.elements.map elemKey)
    (hr : m2.relationships.map relKey = m.relationships.map relKey)
    (h : Inv2 m) : Inv2 m2 := by
  obtain ⟨ha, hb, hc, hd, hc1, hc2, hnd⟩ := h
  have heE : ∀ e2 ∈ m2.elements, ∃ e ∈ m.elements,
      e.id = e2.id ∧ e.outgoingRelations = e2.outgoingRelations
        ∧ e.incomingRelations = e2.incomingRelations := by
    intro e2 he2
    rcases key_transfer he e2 he2 with ⟨e, hmem, hk⟩
    exact ⟨e, hmem, elemKey_eq_parts hk⟩
  have heE2 : ∀ e ∈ m.elements, ∃ e2 ∈ m2.elements,
      e2.id = e.id ∧ e2.outgoingRelations = e.outgoingRelations
        ∧ e2.incomingRelations = e.incomingRelations := by
    intro e hmem
    rcases key_transfer he.symm e hmem with ⟨e2, he2, hk⟩
    exact ⟨e2, he2, elemKey_eq_parts hk⟩
  have hrR : ∀ r2 ∈ m2.relationships, ∃ r ∈ m.relationships,
      r.id = r2.id ∧ r.sourceId = r2.sourceId ∧ r.targetId = r2.targetId := by
    intro r2 hr2
    rcases key_transfer hr r2 hr2 with ⟨r, hmem, hk⟩
    exact ⟨r, hmem, relKey_eq_parts hk⟩
  have hrR2 : ∀ r ∈ m.relationships, ∃ r2 ∈ m2.relationships,
      r2.id = r.id ∧ r2.sourceId = r.sourceId ∧ r2.targetId = r.targetId := by
    intro r hmem
    rcases key_transfer hr.symm r hmem with ⟨r2, hr2, hk⟩
    exact ⟨r2, hr2, relKey_eq_parts hk⟩
  refine ⟨?_, ?_, ?_, ?_, ?_, ?_, ?_⟩
  · intro r2 hr2
    rcases hrR r2 hr2 with ⟨r, hrm, _, hsrc, _⟩
    rcases ha r hrm with ⟨e, hem, heid⟩
    rcases heE2 e hem with ⟨e2, he2m, h2id, _, _⟩
    exact ⟨e2, he2m, by rw [h2id, heid, hsrc]⟩
  · intro r2 hr2
    rcases hrR r2 hr2 with ⟨r, hrm, _, _, htgt⟩
    rcases hb r hrm with ⟨e, hem, heid⟩
    rcases heE2 e hem with ⟨e2, he2m, h2id, _, _⟩
    exact ⟨e2, he2m, by rw [h2id, heid, htgt]⟩
  · intro e2 he2 rid hrid
    rcases heE e2 he2 with ⟨e, hem, hid, hout, _⟩
    rcases hc e hem rid (hout ▸ hrid) with ⟨r, hrm, hridq, hrsrc⟩
    rcases hrR2 r hrm with ⟨r2, hr2m, h2id, h2src, _⟩
    exact ⟨r2, hr2m, by rw [h2id, hridq], by rw [h2src, hrsrc, hid]⟩
  · intro e2 he2 rid hrid
    rcases heE e2 he2 with ⟨e, hem, hid, _, hin⟩
    rcases hd e hem rid (hin ▸ hrid) with ⟨r, hrm, hridq, hrtgt⟩
    rcases hrR2 r hrm with ⟨r2, hr2m, h2id, _, h2tgt⟩
    exact ⟨r2, hr2m, by rw [h2id, hridq], by rw [h2tgt, hrtgt, hid]⟩
  · intro r2 hr2 e2 he2 hideq
    rcases hrR r2 hr2 with ⟨r, hrm, hrid, hsrc, _⟩
    rcases heE e2 he2 with ⟨e, hem, hid, hout, _⟩
    have : r.id ∈ e.outgoingRelations :=
      hc1 r hrm e hem (by rw [hid, hideq, ← hsrc])
    rw [← hrid, ← hout]
    exact this
  · intro r2 hr2 e2 he2 hideq
    rcases hrR r2 hr2 with ⟨r, hrm, hrid, _, htgt⟩
    rcases heE e2 he2 with ⟨e, hem, hid, _, hin⟩
    have : r.id ∈ e.incomingRelations :=
      hc2 r hrm e hem (by rw [hid, hideq, ← htgt])
    rw [← hrid, ← hin]
    exact this
  · intro e2 he2
    rcases heE e2 he2 with ⟨e, hem, _, hout, hin⟩
    rw [← hout, ← hin]
    exact hnd e hem

theorem noSelfLoop_of_keys {m m2 : ModelData}
    (hr : m2.relationships.map relKey = m.relationships.map relKey)
    (h : NoSelfLoop m) : NoSelfLoop m2 := by
  intro r2 hr2
  rcases key_transfer hr r2 hr2 with ⟨r, hrm, hk⟩
  obtain ⟨_, hsrc, htgt⟩ := relKey_eq_parts hk
  rw [← hsrc, ← htgt]
  exact h r hrm

theorem idsNodup_of_keys {m m2 : ModelData}
    (he : m2.elements.map elemKey = m.elements.map elemKey)
    (hr : m2.relationships.map relKey = m.relationships.map relKey)
    (hv : List.Sublist (m2.views.map (fun v => v.id)) (m.views.map (fun v => v.id)))
    (h : IdsNodup m) : IdsNodup m2 := by
  unfold IdsNodup at h ⊢
  have he' : m2.elements.map (fun e => e.id) = m.elements.map (fun e => e.id) := by
    have h1 := congrArg (List.map Prod.fst) he
    simpa [List.map_map, Function.comp, elemKey] using h1
  have hr' : m2.relationships.map (fun r => r.id)
      = m.relationships.map (fun r => r.id) := by
    have h1 := congrArg (List.map Prod.fst) hr
    simpa [List.map_map, Function.comp, relKey] using h1
  rw [he', hr']
  exact List.Nodup.sublist ((List.Sublist.refl _).append hv) h

theorem good_of_keys {m m2 : ModelData}
    (he : m2.elements.map elemKey = m.elements.map elemKey)
    (hr : m2.relationships.map relKey = m.relationships.map relKey)
    (hv : List.Sublist (m2.views.map (fun v => v.id)) (m.views.map (fun v => v.id)))
    (h : Good m) : Good m2 :=
  ⟨idsNodup_of_keys he hr hv h.1, noSelfLoop_of_keys hr h.2.1,
    inv2_of_keys he hr h.2.2⟩

theorem good_of_keysEq {m m2 : ModelData} (h : KeysEq m m2) (hg : Good m) :
    Good m2 :=
  good_of_keys h.1 h.2.1 (by rw [h.2.2]) hg

/-- `modifyP` keeps any key that `f` preserves on matching entries. -/
theorem map_modifyP_of_key_pos {α : Type} {β : Type} {p : α → Bool} {f : α → α}
    {k : α → β} (l : List α) (hf : ∀ a, p a = true → k (f a) = k a) :
    (modifyP p f l).map k = l.map k := by
  induction l with
  | nil => rfl
  | cons x xs ih =>
    by_cases hx : p x = true
    · simp only [modifyP, if_pos hx, List.map_cons, hf x hx]
    · simp only [modifyP, if_neg hx, List.map_cons, ih]

/-- `modifyP` keeps any key that `f` preserves on the found entry. -/
theorem map_modifyP_find? {α : Type} {β : Type} {p : α → Bool} {f : α → α}
    {k : α → β} {l : List α} {a : α}
    (hfind : l.find? p = some a) (hk : k (f a) = k a) :
    (modifyP p f l).map k = l.map k := by
  induction l with
  | nil => simp [List.find?] at hfind
  | cons x xs ih =>
    by_cases hx : p x = true
    · rw [List.find?_cons_of_pos _ hx] at hfind
      cases hfind
      simp only [modifyP, if_pos hx, List.map_cons, hk]
    · rw [List.find?_cons_of_neg _ (by simpa using hx)] at hfind
      simp only [modifyP, if_neg hx, List.map_cons, ih hfind]

/-- Under unique keys, `find?` by key returns exactly the member carrying the
key. -/
theorem find?_eq_of_key_mem {α : Type} {k : α → String} {l : List α} {a : α}
    {x : String} (hnd : (l.map k).Nodup) (ha : a ∈ l) (hk : k a = x) :
    l.find? (fun b => k b == x) = some a := by
  induction l with
  | nil => cases ha
  | cons y ys ih =>
    simp only [List.map_cons, List.nodup_cons] at hnd
    rcases List.mem_cons.mp ha with rfl | hmem
    · rw [List.find?_cons_of_pos _ (by simp [hk])]
    · have hky : ¬ (k y = x) := by
        intro hxy
        have hmm : k a ∈ ys.map k := List.mem_map_of_mem k hmem
        rw [hk, ← hxy] at hmm
        exact hnd.1 hmm
      rw [List.find?_cons_of_neg _ (by simp [hky])]
      exact ih hnd.2 hmem

theorem mem_contains_true {l : List String} {x : String} (h : x ∈ l) :
    l.contains x = true := by
  induction l with
  | nil => cases h
  | cons y ys ih =>
    rcases List.mem_cons.mp h with rfl | hmem
    · simp [List.contains_cons]
    · simp only [List.contains_cons, ih hmem, Bool.or_true]

/-- A fresh identifier is absent from each id component. -/
theorem identifierExists_false_parts {m : ModelData} {x : String}
    (h : identifierExists m x = false) :
    x ∉ m.elements.map (fun e => e.id)
      ∧ x ∉ m.relationships.map (fun r => r.id)
      ∧ x ∉ m.views.map (fun v => v.id) := by
  have hnm : x ∉ (m.elements.map (fun e => e.id)
      ++ m.relationships.map (fun r => r.id) ++ m.views.map (fun v => v.id)) := by
    intro hmem
    unfold identifierExists at h
    rw [mem_contains_true hmem] at h
    cases h
  refine ⟨fun h1 => hnm ?_, fun h1 => hnm ?_, fun h1 => hnm ?_⟩
  · exact List.mem_append_left _ (List.mem_append_left _ h1)
  · exact List.mem_append_left _ (List.mem_append_right _ h1)
  · exact List.mem_append_right _ h1

/-- Projections of `IdsNodup`. -/
theorem idsNodup_parts {m : ModelData} (h : IdsNodup m) :
    (m.elements.map (fun e => e.id)).Nodup
      ∧ (m.relationships.map (fun r => r.id)).Nodup
      ∧ (m.views.map (fun v => v.id)).Nodup := by
  unfold IdsNodup at h
  have h1 := h.of_append_left
  exact ⟨h1.of_append_left, h1.of_append_right, h.of_append_right⟩

-- ----------------------------------------------------------------------------
-- KeysEq steps: the state transformers that touch no invariant-relevant field
-- ----------------------------------------------------------------------------

theorem keysEq_putView {v : ViewObject} (m : ModelData) (id : String)
    (hv : v.id = id) : KeysEq m (putView m id v) := by
  refine ⟨rfl, rfl, ?_⟩
  show (modifyP (fun w => w.id == id) (fun _ => v) m.views).map (fun w => w.id)
      = m.views.map (fun w => w.id)
  exact map_modifyP_of_key_pos _ (fun a ha => by
    have h1 : a.id = id := by simpa using ha
    rw [hv, h1])

theorem addInViews_elements_keys (m : ModelData) (viewId : String)
    (l : List String) :
    (addInViews m viewId l).elements.map elemKey = m.elements.map elemKey := by
  induction l generalizing m with
  | nil => rfl
  | cons x xs ih =>
    have h1 : addInViews m viewId (x :: xs)
        = addInViews (addInViews m viewId [x]) viewId xs := rfl
    rw [h1, ih]
    show (modifyP (fun e => e.id == x)
        (fun e => if e.inViews.contains viewId then e
                  else { e with inViews := e.inViews ++ [viewId] })
        m.elements).map elemKey = m.elements.map elemKey
    exact map_modifyP_of_key _ (fun a => by split <;> rfl)

theorem removeInViews_elements_keys (m : ModelData) (viewId : String)
    (l : List String) :
    (removeInViews m viewId l).elements.map elemKey = m.elements.map elemKey := by
  induction l generalizing m with
  | nil => rfl
  | cons x xs ih =>
    have h1 : removeInViews m viewId (x :: xs)
        = removeInViews (removeInViews m viewId [x]) viewId xs := rfl
    rw [h1, ih]
    show (modifyP (fun e => e.id == x)
        (fun e => { e with inViews := e.inViews.erase viewId })
        m.elements).map elemKey = m.elements.map elemKey
    exact map_modifyP_of_key _ (fun a => rfl)

theorem keysEq_addInViews (m : ModelData) (viewId : String) (l : List String) :
    KeysEq m (addInViews m viewId l) :=
  ⟨addInViews_elements_keys m viewId l,
   by rw [addInViews_relationships],
   by rw [addInViews_views]⟩

theorem keysEq_removeInViews (m : ModelData) (viewId : String) (l : List String) :
    KeysEq m (removeInViews m viewId l) :=
  ⟨removeInViews_elements_keys m viewId l,
   by rw [removeInViews_relationships],
   by rw [removeInViews_views]⟩

theorem keysEq_mapEntityProperties (m : ModelData) (kind : EntityKind)
    (id : String) (f : List (String × String) → List (String × String)) :
    KeysEq m (mapEntityProperties m kind id f) := by
  cases kind with
  | element => exact ⟨map_modifyP_of_key _ (fun a => rfl), rfl, rfl⟩
  | relationship => exact ⟨rfl, map_modifyP_of_key _ (fun a => rfl), rfl⟩
  | view => exact ⟨rfl, rfl, map_modifyP_of_key _ (fun a => rfl)⟩

-- ----------------------------------------------------------------------------
-- Operations that preserve all keys (any outcome, unless stated)
-- ----------------------------------------------------------------------------

theorem applyElementUpdate_key (data : UpdateElementInput) (e : ElementObject) :
    elemKey (applyElementUpdate data e) = elemKey e := by
  unfold applyElementUpdate elemKey
  cases data.name <;> cases data.type_ <;> cases data.documentation <;>
    cases data.properties <;> simp

/-- A successful `updateElement` changes no invariant-relevant field. -/
theorem updateElement_keysEq {m : ModelData} {id : String}
    {data : UpdateElementInput} {e' : ElementObject} {m2 : ModelData}
    (h : updateElement m id data = (.ok e', m2)) : KeysEq m m2 := by
  unfold updateElement at h
  cases hfind : m.elements.find? (fun e => e.id == id) with
  | none => rw [hfind] at h; simp at h
  | some e =>
    simp only [hfind] at h
    by_cases hc1 : (match data.type_ with
        | some t => t != "" && t != e.type_ && !validateElementType t
        | none => false) = true
    · rw [if_pos hc1] at h; simp at h
    · rw [if_neg hc1] at h
      by_cases hc2 : (match data.name with
          | some n => n.jsTrim == "" | none => false) = true
      · rw [if_pos hc2] at h; simp at h
      · rw [if_neg hc2] at h
        simp only [Prod.mk.injEq, Except.ok.injEq] at h
        obtain ⟨rfl, rfl⟩ := h
        refine ⟨?_, rfl, rfl⟩
        show (modifyP (fun e2 => e2.id == id) (fun _ => applyElementUpdate data e)
            m.elements).map elemKey = m.elements.map elemKey
        exact map_modifyP_find? hfind (applyElementUpdate_key data e)

theorem createPropertyDefinition_keysEq {m : ModelData}
    {data : CreatePropertyDefinitionInput} {res : Except ManipError PropertyDefinition}
    {m2 : ModelData} (h : createPropertyDefinition m data = (res, m2)) :
    KeysEq m m2 := by
  unfold createPropertyDefinition at h
  repeat' split at h
  all_goals (cases h; exact ⟨rfl, rfl, rfl⟩)

theorem assignProperty_keysEq {m : ModelData} {targetId propertyDefId value : String}
    {res : Except ManipError Unit} {m2 : ModelData}
    (h : assignProperty m targetId propertyDefId value = (res, m2)) : KeysEq m m2 := by
  unfold assignProperty at h
  repeat' split at h
  all_goals (cases h; first
    | exact keysEq_refl _
    | exact keysEq_mapEntityProperties _ _ _ _)

theorem updateProperty_keysEq {m : ModelData} {targetId propertyDefId value : String}
    {res : Except ManipError Unit} {m2 : ModelData}
    (h : updateProperty m targetId propertyDefId value = (res, m2)) : KeysEq m m2 := by
  unfold updateProperty at h
  repeat' split at h
  all_goals (cases h; first
    | exact keysEq_refl _
    | exact keysEq_mapEntityProperties _ _ _ _)

theorem deleteProperty_keysEq {m : ModelData} {targetId propertyDefId : String}
    {cascade : Bool} {res : Except ManipError Unit} {m2 : ModelData}
    (h : deleteProperty m targetId propertyDefId cascade = (res, m2)) : KeysEq m m2 := by
  unfold deleteProperty at h
  cases hfk : findEntityKind m targetId with
  | none => simp only [hfk] at h; cases h; exact keysEq_refl m
  | some kind =>
    simp only [hfk] at h
    by_cases h1 : (!objHas (entityProperties m kind targetId) propertyDefId) = true
    · rw [if_pos h1] at h; cases h; exact keysEq_refl m
    · rw [if_neg h1] at h
      by_cases h2 : (cascade && !isPropertyDefinitionUsed
          (mapEntityProperties m kind targetId (fun ps => objDelete ps propertyDefId))
          propertyDefId) = true
      · rw [if_pos h2] at h
        cases h
        exact keysEq_trans (keysEq_mapEntityProperties _ _ _ _) ⟨rfl, rfl, rfl⟩
      · rw [if_neg h2] at h
        cases h
        exact keysEq_mapEntityProperties _ _ _ _

theorem removeRelationshipFromView_keysEq {m : ModelData}
    {viewId relationshipId : String} {res : Except ManipError Unit} {m2 : ModelData}
    (h : removeRelationshipFromView m viewId relationshipId = (res, m2)) :
    KeysEq m m2 := by
  unfold removeRelationshipFromView at h
  cases hfind : getView m viewId with
  | none => rw [hfind] at h; cases h; exact keysEq_refl m
  | some view =>
    rw [hfind] at h
    cases h
    refine keysEq_putView _ _ ?_
    have h1 := List.find?_some
      (show m.views.find? (fun v => v.id == viewId) = some view from hfind)
    simpa using h1

theorem finishHierarchy_keysEq {m : ModelData} {id : String}
    {data : UpdateViewInput} {v : ViewObject} {res : Except ManipError ViewObject}
    {m2 : ModelData} (hvid : v.id = id)
    (h : updateView.finishHierarchy m id data v = (res, m2)) : KeysEq m m2 := by
  unfold updateView.finishHierarchy at h
  cases hnh : data.nodeHierarchy with
  | none => rw [hnh] at h; cases h; exact keysEq_refl m
  | some hs =>
    simp only [hnh] at h
    cases hmiss : firstMissingHierarchyElement m hs with
    | some hid => rw [hmiss] at h; cases h; exact keysEq_refl m
    | none =>
      rw [hmiss] at h
      cases h
      exact keysEq_putView _ _ (by simpa using hvid)

/-- `updateView` changes no invariant-relevant field, whatever the outcome
(also on the error paths that keep earlier partial writes). -/
theorem updateView_keysEq {m : ModelData} {id : String} {data : UpdateViewInput}
    {res : Except ManipError ViewObject} {m2 : ModelData}
    (h : updateView m id data = (res, m2)) : KeysEq m m2 := by
  unfold updateView at h
  cases hfind : m.views.find? (fun v => v.id == id) with
  | none => rw [hfind] at h; cases h; exact keysEq_refl m
  | some view =>
    simp only [hfind] at h
    cases hscal : applyViewScalarUpdate data view with
    | none => rw [hscal] at h; cases h; exact keysEq_refl m
    | some v1 =>
      simp only [hscal] at h
      have hviewid : view.id = id := by simpa using List.find?_some hfind
      have hv1id : v1.id = id := by rw [applyViewScalarUpdate_id hscal]; exact hviewid
      have hkScal : KeysEq m (putView m id v1) := keysEq_putView _ _ hv1id
      have htail : ∀ (mcur : ModelData) (vv : ViewObject), vv.id = id →
          (match data.relationships with
            | some rels =>
              (match firstMissingRelationship mcur rels with
               | some rid => (.error (.notFoundError "relationship" rid), mcur)
               | none =>
                 updateView.finishHierarchy (putView mcur id
                     { vv with relationships := rels }) id data
                   { vv with relationships := rels })
            | none => updateView.finishHierarchy mcur id data vv)
          = ((res, m2) : OpResult ViewObject) → KeysEq mcur m2 := by
        intro mcur vv hvv hh
        cases hrels : data.relationships with
        | none =>
          simp only [hrels] at hh
          exact finishHierarchy_keysEq hvv hh
        | some rels =>
          simp only [hrels] at hh
          cases hmiss : firstMissingRelationship mcur rels with
          | some rid => rw [hmiss] at hh; cases hh; exact keysEq_refl _
          | none =>
            rw [hmiss] at hh
            exact keysEq_trans (keysEq_putView _ _ (by simpa using hvv))
              (finishHierarchy_keysEq (by simpa using hvv) hh)
      cases hels : data.elements with
      | none =>
        simp only [hels] at h
        exact keysEq_trans hkScal (htail (putView m id v1) v1 hv1id h)
      | some els =>
        simp only [hels] at h
        cases hmiss : firstMissingElement
            (removeInViews (putView m id v1) id view.elements) els with
        | some eid =>
          rw [hmiss] at h
          dsimp only [] at h
          cases h
          exact keysEq_trans hkScal (keysEq_removeInViews _ _ _)
        | none =>
          rw [hmiss] at h
          dsimp only [] at h
          have hv2id : ({ v1 with elements := els } : ViewObject).id = id := hv1id
          refine keysEq_trans hkScal (keysEq_trans (keysEq_removeInViews _ _ _)
            (keysEq_trans (keysEq_putView _ _ hv2id)
              (keysEq_trans (keysEq_addInViews _ _ _) (htail _ _ hv2id h))))

/-- `addElementToView` changes no invariant-relevant field, whatever the
outcome. -/
theorem addElementToView_keysEq {m : ModelData} {viewId elementId : String}
    {parentElementId : Option String} {res : Except ManipError Unit}
    {m2 : ModelData}
    (h : addElementToView m viewId elementId parentElementId = (res, m2)) :
    KeysEq m m2 := by
  unfold addElementToView at h
  cases hfind : getView m viewId with
  | none => rw [hfind] at h; cases h; exact keysEq_refl m
  | some view =>
    simp only [hfind] at h
    have hvid : view.id = viewId := by
      have h1 := List.find?_some
        (show m.views.find? (fun v => v.id == viewId) = some view from hfind)
      simpa using h1
    by_cases hge : (getElement m elementId).isNone = true
    · rw [if_pos hge] at h; cases h; exact keysEq_refl m
    · rw [if_neg hge] at h
      generalize hv1e : (if view.elements.contains elementId then view
          else { view with elements := view.elements ++ [elementId] }) = v1 at h
      have hv1 : v1.id = viewId := by rw [← hv1e]; split <;> simpa using hvid
      generalize hm2e : addInViews (putView m viewId v1) viewId [elementId] = mm2 at h
      have hkmm2 : KeysEq m mm2 := by
        rw [← hm2e]
        exact keysEq_trans (keysEq_putView _ _ hv1) (keysEq_addInViews _ _ _)
      cases hpid : parentElementId with
      | none => rw [hpid] at h; cases h; exact hkmm2
      | some pid =>
        simp only [hpid] at h
        by_cases hgp : (getElement mm2 pid).isNone = true
        · rw [if_pos hgp] at h; cases h; exact hkmm2
        · rw [if_neg hgp] at h
          generalize hv2e : (if v1.elements.contains pid then v1
              else { v1 with elements := v1.elements ++ [pid] }) = v2 at h
          have hv2 : v2.id = viewId := by
            rw [← hv2e]; split
            · exact hv1
            · simpa using hv1
          generalize hm3e : putView mm2 viewId v2 = mm3 at h
          have hk3 : KeysEq m mm3 := by
            rw [← hm3e]
            exact keysEq_trans hkmm2 (keysEq_putView _ _ hv2)
          generalize hm4e : (if v1.elements.contains pid then mm3
              else addInViews mm3 viewId [pid]) = mm4 at h
          have hk4 : KeysEq m mm4 := by
            rw [← hm4e]; split
            · exact hk3
            · exact keysEq_trans hk3 (keysEq_addInViews _ _ _)
          generalize hv5e : (if v2.nodeHierarchy.any
              (fun hp => hp.parentElement == pid && hp.childElement == elementId)
              then v2
              else { v2 with nodeHierarchy :=
                v2.nodeHierarchy ++ [⟨pid, elementId⟩] }) = v5 at h
          have hv5 : v5.id = viewId := by
            rw [← hv5e]; split
            · exact hv2
            · simpa using hv2
          cases h
          exact keysEq_trans hk4 (keysEq_putView _ _ hv5)

/-- `removeElementFromView` changes no invariant-relevant field. -/
theorem removeElementFromView_keysEq {m : ModelData} {viewId elementId : String}
    {res : Except ManipError Unit} {m2 : ModelData}
    (h : removeElementFromView m viewId elementId = (res, m2)) : KeysEq m m2 := by
  unfold removeElementFromView at h
  cases hfind : getView m viewId with
  | none => rw [hfind] at h; cases h; exact keysEq_refl m
  | some view =>
    simp only [hfind] at h
    have hvid : view.id = viewId := by
      have h1 := List.find?_some
        (show m.views.find? (fun v => v.id == viewId) = some view from hfind)
      simpa using h1
    cases h
    refine keysEq_trans (keysEq_putView _ _ ?_) (keysEq_removeInViews _ _ _)
    simpa using hvid

/-- `addRelationshipToView` changes no invariant-relevant field. -/
theorem addRelationshipToView_keysEq {m : ModelData}
    {viewId relationshipId : String} {res : Except ManipError Unit} {m2 : ModelData}
    (h : addRelationshipToView m viewId relationshipId = (res, m2)) :
    KeysEq m m2 := by
  unfold addRelationshipToView at h
  cases hfind : getView m viewId with
  | none => rw [hfind] at h; cases h; exact keysEq_refl m
  | some view =>
    simp only [hfind] at h
    have hvid : view.id = viewId := by
      have h1 := List.find?_some
        (show m.views.find? (fun v => v.id == viewId) = some view from hfind)
      simpa using h1
    cases hfr : getRelationship m relationshipId with
    | none => rw [hfr] at h; cases h; exact keysEq_refl m
    | some relationship =>
      simp only [hfr] at h
      by_cases hs : (getElement m relationship.sourceId).isNone = true
      · rw [if_pos hs] at h; cases h; exact keysEq_refl m
      · rw [if_neg hs] at h
        by_cases ht : (getElement m relationship.targetId).isNone = true
        · rw [if_pos ht] at h; cases h; exact keysEq_refl m
        · rw [if_neg ht] at h
          by_cases hc1 : view.elements.contains relationship.sourceId = true
          · rw [if_pos hc1] at h
            dsimp only [] at h
            by_cases hc2 : view.elements.contains relationship.targetId = true
            · rw [if_pos hc2] at h
              dsimp only [] at h
              cases h
              refine keysEq_putView _ _ ?_
              split
              · exact hvid
              · simpa using hvid
            · rw [if_neg hc2] at h
              dsimp only [] at h
              cases h
              refine keysEq_trans (keysEq_trans (keysEq_putView _ _ (by simpa using hvid))
                (keysEq_addInViews _ _ _)) (keysEq_putView _ _ ?_)
              split
              · simpa using hvid
              · simpa using hvid
          · rw [if_neg hc1] at h
            dsimp only [] at h
            have hk1 : KeysEq m (addInViews (putView m viewId
                { view with elements := view.elements ++ [relationship.sourceId] })
                viewId [relationship.sourceId]) :=
              keysEq_trans (keysEq_putView _ _ (by simpa using hvid))
                (keysEq_addInViews _ _ _)
            by_cases hc2 : (view.elements ++ [relationship.sourceId]).contains
                relationship.targetId = true
            · rw [if_pos hc2] at h
              dsimp only [] at h
              cases h
              refine keysEq_trans hk1 (keysEq_putView _ _ ?_)
              split
              · simpa using hvid
              · simpa using hvid
            · rw [if_neg hc2] at h
              dsimp only [] at h
              cases h
              refine keysEq_trans (keysEq_trans hk1
                (keysEq_trans (keysEq_putView _ _ (by simpa using hvid))
                  (keysEq_addInViews _ _ _))) (keysEq_putView _ _ ?_)
              split
              · simpa using hvid
              · simpa using hvid

/-- A successful `deleteView` preserves the well-formedness package: only
views and `inViews` references change, and the view id list shrinks. -/
theorem deleteView_good {m : ModelData} {id : String} {m2 : ModelData}
    (h : deleteView m id = (.ok (), m2)) (hg : Good m) : Good m2 := by
  unfold deleteView at h
  cases hfind : m.views.find? (fun v => v.id == id) with
  | none => rw [hfind] at h; simp at h
  | some view =>
    simp only [hfind] at h
    cases h
    have hkR : KeysEq m (removeInViews m id view.elements) :=
      keysEq_removeInViews _ _ _
    refine good_of_keys hkR.1 hkR.2.1 ?_ hg
    show List.Sublist
      (((removeInViews m id view.elements).views.eraseP
        (fun v => v.id == id)).map (fun v => v.id))
      (m.views.map (fun v => v.id))
    rw [removeInViews_views]
    exact (List.eraseP_sublist _).map _

-- ----------------------------------------------------------------------------
-- Inserting fresh entities
-- ----------------------------------------------------------------------------

theorem nodup_insert_elem {l1 l2 l3 : List String} {x : String}
    (hx : x ∉ l1 ++ l2 ++ l3) (h : (l1 ++ l2 ++ l3).Nodup) :
    ((l1 ++ [x]) ++ l2 ++ l3).Nodup := by
  have h1 : (l1 ++ [x]) ++ l2 ++ l3 = l1 ++ x :: (l2 ++ l3) := by
    simp [List.append_assoc]
  have h2 : List.Perm (l1 ++ x :: (l2 ++ l3)) (x :: (l1 ++ l2 ++ l3)) := by
    have h3 := @List.perm_middle _ x l1 (l2 ++ l3)
    simp [List.append_assoc]
  rw [h1]
  exact h2.symm.nodup (List.nodup_cons.mpr ⟨hx, h⟩)

theorem nodup_insert_rel {l1 l2 l3 : List String} {x : String}
    (hx : x ∉ l1 ++ l2 ++ l3) (h : (l1 ++ l2 ++ l3).Nodup) :
    (l1 ++ (l2 ++ [x]) ++ l3).Nodup := by
  have h1 : l1 ++ (l2 ++ [x]) ++ l3 = (l1 ++ l2) ++ x :: l3 := by
    simp [List.append_assoc]
  have h2 : List.Perm ((l1 ++ l2) ++ x :: l3) (x :: (l1 ++ l2 ++ l3)) :=
    @List.perm_middle _ x (l1 ++ l2) l3
  rw [h1]
  exact h2.symm.nodup (List.nodup_cons.mpr ⟨hx, h⟩)

theorem nodup_insert_view {l1 l2 l3 : List String} {x : String}
    (hx : x ∉ l1 ++ l2 ++ l3) (h : (l1 ++ l2 ++ l3).Nodup) :
    (l1 ++ l2 ++ (l3 ++ [x])).Nodup := by
  have h1 : l1 ++ l2 ++ (l3 ++ [x]) = ((l1 ++ l2) ++ l3) ++ [x] := by
    simp [List.append_assoc]
  have h2 : List.Perm (((l1 ++ l2) ++ l3) ++ [x]) (x :: (l1 ++ l2 ++ l3)) :=
    List.perm_append_singleton x ((l1 ++ l2) ++ l3)
  rw [h1]
  exact h2.symm.nodup (List.nodup_cons.mpr ⟨hx, h⟩)

theorem not_mem_allIds {m : ModelData} {x : String}
    (h : identifierExists m x = false) :
    x ∉ (m.elements.map (fun e => e.id) ++ m.relationships.map (fun r => r.id)
      ++ m.views.map (fun v => v.id)) := by
  intro hmem
  unfold identifierExists at h
  rw [mem_contains_true hmem] at h
  cases h

/-- Appending a fresh element with empty relation lists preserves the
well-formedness package. -/
theorem good_append_fresh_element (m : ModelData) (E : ElementObject)
    (hg : Good m) (hfresh : identifierExists m E.id = false)
    (hout : E.outgoingRelations = []) (hin : E.incomingRelations = []) :
    Good { m with elements := m.elements ++ [E] } := by
  obtain ⟨hids, hsl, ha, hb, hc, hd, he, hf, hnd⟩ := hg
  have hfp := identifierExists_false_parts hfresh
  refine ⟨?_, hsl, ?_, ?_, ?_, ?_, ?_, ?_, ?_⟩
  · unfold IdsNodup
    show ((m.elements ++ [E]).map (fun e => e.id)
        ++ m.relationships.map (fun r => r.id)
        ++ m.views.map (fun v => v.id)).Nodup
    rw [List.map_append]
    exact nodup_insert_elem (not_mem_allIds hfresh) hids
  · intro r hr
    rcases ha r hr with ⟨e0, he0, hid⟩
    exact ⟨e0, List.mem_append_left _ he0, hid⟩
  · intro r hr
    rcases hb r hr with ⟨e0, he0, hid⟩
    exact ⟨e0, List.mem_append_left _ he0, hid⟩
  · intro e0 he0 rid hrid
    rcases List.mem_append.mp he0 with hmm | hmm
    · exact hc e0 hmm rid hrid
    · have heq : e0 = E := by simpa using hmm
      rw [heq, hout] at hrid
      cases hrid
  · intro e0 he0 rid hrid
    rcases List.mem_append.mp he0 with hmm | hmm
    · exact hd e0 hmm rid hrid
    · have heq : e0 = E := by simpa using hmm
      rw [heq, hin] at hrid
      cases hrid
  · intro r hr e0 he0 hideq
    rcases List.mem_append.mp he0 with hmm | hmm
    · exact he r hr e0 hmm hideq
    · exfalso
      have heq : e0 = E := by simpa using hmm
      rcases ha r hr with ⟨e1, he1, hid1⟩
      apply hfp.1
      have h2 : e1.id = E.id := by rw [hid1, ← hideq, heq]
      rw [← h2]
      exact List.mem_map_of_mem _ he1
  · intro r hr e0 he0 hideq
    rcases List.mem_append.mp he0 with hmm | hmm
    · exact hf r hr e0 hmm hideq
    · exfalso
      have heq : e0 = E := by simpa using hmm
      rcases hb r hr with ⟨e1, he1, hid1⟩
      apply hfp.1
      have h2 : e1.id = E.id := by rw [hid1, ← hideq, heq]
      rw [← h2]
      exact List.mem_map_of_mem _ he1
  · intro e0 he0
    rcases List.mem_append.mp he0 with hmm | hmm
    · exact hnd e0 hmm
    · have heq : e0 = E := by simpa using hmm
      rw [heq, hout, hin]
      exact ⟨List.nodup_nil, List.nodup_nil⟩

/-- Appending a fresh view preserves the well-formedness package. -/
theorem good_append_fresh_view (m : ModelData) (V : ViewObject)
    (hg : Good m) (hfresh : identifierExists m V.id = false) :
    Good { m with views := m.views ++ [V] } := by
  obtain ⟨hids, hsl, hinv⟩ := hg
  refine ⟨?_, hsl, hinv⟩
  unfold IdsNodup
  show (m.elements.map (fun e => e.id) ++ m.relationships.map (fun r => r.id)
      ++ (m.views ++ [V]).map (fun v => v.id)).Nodup
  rw [List.map_append]
  exact nodup_insert_view (not_mem_allIds hfresh) hids

/-- A successful `createElement` preserves the well-formedness package: the
new element is fresh and detached. -/
theorem createElement_good {m : ModelData} {data : CreateElementInput}
    {genId : String} {e : ElementObject} {m2 : ModelData}
    (h : createElement m data genId = (.ok e, m2)) (hg : Good m) : Good m2 := by
  unfold createElement at h
  by_cases h1 : (data.name.jsTrim == "") = true
  · rw [if_pos h1] at h; simp at h
  · rw [if_neg h1] at h
    by_cases h2 : (data.type_.jsTrim == "") = true
    · rw [if_pos h2] at h; simp at h
    · rw [if_neg h2] at h
      by_cases h3 : (!validateElementType data.type_) = true
      · rw [if_pos h3] at h; simp at h
      · rw [if_neg h3] at h
        dsimp only [] at h
        by_cases h4 : identifierExists m (effectiveId data.identifier genId) = true
        · rw [if_pos h4] at h; simp at h
        · rw [if_neg h4] at h
          simp only [Prod.mk.injEq, Except.ok.injEq] at h
          obtain ⟨rfl, rfl⟩ := h
          exact good_append_fresh_element m _ hg
            (by simpa using h4) rfl rfl

/-- A successful `createView` preserves the well-formedness package: the new
view is fresh and the `inViews` registrations touch no relevant field. -/
theorem createView_good {m : ModelData} {data : CreateViewInput}
    {genId : String} {v : ViewObject} {m2 : ModelData}
    (h : createView m data genId = (.ok v, m2)) (hg : Good m) : Good m2 := by
  unfold createView at h
  by_cases h1 : (data.name.jsTrim == "") = true
  · rw [if_pos h1] at h; simp at h
  · rw [if_neg h1] at h
    dsimp only [] at h
    by_cases h2 : identifierExists m (effectiveId data.identifier genId) = true
    · rw [if_pos h2] at h; simp at h
    · rw [if_neg h2] at h
      cases hme : firstMissingElement m (data.elements.getD []) with
      | some eid => rw [hme] at h; simp at h
      | none =>
        rw [hme] at h
        cases hmr : firstMissingRelationship m (data.relationships.getD []) with
        | some rid => rw [hmr] at h; simp at h
        | none =>
          rw [hmr] at h
          cases hmh : firstMissingHierarchyElement m (data.nodeHierarchy.getD []) with
          | some hid => rw [hmh] at h; simp at h
          | none =>
            rw [hmh] at h
            simp only [Prod.mk.injEq, Except.ok.injEq] at h
            obtain ⟨rfl, rfl⟩ := h
            refine good_of_keysEq (keysEq_addInViews _ _ _) ?_
            exact good_append_fresh_view m _ hg (by simpa using h2)

-- ----------------------------------------------------------------------------
-- deleteRelationship
-- ----------------------------------------------------------------------------

theorem ne_of_mem_erase_nodup {l : List String} {a b : String}
    (hnd : l.Nodup) (h : a ∈ l.erase b) : a ≠ b := by
  induction l with
  | nil => cases h
  | cons y ys ih =>
    rw [List.erase_cons] at h
    simp only [List.nodup_cons] at hnd
    by_cases hyb : (y == b) = true
    · rw [if_pos hyb] at h
      intro heq
      have hyb2 : y = b := by simpa using hyb
      rw [heq, ← hyb2] at h
      exact hnd.1 h
    · rw [if_neg hyb] at h
      rcases List.mem_cons.mp h with rfl | hmem
      · intro heq
        exact hyb (by simp [heq])
      · exact ih hnd.2 hmem

/-- Proof-internal characterization: the per-element effect of
`deleteRelationship` (erase the id from the source's outgoing and the
target's incoming lists). -/
def eraseRelFromElement (R : RelationshipObject) (i : String)
    (e : ElementObject) : ElementObject :=
  { e with
    outgoingRelations := if e.id == R.sourceId
      then e.outgoingRelations.erase i else e.outgoingRelations
    incomingRelations := if e.id == R.targetId
      then e.incomingRelations.erase i else e.incomingRelations }

theorem eraseRelFromElement_id (R : RelationshipObject) (i : String)
    (e : ElementObject) : (eraseRelFromElement R i e).id = e.id := rfl

theorem eraseRelFromElement_out (R : RelationshipObject) (i : String)
    (e : ElementObject) : (eraseRelFromElement R i e).outgoingRelations
      = if e.id == R.sourceId then e.outgoingRelations.erase i
        else e.outgoingRelations := rfl

theorem eraseRelFromElement_in (R : RelationshipObject) (i : String)
    (e : ElementObject) : (eraseRelFromElement R i e).incomingRelations
      = if e.id == R.targetId then e.incomingRelations.erase i
        else e.incomingRelations := rfl

theorem deleteRelationship_state_good (m : ModelData) (R : RelationshipObject)
    (i : String) (hg : Good m) (hRmem : R ∈ m.relationships) (hRid : R.id = i) :
    Good { m with
      elements := m.elements.map (eraseRelFromElement R i)
      views := m.views.map (fun v => { v with relationships := v.relationships.erase i })
      relationships := m.relationships.filter (fun r => !(r.id == i)) } := by
  obtain ⟨hids, hsl, ha, hb, hc, hd, he, hf, hnd⟩ := hg
  obtain ⟨hnde, hndr, hndv⟩ := idsNodup_parts hids
  have huniq : ∀ r ∈ m.relationships, r.id = i → r = R := by
    intro r hr hri
    exact List.inj_on_of_nodup_map hndr hr hRmem (by rw [hri, hRid])
  have hmemF : ∀ x, x ∈ m.elements.map (eraseRelFromElement R i) →
      ∃ e, e ∈ m.elements ∧ x = eraseRelFromElement R i e := by
    intro x hx
    rcases List.mem_map.mp hx with ⟨e, he2, hxe⟩
    exact ⟨e, he2, hxe.symm⟩
  have hmemR : ∀ r : RelationshipObject,
      r ∈ m.relationships.filter (fun r => !(r.id == i)) ↔
        r ∈ m.relationships ∧ r.id ≠ i := by
    intro r
    rw [List.mem_filter]
    simp only [Bool.not_eq_true', beq_eq_false_iff_ne, ne_eq]
  refine ⟨?_, ?_, ?_, ?_, ?_, ?_, ?_, ?_, ?_⟩
  · unfold IdsNodup
    show ((m.elements.map (eraseRelFromElement R i)).map
          (fun (e : ElementObject) => e.id)
        ++ (m.relationships.filter (fun r => !(r.id == i))).map
          (fun (r : RelationshipObject) => r.id)
        ++ (m.views.map (fun (v : ViewObject) =>
            { v with relationships := v.relationships.erase i })).map
          (fun (v : ViewObject) => v.id)).Nodup
    have hE : (m.elements.map (eraseRelFromElement R i)).map (fun e => e.id)
        = m.elements.map (fun e => e.id) := by
      rw [List.map_map]
      exact List.map_congr_left (fun e he2 => rfl)
    have hV : (m.views.map (fun v =>
        { v with relationships := v.relationships.erase i })).map (fun v => v.id)
        = m.views.map (fun v => v.id) := by
      rw [List.map_map]
      exact List.map_congr_left (fun v hv => rfl)
    rw [hE, hV]
    have hsubR : List.Sublist
        ((m.relationships.filter (fun r => !(r.id == i))).map (fun r => r.id))
        (m.relationships.map (fun r => r.id)) := (List.filter_sublist _).map _
    exact List.Nodup.sublist
      (((List.Sublist.refl _).append hsubR).append (List.Sublist.refl _)) hids
  · intro r2 hr2
    exact hsl r2 ((hmemR r2).mp hr2).1
  · intro r2 hr2
    obtain ⟨hrm, hrne⟩ := (hmemR r2).mp hr2
    rcases ha r2 hrm with ⟨e, hem, heid⟩
    exact ⟨eraseRelFromElement R i e, List.mem_map_of_mem _ hem,
      by rw [eraseRelFromElement_id]; exact heid⟩
  · intro r2 hr2
    obtain ⟨hrm, hrne⟩ := (hmemR r2).mp hr2
    rcases hb r2 hrm with ⟨e, hem, heid⟩
    exact ⟨eraseRelFromElement R i e, List.mem_map_of_mem _ hem,
      by rw [eraseRelFromElement_id]; exact heid⟩
  · intro x hx rid hrid
    rcases hmemF x hx with ⟨e, hem, rfl⟩
    rw [eraseRelFromElement_out] at hrid
    by_cases hs : (e.id == R.sourceId) = true
    · rw [if_pos hs] at hrid
      have hmm := List.mem_of_mem_erase hrid
      have hrne : rid ≠ i := ne_of_mem_erase_nodup (hnd e hem).1 hrid
      rcases hc e hem rid hmm with ⟨r, hr, hridq, hrsrc⟩
      refine ⟨r, (hmemR r).mpr ⟨hr, by rw [hridq]; exact hrne⟩, hridq, ?_⟩
      rw [hrsrc, eraseRelFromElement_id]
    · rw [if_neg hs] at hrid
      rcases hc e hem rid hrid with ⟨r, hr, hridq, hrsrc⟩
      have hrne : r.id ≠ i := by
        intro hri
        have hrR : r = R := huniq r hr hri
        apply hs
        rw [← hrR, hrsrc]
        simp
      refine ⟨r, (hmemR r).mpr ⟨hr, hrne⟩, hridq, ?_⟩
      rw [hrsrc, eraseRelFromElement_id]
  · intro x hx rid hrid
    rcases hmemF x hx with ⟨e, hem, rfl⟩
    rw [eraseRelFromElement_in] at hrid
    by_cases ht : (e.id == R.targetId) = true
    · rw [if_pos ht] at hrid
      have hmm := List.mem_of_mem_erase hrid
      have hrne : rid ≠ i := ne_of_mem_erase_nodup (hnd e hem).2 hrid
      rcases hd e hem rid hmm with ⟨r, hr, hridq, hrtgt⟩
      refine ⟨r, (hmemR r).mpr ⟨hr, by rw [hridq]; exact hrne⟩, hridq, ?_⟩
      rw [hrtgt, eraseRelFromElement_id]
    · rw [if_neg ht] at hrid
      rcases hd e hem rid hrid with ⟨r, hr, hridq, hrtgt⟩
      have hrne : r.id ≠ i := by
        intro hri
        have hrR : r = R := huniq r hr hri
        apply ht
        rw [← hrR, hrtgt]
        simp
      refine ⟨r, (hmemR r).mpr ⟨hr, hrne⟩, hridq, ?_⟩
      rw [hrtgt, eraseRelFromElement_id]
  · intro r2 hr2 x hx hxid
    obtain ⟨hrm, hrne⟩ := (hmemR r2).mp hr2
    rcases hmemF x hx with ⟨e, hem, rfl⟩
    rw [eraseRelFromElement_id] at hxid
    have hbase := he r2 hrm e hem hxid
    rw [eraseRelFromElement_out]
    by_cases hs : (e.id == R.sourceId) = true
    · rw [if_pos hs]
      exact (List.mem_erase_of_ne hrne).mpr hbase
    · rw [if_neg hs]
      exact hbase
  · intro r2 hr2 x hx hxid
    obtain ⟨hrm, hrne⟩ := (hmemR r2).mp hr2
    rcases hmemF x hx with ⟨e, hem, rfl⟩
    rw [eraseRelFromElement_id] at hxid
    have hbase := hf r2 hrm e hem hxid
    rw [eraseRelFromElement_in]
    by_cases ht : (e.id == R.targetId) = true
    · rw [if_pos ht]
      exact (List.mem_erase_of_ne hrne).mpr hbase
    · rw [if_neg ht]
      exact hbase
  · intro x hx
    rcases hmemF x hx with ⟨e, hem, rfl⟩
    rw [eraseRelFromElement_out, eraseRelFromElement_in]
    refine ⟨?_, ?_⟩
    · split
      · exact List.Nodup.sublist (List.erase_sublist _ _) (hnd e hem).1
      · exact (hnd e hem).1
    · split
      · exact List.Nodup.sublist (List.erase_sublist _ _) (hnd e hem).2
      · exact (hnd e hem).2

/-- A successful `deleteRelationship` preserves the well-formedness package. -/
theorem deleteRelationship_good {m : ModelData} {id : String} {m2 : ModelData}
    (h : deleteRelationship m id = (.ok (), m2)) (hg : Good m) : Good m2 := by
  unfold deleteRelationship at h
  cases hfind : m.relationships.find? (fun r => r.id == id) with
  | none => rw [hfind] at h; simp at h
  | some R =>
    simp only [hfind] at h
    have hRmem : R ∈ m.relationships := List.mem_of_find?_eq_some hfind
    have hRid : R.id = id := by simpa using List.find?_some hfind
    obtain ⟨hnde, hndr, hndv⟩ := idsNodup_parts hg.1
    have e1 : modifyP (fun e => e.id == R.sourceId)
        (fun s => { s with outgoingRelations := s.outgoingRelations.erase id })
        m.elements
        = m.elements.map (fun e => if e.id == R.sourceId
            then { e with outgoingRelations := e.outgoingRelations.erase id }
            else e) :=
      modifyP_eq_map hnde
    have hide1 : (m.elements.map (fun e => if e.id == R.sourceId
        then { e with outgoingRelations := e.outgoingRelations.erase id }
        else e)).map (fun e => e.id) = m.elements.map (fun e => e.id) := by
      rw [List.map_map]
      refine List.map_congr_left (fun e he2 => ?_)
      show (if e.id == R.sourceId
          then { e with outgoingRelations := e.outgoingRelations.erase id }
          else e).id = e.id
      split <;> rfl
    have e2 : modifyP (fun e => e.id == R.targetId)
        (fun t => { t with incomingRelations := t.incomingRelations.erase id })
        (m.elements.map (fun e => if e.id == R.sourceId
          then { e with outgoingRelations := e.outgoingRelations.erase id }
          else e))
        = (m.elements.map (fun e => if e.id == R.sourceId
            then { e with outgoingRelations := e.outgoingRelations.erase id }
            else e)).map
          (fun e => if e.id == R.targetId
            then { e with incomingRelations := e.incomingRelations.erase id }
            else e) :=
      modifyP_eq_map (by rw [hide1]; exact hnde)
    have e3 : (m.elements.map (fun e => if e.id == R.sourceId
        then { e with outgoingRelations := e.outgoingRelations.erase id }
        else e)).map
          (fun e => if e.id == R.targetId
            then { e with incomingRelations := e.incomingRelations.erase id }
            else e)
        = m.elements.map (eraseRelFromElement R id) := by
      rw [List.map_map]
      refine List.map_congr_left (fun e he2 => ?_)
      by_cases hs : (e.id == R.sourceId) = true <;>
        by_cases ht : (e.id == R.targetId) = true <;>
        simp [Function.comp, eraseRelFromElement, hs, ht]
    have e5 : m.relationships.eraseP (fun r => r.id == id)
        = m.relationships.filter (fun r => !(r.id == id)) := eraseP_eq_filter hndr
    cases h
    rw [e1, e2, e3, e5]
    exact deleteRelationship_state_good m R id hg hRmem hRid

-- ----------------------------------------------------------------------------
-- createRelationship
-- ----------------------------------------------------------------------------

/-- Proof-internal characterization: the per-element effect of
`createRelationship` (append the new id to the source's outgoing and the
target's incoming lists). -/
def addRelToElement (srcId tgtId i : String) (e : ElementObject) : ElementObject :=
  { e with
    outgoingRelations := if e.id == srcId
      then e.outgoingRelations ++ [i] else e.outgoingRelations
    incomingRelations := if e.id == tgtId
      then e.incomingRelations ++ [i] else e.incomingRelations }

theorem addRelToElement_id (srcId tgtId i : String) (e : ElementObject) :
    (addRelToElement srcId tgtId i e).id = e.id := rfl

theorem addRelToElement_out (srcId tgtId i : String) (e : ElementObject) :
    (addRelToElement srcId tgtId i e).outgoingRelations
      = if e.id == srcId then e.outgoingRelations ++ [i]
        else e.outgoingRelations := rfl

theorem addRelToElement_in (srcId tgtId i : String) (e : ElementObject) :
    (addRelToElement srcId tgtId i e).incomingRelations
      = if e.id == tgtId then e.incomingRelations ++ [i]
        else e.incomingRelations := rfl

theorem nodup_append_singleton {l : List String} {x : String}
    (hx : x ∉ l) (h : l.Nodup) : (l ++ [x]).Nodup :=
  (List.perm_append_singleton x l).symm.nodup (List.nodup_cons.mpr ⟨hx, h⟩)

theorem createRelationship_state_good (m : ModelData) (rel : RelationshipObject)
    (hg : Good m)
    (hfresh : identifierExists m rel.id = false)
    (hsex : ∃ e ∈ m.elements, e.id = rel.sourceId)
    (htex : ∃ e ∈ m.elements, e.id = rel.targetId)
    (hne : rel.sourceId ≠ rel.targetId) :
    Good { m with
      relationships := m.relationships ++ [rel]
      elements := m.elements.map
        (addRelToElement rel.sourceId rel.targetId rel.id) } := by
  obtain ⟨hids, hsl, ha, hb, hc, hd, he, hf, hnd⟩ := hg
  obtain ⟨hnde, hndr, hndv⟩ := idsNodup_parts hids
  have hifr := identifierExists_false_parts hfresh
  have hiout : ∀ e ∈ m.elements, rel.id ∉ e.outgoingRelations := by
    intro e hem hmem
    rcases hc e hem rel.id hmem with ⟨r, hr, hridq, _⟩
    exact hifr.2.1 (by rw [← hridq]; exact List.mem_map_of_mem _ hr)
  have hiin : ∀ e ∈ m.elements, rel.id ∉ e.incomingRelations := by
    intro e hem hmem
    rcases hd e hem rel.id hmem with ⟨r, hr, hridq, _⟩
    exact hifr.2.1 (by rw [← hridq]; exact List.mem_map_of_mem _ hr)
  have hmemF : ∀ x, x ∈ m.elements.map (addRelToElement rel.sourceId rel.targetId rel.id) →
      ∃ e, e ∈ m.elements ∧ x = addRelToElement rel.sourceId rel.targetId rel.id e := by
    intro x hx
    rcases List.mem_map.mp hx with ⟨e, he2, hxe⟩
    exact ⟨e, he2, hxe.symm⟩
  have hmemR : ∀ r2 : RelationshipObject, r2 ∈ m.relationships ++ [rel] ↔
      (r2 ∈ m.relationships ∨ r2 = rel) := by
    intro r2
    rw [List.mem_append, List.mem_singleton]
  refine ⟨?_, ?_, ?_, ?_, ?_, ?_, ?_, ?_, ?_⟩
  · unfold IdsNodup
    show ((m.elements.map (addRelToElement rel.sourceId rel.targetId rel.id)).map
          (fun (e : ElementObject) => e.id)
        ++ (m.relationships ++ [rel]).map (fun (r : RelationshipObject) => r.id)
        ++ m.views.map (fun (v : ViewObject) => v.id)).Nodup
    have hE : (m.elements.map (addRelToElement rel.sourceId rel.targetId rel.id)).map
        (fun (e : ElementObject) => e.id) = m.elements.map (fun e => e.id) := by
      rw [List.map_map]
      exact List.map_congr_left (fun e he2 => rfl)
    rw [hE, List.map_append]
    exact nodup_insert_rel (not_mem_allIds hfresh) hids
  · intro r2 hr2
    rcases (hmemR r2).mp hr2 with hold | rfl
    · exact hsl r2 hold
    · exact hne
  · intro r2 hr2
    rcases (hmemR r2).mp hr2 with hold | rfl
    · rcases ha r2 hold with ⟨e, hem, heid⟩
      exact ⟨addRelToElement rel.sourceId rel.targetId rel.id e,
        List.mem_map_of_mem _ hem, by rw [addRelToElement_id]; exact heid⟩
    · rcases hsex with ⟨e, hem, heid⟩
      exact ⟨addRelToElement r2.sourceId r2.targetId r2.id e,
        List.mem_map_of_mem _ hem, by rw [addRelToElement_id]; exact heid⟩
  · intro r2 hr2
    rcases (hmemR r2).mp hr2 with hold | rfl
    · rcases hb r2 hold with ⟨e, hem, heid⟩
      exact ⟨addRelToElement rel.sourceId rel.targetId rel.id e,
        List.mem_map_of_mem _ hem, by rw [addRelToElement_id]; exact heid⟩
    · rcases htex with ⟨e, hem, heid⟩
      exact ⟨addRelToElement r2.sourceId r2.targetId r2.id e,
        List.mem_map_of_mem _ hem, by rw [addRelToElement_id]; exact heid⟩
  · intro x hx rid hrid
    rcases hmemF x hx with ⟨e, hem, rfl⟩
    rw [addRelToElement_out] at hrid
    by_cases hs : (e.id == rel.sourceId) = true
    · rw [if_pos hs] at hrid
      rcases List.mem_append.mp hrid with hmm | hmm
      · rcases hc e hem rid hmm with ⟨r, hr, hridq, hrsrc⟩
        exact ⟨r, List.mem_append_left _ hr, hridq,
          by rw [hrsrc, addRelToElement_id]⟩
      · have hrideq : rid = rel.id := by simpa using hmm
        refine ⟨rel, List.mem_append_right _ (by simp), hrideq.symm, ?_⟩
        rw [addRelToElement_id]
        have h2 : e.id = rel.sourceId := by simpa using hs
        rw [h2]
    · rw [if_neg hs] at hrid
      rcases hc e hem rid hrid with ⟨r, hr, hridq, hrsrc⟩
      exact ⟨r, List.mem_append_left _ hr, hridq,
        by rw [hrsrc, addRelToElement_id]⟩
  · intro x hx rid hrid
    rcases hmemF x hx with ⟨e, hem, rfl⟩
    rw [addRelToElement_in] at hrid
    by_cases ht : (e.id == rel.targetId) = true
    · rw [if_pos ht] at hrid
      rcases List.mem_append.mp hrid with hmm | hmm
      · rcases hd e hem rid hmm with ⟨r, hr, hridq, hrtgt⟩
        exact ⟨r, List.mem_append_left _ hr, hridq,
          by rw [hrtgt, addRelToElement_id]⟩
      · have hrideq : rid = rel.id := by simpa using hmm
        refine ⟨rel, List.mem_append_right _ (by simp), hrideq.symm, ?_⟩
        rw [addRelToElement_id]
        have h2 : e.id = rel.targetId := by simpa using ht
        rw [h2]
    · rw [if_neg ht] at hrid
      rcases hd e hem rid hrid with ⟨r, hr, hridq, hrtgt⟩
      exact ⟨r, List.mem_append_left _ hr, hridq,
        by rw [hrtgt, addRelToElement_id]⟩
  · intro r2 hr2 x hx hxid
    rcases hmemF x hx with ⟨e, hem, rfl⟩
    rw [addRelToElement_id] at hxid
    rw [addRelToElement_out]
    rcases (hmemR r2).mp hr2 with hold | rfl
    · have hbase := he r2 hold e hem hxid
      split
      · exact List.mem_append_left _ hbase
      · exact hbase
    · have hs : (e.id == r2.sourceId) = true := by simp [hxid]
      rw [if_pos hs]
      exact List.mem_append_right _ (by simp)
  · intro r2 hr2 x hx hxid
    rcases hmemF x hx with ⟨e, hem, rfl⟩
    rw [addRelToElement_id] at hxid
    rw [addRelToElement_in]
    rcases (hmemR r2).mp hr2 with hold | rfl
    · have hbase := hf r2 hold e hem hxid
      split
      · exact List.mem_append_left _ hbase
      · exact hbase
    · have ht : (e.id == r2.targetId) = true := by simp [hxid]
      rw [if_pos ht]
      exact List.mem_append_right _ (by simp)
  · intro x hx
    rcases hmemF x hx with ⟨e, hem, rfl⟩
    rw [addRelToElement_out, addRelToElement_in]
    refine ⟨?_, ?_⟩
    · split
      · exact nodup_append_singleton (hiout e hem) (hnd e hem).1
      · exact (hnd e hem).1
    · split
      · exact nodup_append_singleton (hiin e hem) (hnd e hem).2
      · exact (hnd e hem).2

/-- A successful `createRelationship` with trim-invariant endpoint inputs
preserves the well-formedness package. -/
theorem createRelationship_good {m : ModelData} {data : CreateRelationshipInput}
    {genId : String} {r : RelationshipObject} {m2 : ModelData}
    (hsrcT : data.sourceId.jsTrim = data.sourceId)
    (htgtT : data.targetId.jsTrim = data.targetId)
    (h : createRelationship m data genId = (.ok r, m2)) (hg : Good m) : Good m2 := by
  unfold createRelationship at h
  by_cases h1 : (data.type_.jsTrim == "") = true
  · rw [if_pos h1] at h; simp at h
  · rw [if_neg h1] at h
    by_cases h2 : (data.sourceId.jsTrim == "") = true
    · rw [if_pos h2] at h; simp at h
    · rw [if_neg h2] at h
      by_cases h3 : (data.targetId.jsTrim == "") = true
      · rw [if_pos h3] at h; simp at h
      · rw [if_neg h3] at h
        by_cases h4 : (!validateRelationshipType data.type_) = true
        · rw [if_pos h4] at h; simp at h
        · rw [if_neg h4] at h
          by_cases h5 : (getElement m data.sourceId).isNone = true
          · rw [if_pos h5] at h; simp at h
          · rw [if_neg h5] at h
            by_cases h6 : (getElement m data.targetId).isNone = true
            · rw [if_pos h6] at h; simp at h
            · rw [if_neg h6] at h
              by_cases h7 : (data.sourceId == data.targetId) = true
              · rw [if_pos h7] at h; simp at h
              · rw [if_neg h7] at h
                dsimp only [] at h
                by_cases h8 : identifierExists m
                    (effectiveId data.identifier genId) = true
                · rw [if_pos h8] at h; simp at h
                · rw [if_neg h8] at h
                  simp only [Prod.mk.injEq, Except.ok.injEq] at h
                  obtain ⟨rfl, rfl⟩ := h
                  have hsome_s : ∃ e ∈ m.elements, e.id = data.sourceId := by
                    cases hgs : getElement m data.sourceId with
                    | none => rw [hgs] at h5; simp at h5
                    | some e =>
                      exact ⟨e, List.mem_of_find?_eq_some hgs,
                        by simpa using List.find?_some hgs⟩
                  have hsome_t : ∃ e ∈ m.elements, e.id = data.targetId := by
                    cases hgt : getElement m data.targetId with
                    | none => rw [hgt] at h6; simp at h6
                    | some e =>
                      exact ⟨e, List.mem_of_find?_eq_some hgt,
                        by simpa using List.find?_some hgt⟩
                  have hne0 : data.sourceId ≠ data.targetId := by simpa using h7
                  have e1 : modifyP (fun e => e.id == data.sourceId)
                      (fun s => { s with outgoingRelations :=
                        s.outgoingRelations ++ [effectiveId data.identifier genId] })
                      m.elements
                      = m.elements.map (fun e => if e.id == data.sourceId
                          then { e with outgoingRelations := e.outgoingRelations
                            ++ [effectiveId data.identifier genId] }
                          else e) :=
                    modifyP_eq_map (idsNodup_parts hg.1).1
                  have hide1 : (m.elements.map (fun e => if e.id == data.sourceId
                      then { e with outgoingRelations := e.outgoingRelations
                        ++ [effectiveId data.identifier genId] }
                      else e)).map (fun e => e.id)
                      = m.elements.map (fun e => e.id) := by
                    rw [List.map_map]
                    refine List.map_congr_left (fun e he2 => ?_)
                    show (if e.id == data.sourceId
                        then { e with outgoingRelations := e.outgoingRelations
                          ++ [effectiveId data.identifier genId] }
                        else e).id = e.id
                    split <;> rfl
                  have e2 : modifyP (fun e => e.id == data.targetId)
                      (fun t => { t with incomingRelations :=
                        t.incomingRelations ++ [effectiveId data.identifier genId] })
                      (m.elements.map (fun e => if e.id == data.sourceId
                        then { e with outgoingRelations := e.outgoingRelations
                          ++ [effectiveId data.identifier genId] }
                        else e))
                      = (m.elements.map (fun e => if e.id == data.sourceId
                          then { e with outgoingRelations := e.outgoingRelations
                            ++ [effectiveId data.identifier genId] }
                          else e)).map
                        (fun e => if e.id == data.targetId
                          then { e with incomingRelations := e.incomingRelations
                            ++ [effectiveId data.identifier genId] }
                          else e) :=
                    modifyP_eq_map (by rw [hide1]; exact (idsNodup_parts hg.1).1)
                  have e3 : (m.elements.map (fun e => if e.id == data.sourceId
                      then { e with outgoingRelations := e.outgoingRelations
                        ++ [effectiveId data.identifier genId] }
                      else e)).map
                        (fun e => if e.id == data.targetId
                          then { e with incomingRelations := e.incomingRelations
                            ++ [effectiveId data.identifier genId] }
                          else e)
                      = m.elements.map (addRelToElement data.sourceId data.targetId
                          (effectiveId data.identifier genId)) := by
                    rw [List.map_map]
                    refine List.map_congr_left (fun e he2 => ?_)
                    by_cases hs : (e.id == data.sourceId) = true <;>
                      by_cases ht : (e.id == data.targetId) = true <;>
                      simp [Function.comp, addRelToElement, hs, ht]
                  rw [hsrcT, htgtT, e1, e2, e3]
                  exact createRelationship_state_good m
                    { id := effectiveId data.identifier genId
                      sourceId := data.sourceId
                      targetId := data.targetId
                      type_ := data.type_.jsTrim
                      name := data.name.map (fun n => n.jsTrim)
                      documentation := data.documentation.map (fun d => d.jsTrim)
                      properties := data.properties.getD [] }
                    hg (by simpa using h8) hsome_s hsome_t hne0

-- ----------------------------------------------------------------------------
-- updateRelationship
-- ----------------------------------------------------------------------------

theorem contains_true_mem {l : List String} {x : String}
    (h : l.contains x = true) : x ∈ l := by
  induction l with
  | nil => cases h
  | cons y ys ih =>
    rw [List.contains_cons] at h
    by_cases hxy : (x == y) = true
    · have h2 : x = y := by simpa using hxy
      rw [h2]
      exact List.mem_cons_self y ys
    · simp only [hxy, Bool.false_or] at h
      exact List.mem_cons_of_mem y (ih h)

theorem applyRelationshipUpdate_source (data : UpdateRelationshipInput)
    (r : RelationshipObject) :
    (applyRelationshipUpdate data r).sourceId
      = match data.sourceId with
        | some s => s.jsTrim
        | none => r.sourceId := by
  unfold applyRelationshipUpdate
  cases data.type_ <;> cases data.sourceId <;> cases data.targetId <;>
    cases data.name <;> cases data.documentation <;> cases data.properties <;> simp

theorem applyRelationshipUpdate_target (data : UpdateRelationshipInput)
    (r : RelationshipObject) :
    (applyRelationshipUpdate data r).targetId
      = match data.targetId with
        | some t => t.jsTrim
        | none => r.targetId := by
  unfold applyRelationshipUpdate
  cases data.type_ <;> cases data.sourceId <;> cases data.targetId <;>
    cases data.name <;> cases data.documentation <;> cases data.properties <;> simp

/-- Master preservation lemma for `updateRelationship`: replacing the stored
relationship `R` (found under id `i`) by `r2` while the per-element map `H`
performs the matching outgoing/incoming migrations keeps the well-formedness
package. `moveS`/`moveT` say whether the source/target endpoint moves. -/
theorem rel_move_good (m : ModelData) (i : String) (R r2 : RelationshipObject)
    (moveS moveT : Bool) (H : ElementObject → ElementObject)
    (hg : Good m)
    (hRmem : R ∈ m.relationships) (hRid : R.id = i)
    (hr2id : r2.id = R.id)
    (hnewS : if moveS = true then r2.sourceId ≠ R.sourceId
      else r2.sourceId = R.sourceId)
    (hnewT : if moveT = true then r2.targetId ≠ R.targetId
      else r2.targetId = R.targetId)
    (hSex : ∃ e ∈ m.elements, e.id = r2.sourceId)
    (hTex : ∃ e ∈ m.elements, e.id = r2.targetId)
    (hne2 : r2.sourceId ≠ r2.targetId)
    (hHid : ∀ e, (H e).id = e.id)
    (hHout : ∀ e ∈ m.elements, (H e).outgoingRelations =
        if moveS = true then
          (if e.id == R.sourceId then e.outgoingRelations.erase i
           else if e.id == r2.sourceId then e.outgoingRelations ++ [i]
           else e.outgoingRelations)
        else e.outgoingRelations)
    (hHin : ∀ e ∈ m.elements, (H e).incomingRelations =
        if moveT = true then
          (if e.id == R.targetId then e.incomingRelations.erase i
           else if e.id == r2.targetId then e.incomingRelations ++ [i]
           else e.incomingRelations)
        else e.incomingRelations) :
    Good { m with
      elements := m.elements.map H
      relationships := m.relationships.map
        (fun r => if r.id == i then r2 else r) } := by
  obtain ⟨hids, hsl, ha, hb, hc, hd, he, hf, hnd⟩ := hg
  obtain ⟨hnde, hndr, hndv⟩ := idsNodup_parts hids
  have huniq : ∀ r ∈ m.relationships, r.id = i → r = R := by
    intro r hr hri
    exact List.inj_on_of_nodup_map hndr hr hRmem (by rw [hri, hRid])
  have himg : ∀ r ∈ m.relationships, (if r.id == i then r2 else r)
      ∈ m.relationships.map (fun r => if r.id == i then r2 else r) :=
    fun r hr => List.mem_map_of_mem _ hr
  have hr2mem : r2 ∈ m.relationships.map (fun r => if r.id == i then r2 else r) := by
    have h0 := himg R hRmem
    rw [if_pos (by simp [hRid])] at h0
    exact h0
  have hsurv : ∀ r ∈ m.relationships, r.id ≠ i →
      r ∈ m.relationships.map (fun r => if r.id == i then r2 else r) := by
    intro r hr hri
    have h0 := himg r hr
    rw [if_neg (by simp [hri])] at h0
    exact h0
  have hmemR : ∀ x ∈ m.relationships.map (fun r => if r.id == i then r2 else r),
      ∃ r, r ∈ m.relationships ∧ x = (if r.id == i then r2 else r) := by
    intro x hx
    rcases List.mem_map.mp hx with ⟨r, hr, hxr⟩
    exact ⟨r, hr, hxr.symm⟩
  have hmemF : ∀ x ∈ m.elements.map H, ∃ e, e ∈ m.elements ∧ x = H e := by
    intro x hx
    rcases List.mem_map.mp hx with ⟨e, he2, hxe⟩
    exact ⟨e, he2, hxe.symm⟩
  have hiout : ∀ e ∈ m.elements, e.id ≠ R.sourceId → i ∉ e.outgoingRelations := by
    intro e hem hne3 hmm
    rcases hc e hem i hmm with ⟨r, hr, hri, hrs⟩
    have hrR := huniq r hr hri
    rw [hrR] at hrs
    exact hne3 hrs.symm
  have hiin : ∀ e ∈ m.elements, e.id ≠ R.targetId → i ∉ e.incomingRelations := by
    intro e hem hne3 hmm
    rcases hd e hem i hmm with ⟨r, hr, hri, hrs⟩
    have hrR := huniq r hr hri
    rw [hrR] at hrs
    exact hne3 hrs.symm
  refine ⟨?_, ?_, ?_, ?_, ?_, ?_, ?_, ?_, ?_⟩
  · unfold IdsNodup
    show ((m.elements.map H).map (fun (e : ElementObject) => e.id)
        ++ (m.relationships.map (fun r => if r.id == i then r2 else r)).map
          (fun (r : RelationshipObject) => r.id)
        ++ m.views.map (fun (v : ViewObject) => v.id)).Nodup
    have hE : (m.elements.map H).map (fun (e : ElementObject) => e.id)
        = m.elements.map (fun e => e.id) := by
      rw [List.map_map]
      exact List.map_congr_left (fun e he2 => hHid e)
    have hR : (m.relationships.map (fun r => if r.id == i then r2 else r)).map
        (fun (r : RelationshipObject) => r.id)
        = m.relationships.map (fun r => r.id) := by
      rw [List.map_map]
      refine List.map_congr_left (fun r hr => ?_)
      show (if r.id == i then r2 else r).id = r.id
      by_cases hri : (r.id == i) = true
      · rw [if_pos hri, hr2id, hRid]
        exact (show r.id = i by simpa using hri).symm
      · rw [if_neg hri]
    rw [hE, hR]
    exact hids
  · intro x hx
    rcases hmemR x hx with ⟨r, hr, rfl⟩
    by_cases hri : (r.id == i) = true
    · rw [if_pos hri]
      exact hne2
    · rw [if_neg hri]
      exact hsl r hr
  · intro x hx
    rcases hmemR x hx with ⟨r, hr, rfl⟩
    by_cases hri : (r.id == i) = true
    · rw [if_pos hri]
      rcases hSex with ⟨e, hem, heid⟩
      exact ⟨H e, List.mem_map_of_mem _ hem, by rw [hHid]; exact heid⟩
    · rw [if_neg hri]
      rcases ha r hr with ⟨e, hem, heid⟩
      exact ⟨H e, List.mem_map_of_mem _ hem, by rw [hHid]; exact heid⟩
  · intro x hx
    rcases hmemR x hx with ⟨r, hr, rfl⟩
    by_cases hri : (r.id == i) = true
    · rw [if_pos hri]
      rcases hTex with ⟨e, hem, heid⟩
      exact ⟨H e, List.mem_map_of_mem _ hem, by rw [hHid]; exact heid⟩
    · rw [if_neg hri]
      rcases hb r hr with ⟨e, hem, heid⟩
      exact ⟨H e, List.mem_map_of_mem _ hem, by rw [hHid]; exact heid⟩
  · intro x hx rid hrid
    rcases hmemF x hx with ⟨e, hem, rfl⟩
    rw [hHout e hem] at hrid
    cases moveS with
    | false =>
      rw [if_neg (by simp)] at hrid
      have hnewS2 : r2.sourceId = R.sourceId := by simpa using hnewS
      rcases hc e hem rid hrid with ⟨r, hr, hridq, hrsrc⟩
      by_cases hri : (r.id == i) = true
      · have hrR := huniq r hr (by simpa using hri)
        refine ⟨r2, hr2mem, ?_, ?_⟩
        · rw [hr2id, hRid, ← (show r.id = i by simpa using hri)]
          exact hridq
        · rw [hHid, hnewS2, ← hrR]
          exact hrsrc
      · exact ⟨r, hsurv r hr (by simpa using hri), hridq, by rw [hrsrc, hHid]⟩
    | true =>
      have hnewS2 : r2.sourceId ≠ R.sourceId := by simpa using hnewS
      rw [if_pos rfl] at hrid
      by_cases hp : (e.id == R.sourceId) = true
      · rw [if_pos hp] at hrid
        have hmm2 := List.mem_of_mem_erase hrid
        have hrne : rid ≠ i := ne_of_mem_erase_nodup (hnd e hem).1 hrid
        rcases hc e hem rid hmm2 with ⟨r, hr, hridq, hrsrc⟩
        exact ⟨r, hsurv r hr (by rw [hridq]; exact hrne), hridq,
          by rw [hrsrc, hHid]⟩
      · rw [if_neg hp] at hrid
        by_cases hq : (e.id == r2.sourceId) = true
        · rw [if_pos hq] at hrid
          rcases List.mem_append.mp hrid with hmm2 | hmm2
          · rcases hc e hem rid hmm2 with ⟨r, hr, hridq, hrsrc⟩
            have hrne : r.id ≠ i := by
              intro hri2
              have hrR := huniq r hr hri2
              rw [hrR] at hrsrc
              exact hp (by simp [hrsrc.symm])
            exact ⟨r, hsurv r hr hrne, hridq, by rw [hrsrc, hHid]⟩
          · have hrideq : rid = i := by simpa using hmm2
            refine ⟨r2, hr2mem, by rw [hr2id, hRid, hrideq], ?_⟩
            rw [hHid]
            exact (show e.id = r2.sourceId by simpa using hq).symm
        · rw [if_neg hq] at hrid
          rcases hc e hem rid hrid with ⟨r, hr, hridq, hrsrc⟩
          have hrne : r.id ≠ i := by
            intro hri2
            have hrR := huniq r hr hri2
            rw [hrR] at hrsrc
            exact hp (by simp [hrsrc.symm])
          exact ⟨r, hsurv r hr hrne, hridq, by rw [hrsrc, hHid]⟩
  · intro x hx rid hrid
    rcases hmemF x hx with ⟨e, hem, rfl⟩
    rw [hHin e hem] at hrid
    cases moveT with
    | false =>
      rw [if_neg (by simp)] at hrid
      have hnewT2 : r2.targetId = R.targetId := by simpa using hnewT
      rcases hd e hem rid hrid with ⟨r, hr, hridq, hrtgt⟩
      by_cases hri : (r.id == i) = true
      · have hrR := huniq r hr (by simpa using hri)
        refine ⟨r2, hr2mem, ?_, ?_⟩
        · rw [hr2id, hRid, ← (show r.id = i by simpa using hri)]
          exact hridq
        · rw [hHid, hnewT2, ← hrR]
          exact hrtgt
      · exact ⟨r, hsurv r hr (by simpa using hri), hridq, by rw [hrtgt, hHid]⟩
    | true =>
      have hnewT2 : r2.targetId ≠ R.targetId := by simpa using hnewT
      rw [if_pos rfl] at hrid
      by_cases hp : (e.id == R.targetId) = true
      · rw [if_pos hp] at hrid
        have hmm2 := List.mem_of_mem_erase hrid
        have hrne : rid ≠ i := ne_of_mem_erase_nodup (hnd e hem).2 hrid
        rcases hd e hem rid hmm2 with ⟨r, hr, hridq, hrtgt⟩
        exact ⟨r, hsurv r hr (by rw [hridq]; exact hrne), hridq,
          by rw [hrtgt, hHid]⟩
      · rw [if_neg hp] at hrid
        by_cases hq : (e.id == r2.targetId) = true
        · rw [if_pos hq] at hrid
          rcases List.mem_append.mp hrid with hmm2 | hmm2
          · rcases hd e hem rid hmm2 with ⟨r, hr, hridq, hrtgt⟩
            have hrne : r.id ≠ i := by
              intro hri2
              have hrR := huniq r hr hri2
              rw [hrR] at hrtgt
              exact hp (by simp [hrtgt.symm])
            exact ⟨r, hsurv r hr hrne, hridq, by rw [hrtgt, hHid]⟩
          · have hrideq : rid = i := by simpa using hmm2
            refine ⟨r2, hr2mem, by rw [hr2id, hRid, hrideq], ?_⟩
            rw [hHid]
            exact (show e.id = r2.targetId by simpa using hq).symm
        · rw [if_neg hq] at hrid
          rcases hd e hem rid hrid with ⟨r, hr, hridq, hrtgt⟩
          have hrne : r.id ≠ i := by
            intro hri2
            have hrR := huniq r hr hri2
            rw [hrR] at hrtgt
            exact hp (by simp [hrtgt.symm])
          exact ⟨r, hsurv r hr hrne, hridq, by rw [hrtgt, hHid]⟩
  · intro x hx y hy hyid
    rcases hmemR x hx with ⟨r, hr, rfl⟩
    rcases hmemF y hy with ⟨e, hem, rfl⟩
    rw [hHid] at hyid
    rw [hHout e hem]
    by_cases hri : (r.id == i) = true
    · rw [if_pos hri] at hyid ⊢
      cases moveS with
      | false =>
        have hnewS2 : r2.sourceId = R.sourceId := by simpa using hnewS
        rw [if_neg (by simp), hr2id]
        exact he R hRmem e hem (by rw [hyid, hnewS2])
      | true =>
        have hnewS2 : r2.sourceId ≠ R.sourceId := by simpa using hnewS
        rw [if_pos rfl]
        have hp : ¬ (e.id == R.sourceId) = true := by
          simp only [beq_iff_eq]
          rw [hyid]
          exact hnewS2
        rw [if_neg hp, if_pos (show (e.id == r2.sourceId) = true by simp [hyid]),
          hr2id, hRid]
        exact List.mem_append_right _ (by simp)
    · rw [if_neg hri] at hyid ⊢
      have hbase := he r hr e hem hyid
      cases moveS with
      | false =>
        rw [if_neg (by simp)]
        exact hbase
      | true =>
        rw [if_pos rfl]
        by_cases hp : (e.id == R.sourceId) = true
        · rw [if_pos hp]
          exact (List.mem_erase_of_ne (by simpa using hri)).mpr hbase
        · rw [if_neg hp]
          by_cases hq : (e.id == r2.sourceId) = true
          · rw [if_pos hq]
            exact List.mem_append_left _ hbase
          · rw [if_neg hq]
            exact hbase
  · intro x hx y hy hyid
    rcases hmemR x hx with ⟨r, hr, rfl⟩
    rcases hmemF y hy with ⟨e, hem, rfl⟩
    rw [hHid] at hyid
    rw [hHin e hem]
    by_cases hri : (r.id == i) = true
    · rw [if_pos hri] at hyid ⊢
      cases moveT with
      | false =>
        have hnewT2 : r2.targetId = R.targetId := by simpa using hnewT
        rw [if_neg (by simp), hr2id]
        exact hf R hRmem e hem (by rw [hyid, hnewT2])
      | true =>
        have hnewT2 : r2.targetId ≠ R.targetId := by simpa using hnewT
        rw [if_pos rfl]
        have hp : ¬ (e.id == R.targetId) = true := by
          simp only [beq_iff_eq]
          rw [hyid]
          exact hnewT2
        rw [if_neg hp, if_pos (show (e.id == r2.targetId) = true by simp [hyid]),
          hr2id, hRid]
        exact List.mem_append_right _ (by simp)
    · rw [if_neg hri] at hyid ⊢
      have hbase := hf r hr e hem hyid
      cases moveT with
      | false =>
        rw [if_neg (by simp)]
        exact hbase
      | true =>
        rw [if_pos rfl]
        by_cases hp : (e.id == R.targetId) = true
        · rw [if_pos hp]
          exact (List.mem_erase_of_ne (by simpa using hri)).mpr hbase
        · rw [if_neg hp]
          by_cases hq : (e.id == r2.targetId) = true
          · rw [if_pos hq]
            exact List.mem_append_left _ hbase
          · rw [if_neg hq]
            exact hbase
  · intro x hx
    rcases hmemF x hx with ⟨e, hem, rfl⟩
    rw [hHout e hem, hHin e hem]
    refine ⟨?_, ?_⟩
    · cases moveS with
      | false =>
        rw [if_neg (by simp)]
        exact (hnd e hem).1
      | true =>
        rw [if_pos rfl]
        by_cases hp : (e.id == R.sourceId) = true
        · rw [if_pos hp]
          exact List.Nodup.sublist (List.erase_sublist _ _) (hnd e hem).1
        · rw [if_neg hp]
          by_cases hq : (e.id == r2.sourceId) = true
          · rw [if_pos hq]
            exact nodup_append_singleton (hiout e hem (by simpa using hp))
              (hnd e hem).1
          · rw [if_neg hq]
            exact (hnd e hem).1
    · cases moveT with
      | false =>
        rw [if_neg (by simp)]
        exact (hnd e hem).2
      | true =>
        rw [if_pos rfl]
        by_cases hp : (e.id == R.targetId) = true
        · rw [if_pos hp]
          exact List.Nodup.sublist (List.erase_sublist _ _) (hnd e hem).2
        · rw [if_neg hp]
          by_cases hq : (e.id == r2.targetId) = true
          · rw [if_pos hq]
            exact nodup_append_singleton (hiin e hem (by simpa using hp))
              (hnd e hem).2
          · rw [if_neg hq]
            exact (hnd e hem).2

/-- `Good` reads only the three entity collections. -/
theorem good_congr_components {m1 m2 : ModelData}
    (he : m1.elements = m2.elements) (hr : m1.relationships = m2.relationships)
    (hv : m1.views = m2.views) (h : Good m1) : Good m2 := by
  unfold Good IdsNodup NoSelfLoop Inv2 at h ⊢
  rw [← he, ← hr, ← hv]
  exact h

/-- Proof-internal characterization: per-element effect of a source
migration. -/
def migrateElemOut (prevS newS i : String) (e : ElementObject) : ElementObject :=
  { e with outgoingRelations :=
      if e.id == prevS then e.outgoingRelations.erase i
      else if e.id == newS then e.outgoingRelations ++ [i]
      else e.outgoingRelations }

/-- Proof-internal characterization: per-element effect of a target
migration. -/
def migrateElemIn (prevT newT i : String) (e : ElementObject) : ElementObject :=
  { e with incomingRelations :=
      if e.id == prevT then e.incomingRelations.erase i
      else if e.id == newT then e.incomingRelations ++ [i]
      else e.incomingRelations }

theorem migrateElemOut_id (prevS newS i : String) (e : ElementObject) :
    (migrateElemOut prevS newS i e).id = e.id := rfl

theorem migrateElemOut_out (prevS newS i : String) (e : ElementObject) :
    (migrateElemOut prevS newS i e).outgoingRelations
      = if e.id == prevS then e.outgoingRelations.erase i
        else if e.id == newS then e.outgoingRelations ++ [i]
        else e.outgoingRelations := rfl

theorem migrateElemOut_in (prevS newS i : String) (e : ElementObject) :
    (migrateElemOut prevS newS i e).incomingRelations = e.incomingRelations := rfl

theorem migrateElemIn_id (prevT newT i : String) (e : ElementObject) :
    (migrateElemIn prevT newT i e).id = e.id := rfl

theorem migrateElemIn_in (prevT newT i : String) (e : ElementObject) :
    (migrateElemIn prevT newT i e).incomingRelations
      = if e.id == prevT then e.incomingRelations.erase i
        else if e.id == newT then e.incomingRelations ++ [i]
        else e.incomingRelations := rfl

theorem migrateElemIn_out (prevT newT i : String) (e : ElementObject) :
    (migrateElemIn prevT newT i e).outgoingRelations = e.outgoingRelations := rfl

theorem migrateSource_elements_ids (m : ModelData) (i prevS newS : String) :
    (migrateSource m i prevS newS).elements.map (fun e => e.id)
      = m.elements.map (fun e => e.id) := by
  unfold migrateSource
  dsimp only []
  have h2 : (modifyP (fun e => e.id == prevS)
      (fun e => { e with outgoingRelations := e.outgoingRelations.erase i })
      m.elements).map (fun e => e.id) = m.elements.map (fun e => e.id) :=
    map_modifyP_of_key _ (fun a => rfl)
  have h3 : (modifyP (fun e => e.id == newS)
      (fun e => if e.outgoingRelations.contains i then e
                else { e with outgoingRelations := e.outgoingRelations ++ [i] })
      (modifyP (fun e => e.id == prevS)
        (fun e => { e with outgoingRelations := e.outgoingRelations.erase i })
        m.elements)).map (fun e => e.id)
      = (modifyP (fun e => e.id == prevS)
        (fun e => { e with outgoingRelations := e.outgoingRelations.erase i })
        m.elements).map (fun e => e.id) :=
    map_modifyP_of_key _ (fun a => by split <;> rfl)
  rw [h3, h2]

theorem migrateTarget_elements_ids (m : ModelData) (i prevT newT : String) :
    (migrateTarget m i prevT newT).elements.map (fun e => e.id)
      = m.elements.map (fun e => e.id) := by
  unfold migrateTarget
  dsimp only []
  have h2 : (modifyP (fun e => e.id == prevT)
      (fun e => { e with incomingRelations := e.incomingRelations.erase i })
      m.elements).map (fun e => e.id) = m.elements.map (fun e => e.id) :=
    map_modifyP_of_key _ (fun a => rfl)
  have h3 : (modifyP (fun e => e.id == newT)
      (fun e => if e.incomingRelations.contains i then e
                else { e with incomingRelations := e.incomingRelations ++ [i] })
      (modifyP (fun e => e.id == prevT)
        (fun e => { e with incomingRelations := e.incomingRelations.erase i })
        m.elements)).map (fun e => e.id)
      = (modifyP (fun e => e.id == prevT)
        (fun e => { e with incomingRelations := e.incomingRelations.erase i })
        m.elements).map (fun e => e.id) :=
    map_modifyP_of_key _ (fun a => by split <;> rfl)
  rw [h3, h2]

theorem migrateSource_elements_canon (m : ModelData) (i prevS newS : String)
    (hnd : (m.elements.map (fun e => e.id)).Nodup)
    (hne : newS ≠ prevS)
    (hfree : ∀ e ∈ m.elements, e.id = newS → i ∉ e.outgoingRelations) :
    (migrateSource m i prevS newS).elements
      = m.elements.map (migrateElemOut prevS newS i) := by
  unfold migrateSource
  dsimp only []
  have e1 : modifyP (fun e => e.id == prevS)
      (fun e => { e with outgoingRelations := e.outgoingRelations.erase i })
      m.elements
      = m.elements.map (fun e => if e.id == prevS
          then { e with outgoingRelations := e.outgoingRelations.erase i }
          else e) :=
    modifyP_eq_map hnd
  have hide1 : (m.elements.map (fun e => if e.id == prevS
      then { e with outgoingRelations := e.outgoingRelations.erase i }
      else e)).map (fun e => e.id) = m.elements.map (fun e => e.id) := by
    rw [List.map_map]
    refine List.map_congr_left (fun e he2 => ?_)
    show (if e.id == prevS
        then { e with outgoingRelations := e.outgoingRelations.erase i }
        else e).id = e.id
    split <;> rfl
  have e2 : modifyP (fun e => e.id == newS)
      (fun e => if e.outgoingRelations.contains i then e
                else { e with outgoingRelations := e.outgoingRelations ++ [i] })
      (m.elements.map (fun e => if e.id == prevS
        then { e with outgoingRelations := e.outgoingRelations.erase i }
        else e))
      = (m.elements.map (fun e => if e.id == prevS
          then { e with outgoingRelations := e.outgoingRelations.erase i }
          else e)).map
        (fun e => if e.id == newS
          then (if e.outgoingRelations.contains i then e
                else { e with outgoingRelations := e.outgoingRelations ++ [i] })
          else e) :=
    modifyP_eq_map (by rw [hide1]; exact hnd)
  rw [e1, e2, List.map_map]
  refine List.map_congr_left (fun e hem => ?_)
  by_cases hp : (e.id == prevS) = true
  · have hq : ¬ (e.id == newS) = true := by
      simp only [beq_iff_eq]
      intro h2
      exact hne (h2.symm.trans (by simpa using hp))
    simp [Function.comp, migrateElemOut, hp, hq]
  · by_cases hq : (e.id == newS) = true
    · have hni : i ∉ e.outgoingRelations := hfree e hem (by simpa using hq)
      simp [Function.comp, migrateElemOut, hp, hq, hni]
    · simp [Function.comp, migrateElemOut, hp, hq]

theorem migrateTarget_elements_canon (m : ModelData) (i prevT newT : String)
    (hnd : (m.elements.map (fun e => e.id)).Nodup)
    (hne : newT ≠ prevT)
    (hfree : ∀ e ∈ m.elements, e.id = newT → i ∉ e.incomingRelations) :
    (migrateTarget m i prevT newT).elements
      = m.elements.map (migrateElemIn prevT newT i) := by
  unfold migrateTarget
  dsimp only []
  have e1 : modifyP (fun e => e.id == prevT)
      (fun e => { e with incomingRelations := e.incomingRelations.erase i })
      m.elements
      = m.elements.map (fun e => if e.id == prevT
          then { e with incomingRelations := e.incomingRelations.erase i }
          else e) :=
    modifyP_eq_map hnd
  have hide1 : (m.elements.map (fun e => if e.id == prevT
      then { e with incomingRelations := e.incomingRelations.erase i }
      else e)).map (fun e => e.id) = m.elements.map (fun e => e.id) := by
    rw [List.map_map]
    refine List.map_congr_left (fun e he2 => ?_)
    show (if e.id == prevT
        then { e with incomingRelations := e.incomingRelations.erase i }
        else e).id = e.id
    split <;> rfl
  have e2 : modifyP (fun e => e.id == newT)
      (fun e => if e.incomingRelations.contains i then e
                else { e with incomingRelations := e.incomingRelations ++ [i] })
      (m.elements.map (fun e => if e.id == prevT
        then { e with incomingRelations := e.incomingRelations.erase i }
        else e))
      = (m.elements.map (fun e => if e.id == prevT
          then { e with incomingRelations := e.incomingRelations.erase i }
          else e)).map
        (fun e => if e.id == newT
          then (if e.incomingRelations.contains i then e
                else { e with incomingRelations := e.incomingRelations ++ [i] })
          else e) :=
    modifyP_eq_map (by rw [hide1]; exact hnd)
  rw [e1, e2, List.map_map]
  refine List.map_congr_left (fun e hem => ?_)
  by_cases hp : (e.id == prevT) = true
  · have hq : ¬ (e.id == newT) = true := by
      simp only [beq_iff_eq]
      intro h2
      exact hne (h2.symm.trans (by simpa using hp))
    simp [Function.comp, migrateElemIn, hp, hq]
  · by_cases hq : (e.id == newT) = true
    · have hni : i ∉ e.incomingRelations := hfree e hem (by simpa using hq)
      simp [Function.comp, migrateElemIn, hp, hq, hni]
    · simp [Function.comp, migrateElemIn, hp, hq]

theorem not_mem_out_of_ne_source {m : ModelData} {R : RelationshipObject}
    {i : String} (hg : Good m) (hRmem : R ∈ m.relationships) (hRid : R.id = i)
    {x : String} (hx : x ≠ R.sourceId) :
    ∀ e ∈ m.elements, e.id = x → i ∉ e.outgoingRelations := by
  intro e hem heid hmm
  rcases hg.2.2.2.2.1 e hem i hmm with ⟨r, hr, hri, hrs⟩
  have hrR : r = R := List.inj_on_of_nodup_map (idsNodup_parts hg.1).2.1 hr hRmem
    (by rw [hri, hRid])
  rw [hrR] at hrs
  exact hx (by rw [← heid, ← hrs])

theorem not_mem_in_of_ne_target {m : ModelData} {R : RelationshipObject}
    {i : String} (hg : Good m) (hRmem : R ∈ m.relationships) (hRid : R.id = i)
    {x : String} (hx : x ≠ R.targetId) :
    ∀ e ∈ m.elements, e.id = x → i ∉ e.incomingRelations := by
  intro e hem heid hmm
  rcases hg.2.2.2.2.2.1 e hem i hmm with ⟨r, hr, hri, hrs⟩
  have hrR : r = R := List.inj_on_of_nodup_map (idsNodup_parts hg.1).2.1 hr hRmem
    (by rw [hri, hRid])
  rw [hrR] at hrs
  exact hx (by rw [← heid, ← hrs])

/-- The final success state of `updateRelationship`: migrated elements plus
the stored-record replacement. -/
theorem rel_move_final (m : ModelData) (idv : String)
    (data : UpdateRelationshipInput) (R : RelationshipObject) (M2 : ModelData)
    (moveS moveT : Bool) (H : ElementObject → ElementObject)
    (hg : Good m) (hRmem : R ∈ m.relationships) (hRid : R.id = idv)
    (hM2e : M2.elements = m.elements.map H)
    (hM2r : M2.relationships = m.relationships)
    (hM2v : M2.views = m.views)
    (hnewS : if moveS = true
      then (applyRelationshipUpdate data R).sourceId ≠ R.sourceId
      else (applyRelationshipUpdate data R).sourceId = R.sourceId)
    (hnewT : if moveT = true
      then (applyRelationshipUpdate data R).targetId ≠ R.targetId
      else (applyRelationshipUpdate data R).targetId = R.targetId)
    (hSex : ∃ e ∈ m.elements, e.id = (applyRelationshipUpdate data R).sourceId)
    (hTex : ∃ e ∈ m.elements, e.id = (applyRelationshipUpdate data R).targetId)
    (hne2 : (applyRelationshipUpdate data R).sourceId
      ≠ (applyRelationshipUpdate data R).targetId)
    (hHid : ∀ e, (H e).id = e.id)
    (hHout : ∀ e ∈ m.elements, (H e).outgoingRelations =
        if moveS = true then
          (if e.id == R.sourceId then e.outgoingRelations.erase idv
           else if e.id == (applyRelationshipUpdate data R).sourceId
             then e.outgoingRelations ++ [idv]
           else e.outgoingRelations)
        else e.outgoingRelations)
    (hHin : ∀ e ∈ m.elements, (H e).incomingRelations =
        if moveT = true then
          (if e.id == R.targetId then e.incomingRelations.erase idv
           else if e.id == (applyRelationshipUpdate data R).targetId
             then e.incomingRelations ++ [idv]
           else e.incomingRelations)
        else e.incomingRelations) :
    Good { M2 with relationships := modifyP (fun r => r.id == idv) (fun _ => applyRelationshipUpdate data R) M2.relationships } := by
  have hmod : modifyP (fun r => r.id == idv)
      (fun _ => applyRelationshipUpdate data R) M2.relationships
      = m.relationships.map
        (fun r => if r.id == idv then applyRelationshipUpdate data R else r) := by
    rw [hM2r]
    exact modifyP_eq_map (idsNodup_parts hg.1).2.1
  refine good_congr_components ?_ ?_ ?_
    (rel_move_good m idv R (applyRelationshipUpdate data R) moveS moveT H hg
      hRmem hRid (applyRelationshipUpdate_id data R) hnewS hnewT hSex hTex hne2
      hHid hHout hHin)
  · exact hM2e.symm
  · exact hmod.symm
  · exact hM2v.symm

/-- A successful `updateRelationship` whose supplied endpoint inputs are
non-empty and trim-invariant preserves the well-formedness package. -/
theorem updateRelationship_good {m : ModelData} {idv : String}
    {data : UpdateRelationshipInput} {r2 : RelationshipObject} {m2 : ModelData}
    (hsv : ∀ s, data.sourceId = some s → s ≠ "" ∧ s.jsTrim = s)
    (htv : ∀ t, data.targetId = some t → t ≠ "" ∧ t.jsTrim = t)
    (h : updateRelationship m idv data = (.ok r2, m2)) (hg : Good m) : Good m2 := by
  unfold updateRelationship at h
  cases hfind : m.relationships.find? (fun r => r.id == idv) with
  | none => rw [hfind] at h; simp at h
  | some R =>
    simp only [hfind] at h
    have hRmem : R ∈ m.relationships := List.mem_of_find?_eq_some hfind
    have hRid : R.id = idv := by simpa using List.find?_some hfind
    have hnde := (idsNodup_parts hg.1).1
    have hmapid : m.elements = m.elements.map (fun e : ElementObject => e) := by
      simp
    by_cases hc1 : (match data.type_ with
        | some t => t != "" && t != R.type_ && !validateRelationshipType t
        | none => false) = true
    · rw [if_pos hc1] at h; simp at h
    · rw [if_neg hc1] at h
      cases hds : data.sourceId with
      | none =>
        cases hdt : data.targetId with
        | none =>
          simp only [hds, hdt] at h
          rw [if_neg (by simp)] at h
          rw [if_neg (by simp)] at h
          by_cases hc4 : (R.sourceId == R.targetId) = true
          · rw [if_pos hc4] at h; simp at h
          · rw [if_neg hc4] at h
            simp only [Prod.mk.injEq, Except.ok.injEq] at h
            obtain ⟨rfl, rfl⟩ := h
            have hr2src : (applyRelationshipUpdate data R).sourceId = R.sourceId := by
              simp only [applyRelationshipUpdate_source, hds]
            have hr2tgt : (applyRelationshipUpdate data R).targetId = R.targetId := by
              simp only [applyRelationshipUpdate_target, hdt]
            exact rel_move_final m idv data R m false false (fun e => e) hg hRmem
              hRid hmapid rfl rfl (by simp [hr2src]) (by simp [hr2tgt])
              (by rw [hr2src]; exact hg.2.2.1 R hRmem)
              (by rw [hr2tgt]; exact hg.2.2.2.1 R hRmem)
              (by rw [hr2src, hr2tgt]; simpa using hc4)
              (fun e => rfl) (by intro e hem; simp) (by intro e hem; simp)
        | some t =>
          obtain ⟨htne, httrim⟩ := htv t hdt
          simp only [hds, hdt] at h
          rw [if_neg (by simp)] at h
          by_cases hteq : t = R.targetId
          · rw [if_neg (by simp [hteq])] at h
            rw [show (if t == "" then R.targetId else t) = t
              from if_neg (by simp [htne])] at h
            by_cases hc4 : (R.sourceId == t) = true
            · rw [if_pos hc4] at h; simp at h
            · rw [if_neg hc4] at h
              rw [if_neg (by simp [hteq])] at h
              simp only [Prod.mk.injEq, Except.ok.injEq] at h
              obtain ⟨rfl, rfl⟩ := h
              have hr2src : (applyRelationshipUpdate data R).sourceId = R.sourceId := by
                simp only [applyRelationshipUpdate_source, hds]
              have hr2tgt : (applyRelationshipUpdate data R).targetId = R.targetId := by
                simp only [applyRelationshipUpdate_target, hdt]
                rw [httrim, hteq]
              exact rel_move_final m idv data R m false false (fun e => e) hg hRmem
                hRid hmapid rfl rfl (by simp [hr2src]) (by simp [hr2tgt])
                (by rw [hr2src]; exact hg.2.2.1 R hRmem)
                (by rw [hr2tgt]; exact hg.2.2.2.1 R hRmem)
                (by rw [hr2src, hr2tgt, ← hteq]; simpa using hc4)
                (fun e => rfl) (by intro e hem; simp) (by intro e hem; simp)
          · by_cases hgt : (getElement m t).isNone = true
            · rw [if_pos (by simp [htne, hteq, hgt])] at h; simp at h
            · rw [if_neg (by simp [hgt])] at h
              rw [show (if t == "" then R.targetId else t) = t
                from if_neg (by simp [htne])] at h
              by_cases hc4 : (R.sourceId == t) = true
              · rw [if_pos hc4] at h; simp at h
              · rw [if_neg hc4] at h
                rw [if_pos (by simp [htne, hteq])] at h
                simp only [Prod.mk.injEq, Except.ok.injEq] at h
                obtain ⟨rfl, rfl⟩ := h
                have hTex0 : ∃ e ∈ m.elements, e.id = t := by
                  cases hge : getElement m t with
                  | none => rw [hge] at hgt; simp at hgt
                  | some e =>
                    exact ⟨e, List.mem_of_find?_eq_some hge,
                      by simpa using List.find?_some hge⟩
                have hr2src : (applyRelationshipUpdate data R).sourceId = R.sourceId := by
                  simp only [applyRelationshipUpdate_source, hds]
                have hr2tgt : (applyRelationshipUpdate data R).targetId = t := by
                  simp only [applyRelationshipUpdate_target, hdt]
                  exact httrim
                have hnT : (applyRelationshipUpdate data R).targetId ≠ R.targetId := by
                  rw [hr2tgt]; exact hteq
                exact rel_move_final m idv data R (migrateTarget m idv R.targetId t)
                  false true (migrateElemIn R.targetId t idv) hg hRmem hRid
                  (migrateTarget_elements_canon m idv R.targetId t hnde hteq
                    (not_mem_in_of_ne_target hg hRmem hRid hteq))
                  rfl rfl (by simp [hr2src]) (by simpa using hnT)
                  (by rw [hr2src]; exact hg.2.2.1 R hRmem)
                  (by rw [hr2tgt]; exact hTex0)
                  (by rw [hr2src, hr2tgt]; simpa using hc4)
                  (fun e => rfl)
                  (by intro e hem; simp [migrateElemIn_out])
                  (by intro e hem; simp only [migrateElemIn_in]; rw [hr2tgt]; simp)
      | some s =>
        obtain ⟨hsne, hstrim⟩ := hsv s hds
        by_cases hseq : s = R.sourceId
        · cases hdt : data.targetId with
          | none =>
            simp only [hds, hdt] at h
            rw [if_neg (by simp [hseq])] at h
            rw [if_neg (by simp)] at h
            rw [show (if s == "" then R.sourceId else s) = s
              from if_neg (by simp [hsne])] at h
            by_cases hc4 : (s == R.targetId) = true
            · rw [if_pos hc4] at h; simp at h
            · rw [if_neg hc4] at h
              rw [if_neg (by simp [hseq])] at h
              simp only [Prod.mk.injEq, Except.ok.injEq] at h
              obtain ⟨rfl, rfl⟩ := h
              have hr2src : (applyRelationshipUpdate data R).sourceId = R.sourceId := by
                simp only [applyRelationshipUpdate_source, hds]
                rw [hstrim, hseq]
              have hr2tgt : (applyRelationshipUpdate data R).targetId = R.targetId := by
                simp only [applyRelationshipUpdate_target, hdt]
              exact rel_move_final m idv data R m false false (fun e => e) hg hRmem
                hRid hmapid rfl rfl (by simp [hr2src]) (by simp [hr2tgt])
                (by rw [hr2src]; exact hg.2.2.1 R hRmem)
                (by rw [hr2tgt]; exact hg.2.2.2.1 R hRmem)
                (by rw [hr2src, hr2tgt, ← hseq]; simpa using hc4)
                (fun e => rfl) (by intro e hem; simp) (by intro e hem; simp)
          | some t =>
            obtain ⟨htne, httrim⟩ := htv t hdt
            simp only [hds, hdt] at h
            rw [if_neg (by simp [hseq])] at h
            by_cases hteq : t = R.targetId
            · rw [if_neg (by simp [hteq])] at h
              rw [show (if s == "" then R.sourceId else s) = s
                from if_neg (by simp [hsne])] at h
              rw [show (if t == "" then R.targetId else t) = t
                from if_neg (by simp [htne])] at h
              by_cases hc4 : (s == t) = true
              · rw [if_pos hc4] at h; simp at h
              · rw [if_neg hc4] at h
                rw [if_neg (by simp [hteq])] at h
                rw [if_neg (by simp [hseq])] at h
                simp only [Prod.mk.injEq, Except.ok.injEq] at h
                obtain ⟨rfl, rfl⟩ := h
                have hr2src : (applyRelationshipUpdate data R).sourceId = R.sourceId := by
                  simp only [applyRelationshipUpdate_source, hds]
                  rw [hstrim, hseq]
                have hr2tgt : (applyRelationshipUpdate data R).targetId = R.targetId := by
                  simp only [applyRelationshipUpdate_target, hdt]
                  rw [httrim, hteq]
                exact rel_move_final m idv data R m false false (fun e => e) hg
                  hRmem hRid hmapid rfl rfl (by simp [hr2src]) (by simp [hr2tgt])
                  (by rw [hr2src]; exact hg.2.2.1 R hRmem)
                  (by rw [hr2tgt]; exact hg.2.2.2.1 R hRmem)
                  (by rw [hr2src, hr2tgt, ← hseq, ← hteq]; simpa using hc4)
                  (fun e => rfl) (by intro e hem; simp) (by intro e hem; simp)
            · by_cases hgt : (getElement m t).isNone = true
              · rw [if_pos (by simp [htne, hteq, hgt])] at h; simp at h
              · rw [if_neg (by simp [hgt])] at h
                rw [show (if s == "" then R.sourceId else s) = s
                  from if_neg (by simp [hsne])] at h
                rw [show (if t == "" then R.targetId else t) = t
                  from if_neg (by simp [htne])] at h
                by_cases hc4 : (s == t) = true
                · rw [if_pos hc4] at h; simp at h
                · rw [if_neg hc4] at h
                  rw [if_pos (by simp [htne, hteq])] at h
                  rw [if_neg (by simp [hseq])] at h
                  simp only [Prod.mk.injEq, Except.ok.injEq] at h
                  obtain ⟨rfl, rfl⟩ := h
                  have hTex0 : ∃ e ∈ m.elements, e.id = t := by
                    cases hge : getElement m t with
                    | none => rw [hge] at hgt; simp at hgt
                    | some e =>
                      exact ⟨e, List.mem_of_find?_eq_some hge,
                        by simpa using List.find?_some hge⟩
                  have hr2src : (applyRelationshipUpdate data R).sourceId = R.sourceId := by
                    simp only [applyRelationshipUpdate_source, hds]
                    rw [hstrim, hseq]
                  have hr2tgt : (applyRelationshipUpdate data R).targetId = t := by
                    simp only [applyRelationshipUpdate_target, hdt]
                    exact httrim
                  have hnT : (applyRelationshipUpdate data R).targetId ≠ R.targetId := by
                    rw [hr2tgt]; exact hteq
                  exact rel_move_final m idv data R
                    (migrateTarget m idv R.targetId t) false true
                    (migrateElemIn R.targetId t idv) hg hRmem hRid
                    (migrateTarget_elements_canon m idv R.targetId t hnde hteq
                      (not_mem_in_of_ne_target hg hRmem hRid hteq))
                    rfl rfl (by simp [hr2src]) (by simpa using hnT)
                    (by rw [hr2src]; exact hg.2.2.1 R hRmem)
                    (by rw [hr2tgt]; exact hTex0)
                    (by rw [hr2src, hr2tgt, ← hseq]; simpa using hc4)
                    (fun e => rfl)
                    (by intro e hem; simp [migrateElemIn_out])
                    (by intro e hem; simp only [migrateElemIn_in]; rw [hr2tgt]; simp)
        · by_cases hgs : (getElement m s).isNone = true
          · cases hdt : data.targetId with
            | none =>
              simp only [hds, hdt] at h
              rw [if_pos (by simp [hsne, hseq, hgs])] at h
              simp at h
            | some t =>
              simp only [hds, hdt] at h
              rw [if_pos (by simp [hsne, hseq, hgs])] at h
              simp at h
          · have hSex0 : ∃ e ∈ m.elements, e.id = s := by
              cases hge : getElement m s with
              | none => rw [hge] at hgs; simp at hgs
              | some e =>
                exact ⟨e, List.mem_of_find?_eq_some hge,
                  by simpa using List.find?_some hge⟩
            cases hdt : data.targetId with
            | none =>
              simp only [hds, hdt] at h
              rw [if_neg (by simp [hgs])] at h
              rw [if_neg (by simp)] at h
              rw [show (if s == "" then R.sourceId else s) = s
                from if_neg (by simp [hsne])] at h
              by_cases hc4 : (s == R.targetId) = true
              · rw [if_pos hc4] at h; simp at h
              · rw [if_neg hc4] at h
                rw [if_pos (by simp [hsne, hseq])] at h
                simp only [Prod.mk.injEq, Except.ok.injEq] at h
                obtain ⟨rfl, rfl⟩ := h
                have hr2src : (applyRelationshipUpdate data R).sourceId = s := by
                  simp only [applyRelationshipUpdate_source, hds]
                  exact hstrim
                have hr2tgt : (applyRelationshipUpdate data R).targetId = R.targetId := by
                  simp only [applyRelationshipUpdate_target, hdt]
                have hnS : (applyRelationshipUpdate data R).sourceId ≠ R.sourceId := by
                  rw [hr2src]; exact hseq
                exact rel_move_final m idv data R
                  (migrateSource m idv R.sourceId s) true false
                  (migrateElemOut R.sourceId s idv) hg hRmem hRid
                  (migrateSource_elements_canon m idv R.sourceId s hnde hseq
                    (not_mem_out_of_ne_source hg hRmem hRid hseq))
                  rfl rfl (by simpa using hnS) (by simp [hr2tgt])
                  (by rw [hr2src]; exact hSex0)
                  (by rw [hr2tgt]; exact hg.2.2.2.1 R hRmem)
                  (by rw [hr2src, hr2tgt]; simpa using hc4)
                  (fun e => rfl)
                  (by intro e hem; simp only [migrateElemOut_out]; rw [hr2src]; simp)
                  (by intro e hem; simp [migrateElemOut_in])
            | some t =>
              obtain ⟨htne, httrim⟩ := htv t hdt
              simp only [hds, hdt] at h
              rw [if_neg (by simp [hgs])] at h
              by_cases hteq : t = R.targetId
              · rw [if_neg (by simp [hteq])] at h
                rw [show (if s == "" then R.sourceId else s) = s
                  from if_neg (by simp [hsne])] at h
                rw [show (if t == "" then R.targetId else t) = t
                  from if_neg (by simp [htne])] at h
                by_cases hc4 : (s == t) = true
                · rw [if_pos hc4] at h; simp at h
                · rw [if_neg hc4] at h
                  rw [if_neg (by simp [hteq])] at h
                  rw [if_pos (by simp [hsne, hseq])] at h
                  simp only [Prod.mk.injEq, Except.ok.injEq] at h
                  obtain ⟨rfl, rfl⟩ := h
                  have hr2src : (applyRelationshipUpdate data R).sourceId = s := by
                    simp only [applyRelationshipUpdate_source, hds]
                    exact hstrim
                  have hr2tgt : (applyRelationshipUpdate data R).targetId = R.targetId := by
                    simp only [applyRelationshipUpdate_target, hdt]
                    rw [httrim, hteq]
                  have hnS : (applyRelationshipUpdate data R).sourceId ≠ R.sourceId := by
                    rw [hr2src]; exact hseq
                  exact rel_move_final m idv data R
                    (migrateSource m idv R.sourceId s) true false
                    (migrateElemOut R.sourceId s idv) hg hRmem hRid
                    (migrateSource_elements_canon m idv R.sourceId s hnde hseq
                      (not_mem_out_of_ne_source hg hRmem hRid hseq))
                    rfl rfl (by simpa using hnS) (by simp [hr2tgt])
                    (by rw [hr2src]; exact hSex0)
                    (by rw [hr2tgt]; exact hg.2.2.2.1 R hRmem)
                    (by rw [hr2src, hr2tgt, ← hteq]; simpa using hc4)
                    (fun e => rfl)
                    (by intro e hem; simp only [migrateElemOut_out]; rw [hr2src]; simp)
                    (by intro e hem; simp [migrateElemOut_in])
              · by_cases hgt : (getElement m t).isNone = true
                · rw [if_pos (by simp [htne, hteq, hgt])] at h; simp at h
                · rw [if_neg (by simp [hgt])] at h
                  rw [show (if s == "" then R.sourceId else s) = s
                    from if_neg (by simp [hsne])] at h
                  rw [show (if t == "" then R.targetId else t) = t
                    from if_neg (by simp [htne])] at h
                  by_cases hc4 : (s == t) = true
                  · rw [if_pos hc4] at h; simp at h
                  · rw [if_neg hc4] at h
                    rw [if_pos (by simp [htne, hteq])] at h
                    rw [if_pos (by simp [hsne, hseq])] at h
                    simp only [Prod.mk.injEq, Except.ok.injEq] at h
                    obtain ⟨rfl, rfl⟩ := h
                    have hTex0 : ∃ e ∈ m.elements, e.id = t := by
                      cases hge : getElement m t with
                      | none => rw [hge] at hgt; simp at hgt
                      | some e =>
                        exact ⟨e, List.mem_of_find?_eq_some hge,
                          by simpa using List.find?_some hge⟩
                    have hr2src : (applyRelationshipUpdate data R).sourceId = s := by
                      simp only [applyRelationshipUpdate_source, hds]
                      exact hstrim
                    have hr2tgt : (applyRelationshipUpdate data R).targetId = t := by
                      simp only [applyRelationshipUpdate_target, hdt]
                      exact httrim
                    have hnS : (applyRelationshipUpdate data R).sourceId ≠ R.sourceId := by
                      rw [hr2src]; exact hseq
                    have hnT : (applyRelationshipUpdate data R).targetId ≠ R.targetId := by
                      rw [hr2tgt]; exact hteq
                    have hcanonS := migrateSource_elements_canon m idv R.sourceId s
                      hnde hseq (not_mem_out_of_ne_source hg hRmem hRid hseq)
                    have hfreeT1 : ∀ e2 ∈ (migrateSource m idv R.sourceId s).elements,
                        e2.id = t → idv ∉ e2.incomingRelations := by
                      intro e2 he2 heq hmm
                      rw [hcanonS] at he2
                      rcases List.mem_map.mp he2 with ⟨e, hem, rfl⟩
                      rw [migrateElemOut_id] at heq
                      rw [migrateElemOut_in] at hmm
                      exact not_mem_in_of_ne_target hg hRmem hRid hteq e hem heq hmm
                    have hcanonT := migrateTarget_elements_canon
                      (migrateSource m idv R.sourceId s) idv R.targetId t
                      (by rw [migrateSource_elements_ids]; exact hnde) hteq hfreeT1
                    have hM2e : (migrateTarget (migrateSource m idv R.sourceId s)
                        idv R.targetId t).elements
                        = m.elements.map (fun e =>
                          migrateElemIn R.targetId t idv
                            (migrateElemOut R.sourceId s idv e)) := by
                      rw [hcanonT, hcanonS, List.map_map]
                      rfl
                    exact rel_move_final m idv data R
                      (migrateTarget (migrateSource m idv R.sourceId s) idv
                        R.targetId t) true true
                      (fun e => migrateElemIn R.targetId t idv
                        (migrateElemOut R.sourceId s idv e)) hg hRmem hRid
                      hM2e rfl rfl (by simpa using hnS) (by simpa using hnT)
                      (by rw [hr2src]; exact hSex0)
                      (by rw [hr2tgt]; exact hTex0)
                      (by rw [hr2src, hr2tgt]; simpa using hc4)
                      (fun e => rfl)
                      (by intro e hem
                          simp only [migrateElemIn_out, migrateElemOut_out]
                          rw [hr2src]; simp)
                      (by intro e hem
                          simp only [migrateElemIn_in, migrateElemOut_id,
                            migrateElemOut_in]
                          rw [hr2tgt]; simp)

-- ----------------------------------------------------------------------------
-- deleteElement (cascade)
-- ----------------------------------------------------------------------------

/-- The invariant maintained throughout the cascade of `deleteElement eid`:
the full well-formedness package except that the doomed element `eid` may
hold stale outgoing/incoming entries. -/
def GoodX (eid : String) (m : ModelData) : Prop :=
  IdsNodup m ∧ NoSelfLoop m
  ∧ (∀ r ∈ m.relationships, ∃ e ∈ m.elements, e.id = r.sourceId)
  ∧ (∀ r ∈ m.relationships, ∃ e ∈ m.elements, e.id = r.targetId)
  ∧ (∀ e ∈ m.elements, e.id ≠ eid → ∀ rid ∈ e.outgoingRelations,
      ∃ r ∈ m.relationships, r.id = rid ∧ r.sourceId = e.id)
  ∧ (∀ e ∈ m.elements, e.id ≠ eid → ∀ rid ∈ e.incomingRelations,
      ∃ r ∈ m.relationships, r.id = rid ∧ r.targetId = e.id)
  ∧ (∀ r ∈ m.relationships, ∀ e ∈ m.elements,
      e.id = r.sourceId → r.id ∈ e.outgoingRelations)
  ∧ (∀ r ∈ m.relationships, ∀ e ∈ m.elements,
      e.id = r.targetId → r.id ∈ e.incomingRelations)
  ∧ (∀ e ∈ m.elements, e.outgoingRelations.Nodup ∧ e.incomingRelations.Nodup)

theorem goodX_of_good (eid : String) {m : ModelData} (hg : Good m) :
    GoodX eid m := by
  obtain ⟨h1, h2, ha, hb, hc, hd, he, hf, hg2⟩ := hg
  exact ⟨h1, h2, ha, hb, fun e hem hne rid hrid => hc e hem rid hrid,
    fun e hem hne rid hrid => hd e hem rid hrid, he, hf, hg2⟩

/-- One iteration of the outgoing-relationship cascade loop. -/
theorem removeOutgoingRel_step {eid : String} {m : ModelData} {rid : String}
    {R : RelationshipObject}
    (hGX : GoodX eid m) (hR : R ∈ m.relationships) (hRid : R.id = rid)
    (hRsrc : R.sourceId = eid) :
    GoodX eid (removeOutgoingRel m rid)
    ∧ (∀ r : RelationshipObject, r ∈ (removeOutgoingRel m rid).relationships
        ↔ (r ∈ m.relationships ∧ r.id ≠ rid))
    ∧ (∀ E, E ∈ m.elements → E.id = eid →
        E ∈ (removeOutgoingRel m rid).elements) := by
  obtain ⟨hids, hsl, ha, hb, hc, hd, he, hf, hnd⟩ := hGX
  obtain ⟨hnde, hndr, hndv⟩ := idsNodup_parts hids
  have hfind : m.relationships.find? (fun r => r.id == rid) = some R :=
    find?_eq_of_key_mem hndr hR hRid
  have huniq : ∀ r ∈ m.relationships, r.id = rid → r = R := by
    intro r hr hri
    exact List.inj_on_of_nodup_map hndr hr hR (by rw [hri, hRid])
  have hTne : R.targetId ≠ eid := by
    intro hEq
    exact hsl R hR (hRsrc.trans hEq.symm)
  have hstate : removeOutgoingRel m rid
      = { m with
          elements := modifyP (fun e => e.id == R.targetId)
            (fun t => { t with incomingRelations := t.incomingRelations.erase rid })
            m.elements
          relationships := m.relationships.eraseP (fun r => r.id == rid) } := by
    unfold removeOutgoingRel
    rw [hfind]
  have hrels : (removeOutgoingRel m rid).relationships
      = m.relationships.filter (fun r => !(r.id == rid)) := by
    rw [hstate]
    exact eraseP_eq_filter hndr
  have hels : (removeOutgoingRel m rid).elements
      = m.elements.map (fun e => if e.id == R.targetId
          then { e with incomingRelations := e.incomingRelations.erase rid }
          else e) := by
    rw [hstate]
    exact modifyP_eq_map hnde
  have hviews : (removeOutgoingRel m rid).views = m.views := by rw [hstate]
  have hFid : ∀ e : ElementObject, ((if e.id == R.targetId
      then { e with incomingRelations := e.incomingRelations.erase rid }
      else e) : ElementObject).id = e.id := by
    intro e; split <;> rfl
  have hFout : ∀ e : ElementObject, ((if e.id == R.targetId
      then { e with incomingRelations := e.incomingRelations.erase rid }
      else e) : ElementObject).outgoingRelations = e.outgoingRelations := by
    intro e; split <;> rfl
  have hmemR2 : ∀ r : RelationshipObject,
      r ∈ (removeOutgoingRel m rid).relationships
        ↔ (r ∈ m.relationships ∧ r.id ≠ rid) := by
    intro r
    rw [hrels, List.mem_filter]
    simp only [Bool.not_eq_true', beq_eq_false_iff_ne, ne_eq]
  have hmemF : ∀ x, x ∈ (removeOutgoingRel m rid).elements →
      ∃ e, e ∈ m.elements ∧ x = (if e.id == R.targetId
        then { e with incomingRelations := e.incomingRelations.erase rid }
        else e) := by
    intro x hx
    rw [hels] at hx
    rcases List.mem_map.mp hx with ⟨e, he2, hxe⟩
    exact ⟨e, he2, hxe.symm⟩
  refine ⟨⟨?_, ?_, ?_, ?_, ?_, ?_, ?_, ?_, ?_⟩, hmemR2, ?_⟩
  · unfold IdsNodup
    rw [hels, hrels, hviews]
    have hE : (m.elements.map (fun e => if e.id == R.targetId
        then { e with incomingRelations := e.incomingRelations.erase rid }
        else e)).map (fun e => e.id) = m.elements.map (fun e => e.id) := by
      rw [List.map_map]
      exact List.map_congr_left (fun e he2 => hFid e)
    rw [hE]
    have hsubR : List.Sublist
        ((m.relationships.filter (fun r => !(r.id == rid))).map (fun r => r.id))
        (m.relationships.map (fun r => r.id)) := (List.filter_sublist _).map _
    exact List.Nodup.sublist
      (((List.Sublist.refl _).append hsubR).append (List.Sublist.refl _)) hids
  · intro r hr
    exact hsl r ((hmemR2 r).mp hr).1
  · intro r hr
    obtain ⟨hrm, hrne⟩ := (hmemR2 r).mp hr
    rcases ha r hrm with ⟨e, hem, heid⟩
    refine ⟨_, by rw [hels]; exact List.mem_map_of_mem _ hem, ?_⟩
    rw [hFid]
    exact heid
  · intro r hr
    obtain ⟨hrm, hrne⟩ := (hmemR2 r).mp hr
    rcases hb r hrm with ⟨e, hem, heid⟩
    refine ⟨_, by rw [hels]; exact List.mem_map_of_mem _ hem, ?_⟩
    rw [hFid]
    exact heid
  · intro x hx hxne rid2 hrid2
    rcases hmemF x hx with ⟨e, hem, rfl⟩
    rw [hFid] at hxne
    rw [hFout] at hrid2
    rcases hc e hem hxne rid2 hrid2 with ⟨r, hr, hridq, hrsrc⟩
    have hrne : r.id ≠ rid := by
      intro hri
      have hrR := huniq r hr hri
      rw [hrR] at hrsrc
      exact hxne (by rw [← hrsrc, hRsrc])
    refine ⟨r, (hmemR2 r).mpr ⟨hr, hrne⟩, hridq, ?_⟩
    rw [hrsrc, hFid]
  · intro x hx hxne rid2 hrid2
    rcases hmemF x hx with ⟨e, hem, rfl⟩
    rw [hFid] at hxne
    by_cases hp : (e.id == R.targetId) = true
    · rw [if_pos hp] at hrid2
      have hmm2 := List.mem_of_mem_erase hrid2
      have hr2ne : rid2 ≠ rid := ne_of_mem_erase_nodup (hnd e hem).2 hrid2
      rcases hd e hem hxne rid2 hmm2 with ⟨r, hr, hridq, hrtgt⟩
      refine ⟨r, (hmemR2 r).mpr ⟨hr, by rw [hridq]; exact hr2ne⟩, hridq, ?_⟩
      rw [hrtgt, if_pos hp]
    · rw [if_neg hp] at hrid2
      rcases hd e hem hxne rid2 hrid2 with ⟨r, hr, hridq, hrtgt⟩
      have hrne : r.id ≠ rid := by
        intro hri
        have hrR := huniq r hr hri
        rw [hrR] at hrtgt
        exact hp (by simp [hrtgt.symm])
      refine ⟨r, (hmemR2 r).mpr ⟨hr, hrne⟩, hridq, ?_⟩
      rw [hrtgt, if_neg hp]
  · intro r hr x hx hxid
    obtain ⟨hrm, hrne⟩ := (hmemR2 r).mp hr
    rcases hmemF x hx with ⟨e, hem, rfl⟩
    rw [hFid] at hxid
    rw [hFout]
    exact he r hrm e hem hxid
  · intro r hr x hx hxid
    obtain ⟨hrm, hrne⟩ := (hmemR2 r).mp hr
    rcases hmemF x hx with ⟨e, hem, rfl⟩
    rw [hFid] at hxid
    have hbase := hf r hrm e hem hxid
    by_cases hp : (e.id == R.targetId) = true
    · rw [if_pos hp]
      exact (List.mem_erase_of_ne hrne).mpr hbase
    · rw [if_neg hp]
      exact hbase
  · intro x hx
    rcases hmemF x hx with ⟨e, hem, rfl⟩
    rw [hFout]
    refine ⟨(hnd e hem).1, ?_⟩
    by_cases hp : (e.id == R.targetId) = true
    · rw [if_pos hp]
      exact List.Nodup.sublist (List.erase_sublist _ _) (hnd e hem).2
    · rw [if_neg hp]
      exact (hnd e hem).2
  · intro E hEm hEid
    rw [hels]
    have h0 := List.mem_map_of_mem (fun e => if e.id == R.targetId
      then { e with incomingRelations := e.incomingRelations.erase rid }
      else e) hEm
    dsimp only [] at h0
    rw [if_neg (by simp only [hEid, beq_iff_eq]; exact fun h2 => hTne h2.symm)] at h0
    exact h0

/-- One iteration of the incoming-relationship cascade loop. -/
theorem removeIncomingRel_step {eid : String} {m : ModelData} {rid : String}
    {R : RelationshipObject}
    (hGX : GoodX eid m) (hR : R ∈ m.relationships) (hRid : R.id = rid)
    (hRtgt : R.targetId = eid) (hRsne : R.sourceId ≠ eid) :
    GoodX eid (removeIncomingRel m rid)
    ∧ (∀ r : RelationshipObject, r ∈ (removeIncomingRel m rid).relationships
        ↔ (r ∈ m.relationships ∧ r.id ≠ rid))
    ∧ (∀ E, E ∈ m.elements → E.id = eid →
        E ∈ (removeIncomingRel m rid).elements) := by
  obtain ⟨hids, hsl, ha, hb, hc, hd, he, hf, hnd⟩ := hGX
  obtain ⟨hnde, hndr, hndv⟩ := idsNodup_parts hids
  have hfind : m.relationships.find? (fun r => r.id == rid) = some R :=
    find?_eq_of_key_mem hndr hR hRid
  have huniq : ∀ r ∈ m.relationships, r.id = rid → r = R := by
    intro r hr hri
    exact List.inj_on_of_nodup_map hndr hr hR (by rw [hri, hRid])
  have hstate : removeIncomingRel m rid
      = { m with
          elements := modifyP (fun e => e.id == R.sourceId)
            (fun s => { s with outgoingRelations := s.outgoingRelations.erase rid })
            m.elements
          relationships := m.relationships.eraseP (fun r => r.id == rid) } := by
    unfold removeIncomingRel
    rw [hfind]
  have hrels : (removeIncomingRel m rid).relationships
      = m.relationships.filter (fun r => !(r.id == rid)) := by
    rw [hstate]
    exact eraseP_eq_filter hndr
  have hels : (removeIncomingRel m rid).elements
      = m.elements.map (fun e => if e.id == R.sourceId
          then { e with outgoingRelations := e.outgoingRelations.erase rid }
          else e) := by
    rw [hstate]
    exact modifyP_eq_map hnde
  have hviews : (removeIncomingRel m rid).views = m.views := by rw [hstate]
  have hFid : ∀ e : ElementObject, ((if e.id == R.sourceId
      then { e with outgoingRelations := e.outgoingRelations.erase rid }
      else e) : ElementObject).id = e.id := by
    intro e; split <;> rfl
  have hFin : ∀ e : ElementObject, ((if e.id == R.sourceId
      then { e with outgoingRelations := e.outgoingRelations.erase rid }
      else e) : ElementObject).incomingRelations = e.incomingRelations := by
    intro e; split <;> rfl
  have hmemR2 : ∀ r : RelationshipObject,
      r ∈ (removeIncomingRel m rid).relationships
        ↔ (r ∈ m.relationships ∧ r.id ≠ rid) := by
    intro r
    rw [hrels, List.mem_filter]
    simp only [Bool.not_eq_true', beq_eq_false_iff_ne, ne_eq]
  have hmemF : ∀ x, x ∈ (removeIncomingRel m rid).elements →
      ∃ e, e ∈ m.elements ∧ x = (if e.id == R.sourceId
        then { e with outgoingRelations := e.outgoingRelations.erase rid }
        else e) := by
    intro x hx
    rw [hels] at hx
    rcases List.mem_map.mp hx with ⟨e, he2, hxe⟩
    exact ⟨e, he2, hxe.symm⟩
  refine ⟨⟨?_, ?_, ?_, ?_, ?_, ?_, ?_, ?_, ?_⟩, hmemR2, ?_⟩
  · unfold IdsNodup
    rw [hels, hrels, hviews]
    have hE : (m.elements.map (fun e => if e.id == R.sourceId
        then { e with outgoingRelations := e.outgoingRelations.erase rid }
        else e)).map (fun e => e.id) = m.elements.map (fun e => e.id) := by
      rw [List.map_map]
      exact List.map_congr_left (fun e he2 => hFid e)
    rw [hE]
    have hsubR : List.Sublist
        ((m.relationships.filter (fun r => !(r.id == rid))).map (fun r => r.id))
        (m.relationships.map (fun r => r.id)) := (List.filter_sublist _).map _
    exact List.Nodup.sublist
      (((List.Sublist.refl _).append hsubR).append (List.Sublist.refl _)) hids
  · intro r hr
    exact hsl r ((hmemR2 r).mp hr).1
  · intro r hr
    obtain ⟨hrm, hrne⟩ := (hmemR2 r).mp hr
    rcases ha r hrm with ⟨e, hem, heid⟩
    refine ⟨_, by rw [hels]; exact List.mem_map_of_mem _ hem, ?_⟩
    rw [hFid]
    exact heid
  · intro r hr
    obtain ⟨hrm, hrne⟩ := (hmemR2 r).mp hr
    rcases hb r hrm with ⟨e, hem, heid⟩
    refine ⟨_, by rw [hels]; exact List.mem_map_of_mem _ hem, ?_⟩
    rw [hFid]
    exact heid
  · intro x hx hxne rid2 hrid2
    rcases hmemF x hx with ⟨e, hem, rfl⟩
    rw [hFid] at hxne
    by_cases hp : (e.id == R.sourceId) = true
    · rw [if_pos hp] at hrid2
      have hmm2 := List.mem_of_mem_erase hrid2
      have hr2ne : rid2 ≠ rid := ne_of_mem_erase_nodup (hnd e hem).1 hrid2
      rcases hc e hem hxne rid2 hmm2 with ⟨r, hr, hridq, hrsrc⟩
      refine ⟨r, (hmemR2 r).mpr ⟨hr, by rw [hridq]; exact hr2ne⟩, hridq, ?_⟩
      rw [hrsrc, if_pos hp]
    · rw [if_neg hp] at hrid2
      rcases hc e hem hxne rid2 hrid2 with ⟨r, hr, hridq, hrsrc⟩
      have hrne : r.id ≠ rid := by
        intro hri
        have hrR := huniq r hr hri
        rw [hrR] at hrsrc
        exact hp (by simp [hrsrc.symm])
      refine ⟨r, (hmemR2 r).mpr ⟨hr, hrne⟩, hridq, ?_⟩
      rw [hrsrc, if_neg hp]
  · intro x hx hxne rid2 hrid2
    rcases hmemF x hx with ⟨e, hem, rfl⟩
    rw [hFid] at hxne
    rw [hFin] at hrid2
    rcases hd e hem hxne rid2 hrid2 with ⟨r, hr, hridq, hrtgt⟩
    have hrne : r.id ≠ rid := by
      intro hri
      have hrR := huniq r hr hri
      rw [hrR] at hrtgt
      exact hxne (by rw [← hrtgt, hRtgt])
    refine ⟨r, (hmemR2 r).mpr ⟨hr, hrne⟩, hridq, ?_⟩
    rw [hrtgt, hFid]
  · intro r hr x hx hxid
    obtain ⟨hrm, hrne⟩ := (hmemR2 r).mp hr
    rcases hmemF x hx with ⟨e, hem, rfl⟩
    rw [hFid] at hxid
    have hbase := he r hrm e hem hxid
    by_cases hp : (e.id == R.sourceId) = true
    · rw [if_pos hp]
      exact (List.mem_erase_of_ne hrne).mpr hbase
    · rw [if_neg hp]
      exact hbase
  · intro r hr x hx hxid
    obtain ⟨hrm, hrne⟩ := (hmemR2 r).mp hr
    rcases hmemF x hx with ⟨e, hem, rfl⟩
    rw [hFid] at hxid
    rw [hFin]
    exact hf r hrm e hem hxid
  · intro x hx
    rcases hmemF x hx with ⟨e, hem, rfl⟩
    rw [hFin]
    refine ⟨?_, (hnd e hem).2⟩
    by_cases hp : (e.id == R.sourceId) = true
    · rw [if_pos hp]
      exact List.Nodup.sublist (List.erase_sublist _ _) (hnd e hem).1
    · rw [if_neg hp]
      exact (hnd e hem).1
  · intro E hEm hEid
    rw [hels]
    have h0 := List.mem_map_of_mem (fun e => if e.id == R.sourceId
      then { e with outgoingRelations := e.outgoingRelations.erase rid }
      else e) hEm
    dsimp only [] at h0
    rw [if_neg (by simp only [hEid, beq_iff_eq]; exact fun h2 => hRsne h2.symm)] at h0
    exact h0

/-- The outgoing-relationship cascade loop. -/
theorem removeOutgoing_fold (eid : String) :
    ∀ (rids : List String) (m : ModelData) (E : ElementObject),
    GoodX eid m → E ∈ m.elements → E.id = eid → rids.Nodup →
    (∀ rid ∈ rids, ∃ r ∈ m.relationships, r.id = rid ∧ r.sourceId = eid) →
    (∀ r ∈ m.relationships, r.sourceId = eid → r.id ∈ rids) →
    (∀ rid ∈ E.incomingRelations,
      ∃ r ∈ m.relationships, r.id = rid ∧ r.targetId = eid) →
    GoodX eid (rids.foldl removeOutgoingRel m)
    ∧ E ∈ (rids.foldl removeOutgoingRel m).elements
    ∧ (∀ r ∈ (rids.foldl removeOutgoingRel m).relationships, r.sourceId ≠ eid)
    ∧ (∀ rid ∈ E.incomingRelations,
        ∃ r ∈ (rids.foldl removeOutgoingRel m).relationships,
          r.id = rid ∧ r.targetId = eid) := by
  intro rids
  induction rids with
  | nil =>
    intro m E hGX hEm hEid hnd hpend hd4 hinc
    refine ⟨hGX, hEm, ?_, hinc⟩
    intro r hr hsrc
    exact absurd (hd4 r hr hsrc) (by simp)
  | cons rid rids ih =>
    intro m E hGX hEm hEid hnd hpend hd4 hinc
    rw [List.foldl_cons]
    rcases hpend rid (List.mem_cons_self rid rids) with ⟨R, hR, hRid, hRsrc⟩
    obtain ⟨hGX1, hmemR2, hEpres⟩ := removeOutgoingRel_step hGX hR hRid hRsrc
    simp only [List.nodup_cons] at hnd
    refine ih (removeOutgoingRel m rid) E hGX1 (hEpres E hEm hEid) hEid hnd.2
      ?_ ?_ ?_
    · intro rid2 hrid2
      rcases hpend rid2 (List.mem_cons_of_mem rid hrid2) with ⟨r, hr, hrid3, hrsrc3⟩
      refine ⟨r, (hmemR2 r).mpr ⟨hr, ?_⟩, hrid3, hrsrc3⟩
      rw [hrid3]
      exact fun heq => hnd.1 (heq ▸ hrid2)
    · intro r hr hsrc
      obtain ⟨hrm, hrne⟩ := (hmemR2 r).mp hr
      rcases List.mem_cons.mp (hd4 r hrm hsrc) with heq | hmem
      · exact absurd heq hrne
      · exact hmem
    · intro rid2 hrid2
      rcases hinc rid2 hrid2 with ⟨r, hr, hrid3, hrtgt3⟩
      refine ⟨r, (hmemR2 r).mpr ⟨hr, ?_⟩, hrid3, hrtgt3⟩
      intro heq
      have huq : r = R := List.inj_on_of_nodup_map (idsNodup_parts hGX.1).2.1
        hr hR (by rw [heq, hRid])
      rw [huq] at hrtgt3
      exact hGX.2.1 R hR (hRsrc.trans hrtgt3.symm)

/-- The incoming-relationship cascade loop. -/
theorem removeIncoming_fold (eid : String) :
    ∀ (rids : List String) (m : ModelData) (E : ElementObject),
    GoodX eid m → E ∈ m.elements → E.id = eid → rids.Nodup →
    (∀ rid ∈ rids, ∃ r ∈ m.relationships, r.id = rid ∧ r.targetId = eid) →
    (∀ r ∈ m.relationships, r.targetId = eid → r.id ∈ rids) →
    (∀ r ∈ m.relationships, r.sourceId ≠ eid) →
    GoodX eid (rids.foldl removeIncomingRel m)
    ∧ E ∈ (rids.foldl removeIncomingRel m).elements
    ∧ (∀ r ∈ (rids.foldl removeIncomingRel m).relationships,
        r.sourceId ≠ eid ∧ r.targetId ≠ eid) := by
  intro rids
  induction rids with
  | nil =>
    intro m E hGX hEm hEid hnd hpend hd4 hnosrc
    refine ⟨hGX, hEm, ?_⟩
    intro r hr
    refine ⟨hnosrc r hr, ?_⟩
    intro htgt
    exact absurd (hd4 r hr htgt) (by simp)
  | cons rid rids ih =>
    intro m E hGX hEm hEid hnd hpend hd4 hnosrc
    rw [List.foldl_cons]
    rcases hpend rid (List.mem_cons_self rid rids) with ⟨R, hR, hRid, hRtgt⟩
    obtain ⟨hGX1, hmemR2, hEpres⟩ :=
      removeIncomingRel_step hGX hR hRid hRtgt (hnosrc R hR)
    simp only [List.nodup_cons] at hnd
    refine ih (removeIncomingRel m rid) E hGX1 (hEpres E hEm hEid) hEid hnd.2
      ?_ ?_ ?_
    · intro rid2 hrid2
      rcases hpend rid2 (List.mem_cons_of_mem rid hrid2) with ⟨r, hr, hrid3, hrtgt3⟩
      refine ⟨r, (hmemR2 r).mpr ⟨hr, ?_⟩, hrid3, hrtgt3⟩
      rw [hrid3]
      exact fun heq => hnd.1 (heq ▸ hrid2)
    · intro r hr htgt
      obtain ⟨hrm, hrne⟩ := (hmemR2 r).mp hr
      rcases List.mem_cons.mp (hd4 r hrm htgt) with heq | hmem
      · exact absurd heq hrne
      · exact hmem
    · intro r hr
      exact hnosrc r ((hmemR2 r).mp hr).1

/-- The view-cleanup loop touches neither elements nor relationships, and
keeps the view id list. -/
theorem stripViews_fold (idq : String) :
    ∀ (vids : List String) (m : ModelData),
    (vids.foldl (fun mm viewId =>
        { mm with views := modifyP (fun v => v.id == viewId) (stripElementFromViewRecord idq) mm.views }) m).elements = m.elements
    ∧ (vids.foldl (fun mm viewId =>
        { mm with views := modifyP (fun v => v.id == viewId) (stripElementFromViewRecord idq) mm.views }) m).relationships
      = m.relationships
    ∧ (vids.foldl (fun mm viewId =>
        { mm with views := modifyP (fun v => v.id == viewId) (stripElementFromViewRecord idq) mm.views }) m).views.map
        (fun v => v.id)
      = m.views.map (fun v => v.id) := by
  intro vids
  induction vids with
  | nil => intro m; exact ⟨rfl, rfl, rfl⟩
  | cons v vs ih =>
    intro m
    rw [List.foldl_cons]
    obtain ⟨h1, h2, h3⟩ := ih { m with views := modifyP (fun w => w.id == v) (stripElementFromViewRecord idq) m.views }
    refine ⟨h1, h2, h3.trans ?_⟩
    show (modifyP (fun w => w.id == v) (stripElementFromViewRecord idq)
        m.views).map (fun w => w.id) = m.views.map (fun w => w.id)
    exact map_modifyP_of_key _ (fun a => rfl)

/-- Erasing the now fully detached element restores the full package. -/
theorem goodX_erase_center (eid : String) (m : ModelData)
    (hGX : GoodX eid m)
    (hdet : ∀ r ∈ m.relationships, r.sourceId ≠ eid ∧ r.targetId ≠ eid) :
    Good { m with elements := m.elements.filter (fun e => !(e.id == eid)) } := by
  obtain ⟨hids, hsl, ha, hb, hc, hd, he, hf, hnd⟩ := hGX
  have hmemE : ∀ e : ElementObject,
      e ∈ m.elements.filter (fun e => !(e.id == eid))
        ↔ (e ∈ m.elements ∧ e.id ≠ eid) := by
    intro e
    rw [List.mem_filter]
    simp only [Bool.not_eq_true', beq_eq_false_iff_ne, ne_eq]
  refine ⟨?_, hsl, ?_, ?_, ?_, ?_, ?_, ?_, ?_⟩
  · unfold IdsNodup
    have hsubE : List.Sublist
        ((m.elements.filter (fun e => !(e.id == eid))).map (fun e => e.id))
        (m.elements.map (fun e => e.id)) := (List.filter_sublist _).map _
    exact List.Nodup.sublist
      ((hsubE.append (List.Sublist.refl _)).append (List.Sublist.refl _)) hids
  · intro r hr
    rcases ha r hr with ⟨e, hem, heid⟩
    exact ⟨e, (hmemE e).mpr ⟨hem, by rw [heid]; exact (hdet r hr).1⟩, heid⟩
  · intro r hr
    rcases hb r hr with ⟨e, hem, heid⟩
    exact ⟨e, (hmemE e).mpr ⟨hem, by rw [heid]; exact (hdet r hr).2⟩, heid⟩
  · intro e he2 rid hrid
    obtain ⟨hem, hne⟩ := (hmemE e).mp he2
    exact hc e hem hne rid hrid
  · intro e he2 rid hrid
    obtain ⟨hem, hne⟩ := (hmemE e).mp he2
    exact hd e hem hne rid hrid
  · intro r hr e he2 hid
    exact he r hr e ((hmemE e).mp he2).1 hid
  · intro r hr e he2 hid
    exact hf r hr e ((hmemE e).mp he2).1 hid
  · intro e he2
    exact hnd e ((hmemE e).mp he2).1

/-- A successful `deleteElement` that cascades or validates preserves the
well-formedness package. -/
theorem deleteElement_good {m : ModelData} {idq : String} {opts : DeleteOptions}
    {m2 : ModelData}
    (hside : opts.cascade = true ∨ opts.validate = true)
    (h : deleteElement m idq opts = (.ok (), m2)) (hg : Good m) : Good m2 := by
  unfold deleteElement at h
  cases hfind : m.elements.find? (fun e => e.id == idq) with
  | none => rw [hfind] at h; simp at h
  | some E =>
    simp only [hfind] at h
    have hEm : E ∈ m.elements := List.mem_of_find?_eq_some hfind
    have hEid : E.id = idq := by simpa using List.find?_some hfind
    have hnde := (idsNodup_parts hg.1).1
    cases hcas : opts.cascade with
    | false =>
      have hval : opts.validate = true := by
        rcases hside with h1 | h1
        · rw [hcas] at h1; cases h1
        · exact h1
      simp only [hcas, hval, Bool.not_false, Bool.true_and] at h
      split at h
      · simp at h
      · rename_i hguard
        simp only [Bool.or_eq_true, decide_eq_true_eq, not_or] at hguard
        have hlens := hguard.1
        have hlen0 : (E.outgoingRelations ++ E.incomingRelations).length = 0 := by
          omega
        obtain ⟨hout0, hin0⟩ := List.append_eq_nil.mp (List.length_eq_zero.mp hlen0)
        cases h
        have hdet : ∀ r ∈ m.relationships,
            r.sourceId ≠ idq ∧ r.targetId ≠ idq := by
          intro r hr
          constructor
          · intro hsrc
            have h2 := hg.2.2.2.2.2.2.1 r hr E hEm (hEid.trans hsrc.symm)
            rw [hout0] at h2
            cases h2
          · intro htgt
            have h2 := hg.2.2.2.2.2.2.2.1 r hr E hEm (hEid.trans htgt.symm)
            rw [hin0] at h2
            cases h2
        rw [if_neg Bool.false_ne_true]
        rw [show m.elements.eraseP (fun e => e.id == idq)
            = m.elements.filter (fun e => !(e.id == idq))
          from eraseP_eq_filter hnde]
        exact goodX_erase_center idq m (goodX_of_good idq hg) hdet
    | true =>
      simp only [hcas, Bool.not_true, Bool.and_false, Bool.false_and] at h
      rw [if_neg (by simp)] at h
      rw [if_pos trivial] at h
      cases h
      have hGX := goodX_of_good idq hg
      have hnd1 : E.outgoingRelations.Nodup := (hg.2.2.2.2.2.2.2.2 E hEm).1
      have hnd2 : E.incomingRelations.Nodup := (hg.2.2.2.2.2.2.2.2 E hEm).2
      have hpend1 : ∀ rid ∈ E.outgoingRelations,
          ∃ r ∈ m.relationships, r.id = rid ∧ r.sourceId = idq := by
        intro rid hr
        rcases hg.2.2.2.2.1 E hEm rid hr with ⟨r, hrm, h1, h2⟩
        exact ⟨r, hrm, h1, by rw [h2, hEid]⟩
      have hd41 : ∀ r ∈ m.relationships, r.sourceId = idq →
          r.id ∈ E.outgoingRelations := by
        intro r hr hsrc
        exact hg.2.2.2.2.2.2.1 r hr E hEm (hEid.trans hsrc.symm)
      have hinc1 : ∀ rid ∈ E.incomingRelations,
          ∃ r ∈ m.relationships, r.id = rid ∧ r.targetId = idq := by
        intro rid hr
        rcases hg.2.2.2.2.2.1 E hEm rid hr with ⟨r, hrm, h1, h2⟩
        exact ⟨r, hrm, h1, by rw [h2, hEid]⟩
      obtain ⟨hGX1, hEm1, hnosrc1, hinc1q⟩ := removeOutgoing_fold idq
        E.outgoingRelations m E hGX hEm hEid hnd1 hpend1 hd41 hinc1
      have hfind1 : (E.outgoingRelations.foldl removeOutgoingRel m).elements.find?
          (fun e => e.id == idq) = some E :=
        find?_eq_of_key_mem (idsNodup_parts hGX1.1).1 hEm1 hEid
      have hd42 : ∀ r ∈ (E.outgoingRelations.foldl removeOutgoingRel m).relationships,
          r.targetId = idq → r.id ∈ E.incomingRelations := by
        intro r hr htgt
        exact hGX1.2.2.2.2.2.2.2.1 r hr E hEm1 (hEid.trans htgt.symm)
      obtain ⟨hGX2, hEm2, hdet2⟩ := removeIncoming_fold idq E.incomingRelations
        (E.outgoingRelations.foldl removeOutgoingRel m) E hGX1 hEm1 hEid hnd2
        hinc1q hd42 hnosrc1
      have hfind2 : (E.incomingRelations.foldl removeIncomingRel
          (E.outgoingRelations.foldl removeOutgoingRel m)).elements.find?
          (fun e => e.id == idq) = some E :=
        find?_eq_of_key_mem (idsNodup_parts hGX2.1).1 hEm2 hEid
      have hCD : cascadeDelete m idq E
          = E.inViews.foldl (fun mm viewId =>
              { mm with views := modifyP (fun v => v.id == viewId) (stripElementFromViewRecord idq) mm.views })
            (E.incomingRelations.foldl removeIncomingRel
              (E.outgoingRelations.foldl removeOutgoingRel m)) := by
        unfold cascadeDelete
        simp only [hfind1, Option.map_some', Option.getD_some, hfind2]
      obtain ⟨hels3, hrels3, hviews3⟩ := stripViews_fold idq E.inViews
        (E.incomingRelations.foldl removeIncomingRel
          (E.outgoingRelations.foldl removeOutgoingRel m))
      rw [hCD, hels3]
      rw [show (E.incomingRelations.foldl removeIncomingRel
          (E.outgoingRelations.foldl removeOutgoingRel m)).elements.eraseP
            (fun e => e.id == idq)
          = (E.incomingRelations.foldl removeIncomingRel
            (E.outgoingRelations.foldl removeOutgoingRel m)).elements.filter
              (fun e => !(e.id == idq))
        from eraseP_eq_filter (idsNodup_parts hGX2.1).1]
      refine good_of_keys ?_ ?_ ?_
        (goodX_erase_center idq (E.incomingRelations.foldl removeIncomingRel
          (E.outgoingRelations.foldl removeOutgoingRel m)) hGX2 hdet2)
      · rfl
      · show (E.inViews.foldl (fun mm viewId =>
            { mm with views := modifyP (fun v => v.id == viewId) (stripElementFromViewRecord idq) mm.views })
          (E.incomingRelations.foldl removeIncomingRel
            (E.outgoingRelations.foldl removeOutgoingRel m))).relationships.map relKey = _
        rw [hrels3]
      · show List.Sublist ((E.inViews.foldl (fun mm viewId =>
            { mm with views := modifyP (fun v => v.id == viewId) (stripElementFromViewRecord idq) mm.views })
          (E.incomingRelations.foldl removeIncomingRel
            (E.outgoingRelations.foldl removeOutgoingRel m))).views.map (fun v => v.id)) _
        rw [hviews3]

/-- A successful operation whose side condition holds preserves the
well-formedness package. -/
theorem good_applyOp {m m1 : ModelData} {op : MutOp}
    (hside : sideCond op = true)
    (h : applyOp m op = (.ok (), m1)) (hg : Good m) : Good m1 := by
  cases op with
  | createElementOp data genId =>
    dsimp only [applyOp] at h
    cases hc : createElement m data genId with
    | mk r mq =>
      simp only [hc] at h
      cases r with
      | error e => simp [Except.map] at h
      | ok e =>
        have h2 : mq = m1 := congrArg Prod.snd h
        exact h2 ▸ createElement_good hc hg
  | updateElementOp idv data =>
    dsimp only [applyOp] at h
    cases hc : updateElement m idv data with
    | mk r mq =>
      simp only [hc] at h
      cases r with
      | error e => simp [Except.map] at h
      | ok e =>
        have h2 : mq = m1 := congrArg Prod.snd h
        exact h2 ▸ good_of_keysEq (updateElement_keysEq hc) hg
  | deleteElementOp idv opts =>
    dsimp only [applyOp] at h
    dsimp only [sideCond] at hside
    rw [Bool.or_eq_true] at hside
    exact deleteElement_good hside h hg
  | createRelationshipOp data genId =>
    dsimp only [applyOp] at h
    dsimp only [sideCond] at hside
    rw [Bool.and_eq_true] at hside
    obtain ⟨hs1, hs2⟩ := hside
    rw [beq_iff_eq] at hs1 hs2
    cases hc : createRelationship m data genId with
    | mk r mq =>
      simp only [hc] at h
      cases r with
      | error e => simp [Except.map] at h
      | ok e =>
        have h2 : mq = m1 := congrArg Prod.snd h
        exact h2 ▸ createRelationship_good hs1 hs2 hc hg
  | updateRelationshipOp idv data =>
    dsimp only [applyOp] at h
    dsimp only [sideCond] at hside
    rw [Bool.and_eq_true] at hside
    have hsv : ∀ s, data.sourceId = some s → s ≠ "" ∧ s.jsTrim = s := by
      intro s hs
      have h1 := hside.1
      rw [hs] at h1
      simp only [Bool.and_eq_true, Bool.not_eq_true', beq_eq_false_iff_ne,
        beq_iff_eq] at h1
      exact h1
    have htv : ∀ t, data.targetId = some t → t ≠ "" ∧ t.jsTrim = t := by
      intro t ht
      have h1 := hside.2
      rw [ht] at h1
      simp only [Bool.and_eq_true, Bool.not_eq_true', beq_eq_false_iff_ne,
        beq_iff_eq] at h1
      exact h1
    cases hc : updateRelationship m idv data with
    | mk r mq =>
      simp only [hc] at h
      cases r with
      | error e => simp [Except.map] at h
      | ok e =>
        have h2 : mq = m1 := congrArg Prod.snd h
        exact h2 ▸ updateRelationship_good hsv htv hc hg
  | deleteRelationshipOp idv =>
    dsimp only [applyOp] at h
    exact deleteRelationship_good h hg
  | createViewOp data genId =>
    dsimp only [applyOp] at h
    cases hc : createView m data genId with
    | mk r mq =>
      simp only [hc] at h
      cases r with
      | error e => simp [Except.map] at h
      | ok e =>
        have h2 : mq = m1 := congrArg Prod.snd h
        exact h2 ▸ createView_good hc hg
  | updateViewOp idv data =>
    dsimp only [applyOp] at h
    cases hc : updateView m idv data with
    | mk r mq =>
      simp only [hc] at h
      cases r with
      | error e => simp [Except.map] at h
      | ok e =>
        have h2 : mq = m1 := congrArg Prod.snd h
        exact h2 ▸ good_of_keysEq (updateView_keysEq hc) hg
  | deleteViewOp idv =>
    dsimp only [applyOp] at h
    exact deleteView_good h hg
  | addElementToViewOp viewId elementId parentElementId =>
    dsimp only [applyOp] at h
    exact good_of_keysEq (addElementToView_keysEq h) hg
  | removeElementFromViewOp viewId elementId =>
    dsimp only [applyOp] at h
    exact good_of_keysEq (removeElementFromView_keysEq h) hg
  | addRelationshipToViewOp viewId relationshipId =>
    dsimp only [applyOp] at h
    exact good_of_keysEq (addRelationshipToView_keysEq h) hg
  | removeRelationshipFromViewOp viewId relationshipId =>
    dsimp only [applyOp] at h
    exact good_of_keysEq (removeRelationshipFromView_keysEq h) hg
  | createPropertyDefinitionOp data =>
    dsimp only [applyOp] at h
    cases hc : createPropertyDefinition m data with
    | mk r mq =>
      simp only [hc] at h
      cases r with
      | error e => simp [Except.map] at h
      | ok e =>
        have h2 : mq = m1 := congrArg Prod.snd h
        exact h2 ▸ good_of_keysEq (createPropertyDefinition_keysEq hc) hg
  | assignPropertyOp targetId propertyDefId value =>
    dsimp only [applyOp] at h
    exact good_of_keysEq (assignProperty_keysEq h) hg
  | updatePropertyOp targetId propertyDefId value =>
    dsimp only [applyOp] at h
    exact good_of_keysEq (updateProperty_keysEq h) hg
  | deletePropertyOp targetId propertyDefId cascade =>
    dsimp only [applyOp] at h
    exact good_of_keysEq (deleteProperty_keysEq h) hg

/-- A committed sequence whose operations all satisfy their side conditions
preserves the well-formedness package. -/
theorem good_committed {m m2 : ModelData} {ops : List MutOp}
    (hrun : Committed m ops m2) :
    Good m → (∀ op ∈ ops, sideCond op = true) → Good m2 := by
  induction hrun with
  | nil m => exact fun hg _ => hg
  | cons h hrest ih =>
    intro hg hside
    exact ih (good_applyOp (hside _ (List.mem_cons_self _ _)) h hg)
      (fun op hop => hside op (List.mem_cons_of_mem _ hop))

/-- C3: every committed Mutation Engine operation sequence preserves
cross-entity invariant 2 (relationship endpoints resolve, the source's
outgoingRelations and the target's incomingRelations hold the id exactly
once, and no element holds a stale relation id), PROVIDED each operation
meets its side condition: deleteElement must have cascade or validate set,
createRelationship's endpoint inputs must be trim-invariant, and endpoint
strings supplied to updateRelationship must be non-empty and
trim-invariant. The original claim, quantified over ALL option
combinations, is refuted by the companion counterexample. -/
theorem committed_ops_preserve_invariant2 {m m2 : ModelData} {ops : List MutOp}
    (hgood : Good m) (hside : ∀ op ∈ ops, sideCond op = true)
    (hrun : Committed m ops m2) : Inv2 m2 :=
  (good_committed hrun hgood hside).2.2

/-- C3 witness: a committed cascade delete on the concrete two-element model
leaves invariant 2 intact. -/
theorem committed_ops_preserve_invariant2_witness :
    Inv2 (deleteElement modelAB "A" { cascade := true, validate := false }).2 :=
  committed_ops_preserve_invariant2 (by decide) (by decide)
    ((Committed.cons (by decide)
        (Committed.nil (deleteElement modelAB "A" { cascade := true, validate := false }).2))
      : Committed modelAB [.deleteElementOp "A" { cascade := true, validate := false }]
          (deleteElement modelAB "A" { cascade := true, validate := false }).2)

/-- C3 counterexample: deleteElement with cascade and validate both false
commits (returns ok) yet leaves a model violating invariant 2, refuting the
claim for arbitrary option combinations. -/
theorem deleteElement_no_cascade_breaks_invariant2 :
    Committed modelAB
      [.deleteElementOp "A" { cascade := false, validate := false }]
      (deleteElement modelAB "A" { cascade := false, validate := false }).2
    ∧ Good modelAB
    ∧ ¬ Inv2 (deleteElement modelAB "A" { cascade := false, validate := false }).2 :=
  ⟨Committed.cons (by decide) (Committed.nil _), by decide, by decide⟩

end ArchiScribe
